import Mathlib

/-!
# SQL aggregates of `execution/sql/aggregators.h`

A shallow embedding of the aggregate state machines (COUNT, COUNT(*), SUM, MIN,
MAX, AVG and the fixed-decimal SUM/MIN/MAX) and of the nullable SQL values they
consume, followed by the strong typedef of `common/common_defs.h` and the
reference multiplication `string_multiply` of the decimal benchmark.  A C++ member function that mutates `this` becomes a function from the
state before the call to the state after it; a `const &` argument is an
ordinary argument.

Machine integers are mathematical integers reduced explicitly:
`uint64_t` is a `Nat` taken modulo `2^64`, `int64_t` is an `Int` wrapped into
`[-2^63, 2^63)`, and the 128-bit raw value of a decimal is an `Int` with the
range made explicit.  The templates are generic in the payload type and take the
operations they use of it as a record; `AvgAggregate` is generic in the double
arithmetic, of which `ieeeDoubleOps` is the round-to-nearest-even instance on
finite values.  A call that can fail returns `Except`.
-/

namespace terrier

/-! ## Machine integers -/

/-- Number of values of a 64-bit word. -/
def UINT64_MOD : Nat := 18446744073709551616

/-- Least `int64_t`, `std::numeric_limits<int64_t>::min()`. -/
def INT64_MIN : Int := -9223372036854775808

/-- Greatest `int64_t`, `std::numeric_limits<int64_t>::max()`. -/
def INT64_MAX : Int := 9223372036854775807

/-- Least signed 128-bit integer. -/
def INT128_MIN : Int := -170141183460469231731687303715884105728

/-- Greatest signed 128-bit integer. -/
def INT128_MAX : Int := 170141183460469231731687303715884105727

/-- Two's-complement reduction of an integer to the `int64_t` range. -/
def wrapInt64 (x : Int) : Int :=
  (x + 9223372036854775808) % 18446744073709551616 - 9223372036854775808

/-- Reduction of a natural number to the `uint64_t` range. -/
def wrapUInt64 (n : Nat) : Nat := n % UINT64_MOD

/-- The integer is representable as an `int64_t`. -/
def IsInt64 (x : Int) : Prop := INT64_MIN ≤ x ∧ x ≤ INT64_MAX

instance (x : Int) : Decidable (IsInt64 x) :=
  inferInstanceAs (Decidable (INT64_MIN ≤ x ∧ x ≤ INT64_MAX))

/-- The integer is representable as a signed 128-bit integer. -/
def IsInt128 (x : Int) : Prop := INT128_MIN ≤ x ∧ x ≤ INT128_MAX

instance (x : Int) : Decidable (IsInt128 x) :=
  inferInstanceAs (Decidable (INT128_MIN ≤ x ∧ x ≤ INT128_MAX))

/-! ## `std::max` and `std::min` -/

/-- The function `std::max(a, b)`: `(a < b) ? b : a`. -/
def std_max {α : Type} (lt : α → α → Bool) (a b : α) : α :=
  if lt a b then b else a

/-- The function `std::min(a, b)`: `(b < a) ? b : a`. -/
def std_min {α : Type} (lt : α → α → Bool) (a b : α) : α :=
  if lt b a then b else a

/-! ## SQL values (`execution/sql/value.h`) -/

/-- Modelled from the spec: the base class `Val` of `execution/sql/value.h`
(absent), a SQL value with its NULL indicator `is_null_`. -/
structure Val where
  is_null_ : Bool
deriving DecidableEq, Repr

/-- Modelled from the spec: a typed SQL value of `execution/sql/value.h`
(absent), a `Val` carrying a payload `val_` of primitive type `α`.
`Integer` is the instance at `int64_t`, `Real` the instance at `double`. -/
structure NullableValue (α : Type) extends Val where
  val_ : α
deriving DecidableEq, Repr

/-- SQL integer: a nullable `int64_t`. -/
abbrev Integer := NullableValue Int

/-- SQL real: a nullable `double`.  Only finite doubles are modelled, each as the
rational number it denotes; the comparison of finite doubles is exact. -/
abbrev Real := NullableValue ℚ

/-- Modelled from the spec: the constructor `Integer(int64_t)` of
`execution/sql/value.h` (absent), which builds a non-null value; an unsigned
argument is converted to `int64_t` first. -/
def Integer.ofInt64 (v : Int) : Integer :=
  { is_null_ := false, val_ := wrapInt64 v }

/-- Modelled from the spec: `Decimal128` of `execution/sql/runtime_types.h`
(absent), a signed 128-bit raw value. -/
structure Decimal128 where
  value_ : Int
deriving DecidableEq, Repr

/-- Modelled from the spec: `DecimalVal` of `execution/sql/value.h` (absent), a
nullable `Decimal128` that also carries its `precision_`. -/
structure DecimalVal extends Val where
  val_ : Decimal128
  precision_ : Nat
deriving DecidableEq, Repr

/-- Failure raised by fixed-point arithmetic that leaves the 128-bit range. -/
inductive ArithmeticError where
  | ArithmeticOverflow
deriving DecidableEq, Repr

/-- Modelled from the spec: `Decimal128::operator+=` of
`execution/sql/runtime_types.h` (absent): exact addition of the raw values,
which reports overflow when the sum leaves the signed 128-bit range. -/
def Decimal128.AddAndSet (a b : Decimal128) : Except ArithmeticError Decimal128 :=
  if IsInt128 (a.value_ + b.value_) then .ok { value_ := a.value_ + b.value_ }
  else .error .ArithmeticOverflow

/-- Modelled from the spec: `Decimal128::operator<` of
`execution/sql/runtime_types.h` (absent): the order of the raw values. -/
def Decimal128.lt (a b : Decimal128) : Bool := decide (a.value_ < b.value_)

/-! ## Payload operations used by the templates -/

/-- What `SumAggregate<T>` uses of `decltype(T::val_)`: the value
`static_cast<decltype(T::val_)>(0)` and `operator+=`. -/
structure SumOps (α : Type) where
  zero : α
  add : α → α → α

/-- What `MinAggregate<T>` and `MaxAggregate<T>` use of `decltype(T::val_)`:
`operator<` (inside `std::min` and `std::max`) and the two members
`std::numeric_limits<decltype(T::val_)>::min()` and `::max()`. -/
structure LimitOps (α : Type) where
  lt : α → α → Bool
  numeric_limits_min : α
  numeric_limits_max : α

/-- Sums over `int64_t`: addition wraps around modulo `2^64`. -/
def int64SumOps : SumOps Int :=
  { zero := 0, add := fun a b => wrapInt64 (a + b) }

/-- Order and limits of `int64_t`. -/
def int64LimitOps : LimitOps Int :=
  { lt := fun a b => decide (a < b),
    numeric_limits_min := INT64_MIN,
    numeric_limits_max := INT64_MAX }

/-- The constant `DBL_MIN`, the smallest positive normalized `double`, `2^-1022`. -/
def DBL_MIN : ℚ := 1 / 2 ^ 1022

/-- The constant `DBL_MAX`, the greatest finite `double`, `(2^53 - 1) * 2^971`. -/
def DBL_MAX : ℚ := (2 ^ 53 - 1) * 2 ^ 971

/-- Order and limits of `double`.  For a floating-point type
`std::numeric_limits<double>::min()` is `DBL_MIN`, the smallest positive
normalized value (the most negative finite value is `lowest()`), and `max()` is
`DBL_MAX`. -/
def doubleLimitOps : LimitOps ℚ :=
  { lt := fun a b => decide (a < b),
    numeric_limits_min := DBL_MIN,
    numeric_limits_max := DBL_MAX }

/-! ## COUNT -/

/-- Counting aggregate: `uint64_t count_{0}`. -/
structure CountAggregate where
  count_ : Nat
deriving DecidableEq, Repr

/-- The constructor `CountAggregate()`. -/
def CountAggregate.ctor : CountAggregate := { count_ := 0 }

/-- The method `Advance`: `count_ += static_cast<uint64_t>(!val.is_null_)`. -/
def CountAggregate.Advance (s : CountAggregate) (val : Val) : CountAggregate :=
  { count_ := wrapUInt64 (s.count_ + (if !val.is_null_ then 1 else 0)) }

/-- The method `Merge`: `count_ += that.count_`. -/
def CountAggregate.Merge (s that : CountAggregate) : CountAggregate :=
  { count_ := wrapUInt64 (s.count_ + that.count_) }

/-- The method `Reset`: `count_ = 0`. -/
def CountAggregate.Reset (_s : CountAggregate) : CountAggregate := { count_ := 0 }

/-- The method `GetCountResult`: `Integer(count_)`. -/
def CountAggregate.GetCountResult (s : CountAggregate) : Integer :=
  Integer.ofInt64 (s.count_ : Int)

/-- One `Advance` per element, left to right. -/
def CountAggregate.AdvanceAll (s : CountAggregate) (vals : List Val) : CountAggregate :=
  vals.foldl CountAggregate.Advance s

/-! ## COUNT(*) -/

/-- COUNT(*) aggregate: `uint64_t count_{0}`. -/
structure CountStarAggregate where
  count_ : Nat
deriving DecidableEq, Repr

/-- The constructor `CountStarAggregate()`. -/
def CountStarAggregate.ctor : CountStarAggregate := { count_ := 0 }

/-- The method `Advance`: `count_++`, the value is unused. -/
def CountStarAggregate.Advance (s : CountStarAggregate) (_val : Val) : CountStarAggregate :=
  { count_ := wrapUInt64 (s.count_ + 1) }

/-- The method `Merge`: `count_ += that.count_`. -/
def CountStarAggregate.Merge (s that : CountStarAggregate) : CountStarAggregate :=
  { count_ := wrapUInt64 (s.count_ + that.count_) }

/-- The method `Reset`: `count_ = 0`. -/
def CountStarAggregate.Reset (_s : CountStarAggregate) : CountStarAggregate := { count_ := 0 }

/-- The method `GetCountResult`: `Integer(count_)`. -/
def CountStarAggregate.GetCountResult (s : CountStarAggregate) : Integer :=
  Integer.ofInt64 (s.count_ : Int)

/-- One `Advance` per element, left to right. -/
def CountStarAggregate.AdvanceAll (s : CountStarAggregate) (vals : List Val) :
    CountStarAggregate :=
  vals.foldl CountStarAggregate.Advance s

/-! ## SUM -/

/-- Generic summation `SumAggregate<T>`: the running sum `T sum_`. -/
structure SumAggregate (α : Type) where
  sum_ : NullableValue α
deriving DecidableEq, Repr

/-- The constructor `SumAggregate()`: `sum_` is built from
`static_cast<decltype(T::val_)>(0)` and then `sum_.is_null_ = true`. -/
def SumAggregate.ctor {α : Type} (ops : SumOps α) : SumAggregate α :=
  { sum_ := { is_null_ := true, val_ := ops.zero } }

/-- The method `Advance`: a NULL input changes nothing, otherwise
`sum_.is_null_ = false; sum_.val_ += val.val_`. -/
def SumAggregate.Advance {α : Type} (ops : SumOps α) (s : SumAggregate α)
    (val : NullableValue α) : SumAggregate α :=
  if val.is_null_ then s
  else { sum_ := { is_null_ := false, val_ := ops.add s.sum_.val_ val.val_ } }

/-- The method `Merge`: a NULL partial sum changes nothing, otherwise
`sum_.is_null_ = false; sum_.val_ += that.sum_.val_`. -/
def SumAggregate.Merge {α : Type} (ops : SumOps α) (s that : SumAggregate α) :
    SumAggregate α :=
  if that.sum_.is_null_ then s
  else { sum_ := { is_null_ := false, val_ := ops.add s.sum_.val_ that.sum_.val_ } }

/-- The method `Reset`: `sum_.is_null_ = true; sum_.val_ = 0`. -/
def SumAggregate.Reset {α : Type} (ops : SumOps α) (_s : SumAggregate α) : SumAggregate α :=
  { sum_ := { is_null_ := true, val_ := ops.zero } }

/-- The method `GetResultSum`: the running sum `sum_`. -/
def SumAggregate.GetResultSum {α : Type} (s : SumAggregate α) : NullableValue α := s.sum_

/-- One `Advance` per element, left to right. -/
def SumAggregate.AdvanceAll {α : Type} (ops : SumOps α) (s : SumAggregate α)
    (vals : List (NullableValue α)) : SumAggregate α :=
  vals.foldl (SumAggregate.Advance ops) s

/-- Fixed-decimal summation `FixedDecimalSumAggregate`: the running sum
`DecimalVal sum_`. -/
structure FixedDecimalSumAggregate where
  sum_ : DecimalVal
deriving DecidableEq, Repr

/-- The method `Advance`: a NULL input changes nothing, otherwise
`sum_.precision_ = val.precision_; sum_.is_null_ = false; sum_.val_ += val.val_`,
where the addition may report overflow. -/
def FixedDecimalSumAggregate.Advance (s : FixedDecimalSumAggregate) (val : DecimalVal) :
    Except ArithmeticError FixedDecimalSumAggregate :=
  if val.is_null_ then .ok s
  else
    match Decimal128.AddAndSet s.sum_.val_ val.val_ with
    | .ok v => .ok { sum_ := { is_null_ := false, val_ := v, precision_ := val.precision_ } }
    | .error e => .error e

/-- The method `Merge`: a NULL partial sum changes nothing, otherwise
`sum_.precision_ = that.sum_.precision_; sum_.is_null_ = false;
sum_.val_ += that.sum_.val_`, where the addition may report overflow. -/
def FixedDecimalSumAggregate.Merge (s that : FixedDecimalSumAggregate) :
    Except ArithmeticError FixedDecimalSumAggregate :=
  if that.sum_.is_null_ then .ok s
  else
    match Decimal128.AddAndSet s.sum_.val_ that.sum_.val_ with
    | .ok v =>
      .ok { sum_ := { is_null_ := false, val_ := v, precision_ := that.sum_.precision_ } }
    | .error e => .error e

/-- The method `GetResultSum`: the running sum `sum_`. -/
def FixedDecimalSumAggregate.GetResultSum (s : FixedDecimalSumAggregate) : DecimalVal := s.sum_

/-! ## MAX -/

/-- Generic maximum `MaxAggregate<T>`: the running maximum `T max_`. -/
structure MaxAggregate (α : Type) where
  max_ : NullableValue α
deriving DecidableEq, Repr

/-- The constructor `MaxAggregate()`: `max_` is built from
`std::numeric_limits<decltype(T::val_)>::min()` and then `max_.is_null_ = true`. -/
def MaxAggregate.ctor {α : Type} (ops : LimitOps α) : MaxAggregate α :=
  { max_ := { is_null_ := true, val_ := ops.numeric_limits_min } }

/-- The method `Advance`: a NULL input changes nothing, otherwise
`max_.is_null_ = false; max_.val_ = std::max(val.val_, max_.val_)`. -/
def MaxAggregate.Advance {α : Type} (ops : LimitOps α) (s : MaxAggregate α)
    (val : NullableValue α) : MaxAggregate α :=
  if val.is_null_ then s
  else { max_ := { is_null_ := false, val_ := std_max ops.lt val.val_ s.max_.val_ } }

/-- The method `Merge`: a NULL partial maximum changes nothing, otherwise
`max_.is_null_ = false; max_.val_ = std::max(that.max_.val_, max_.val_)`. -/
def MaxAggregate.Merge {α : Type} (ops : LimitOps α) (s that : MaxAggregate α) :
    MaxAggregate α :=
  if that.max_.is_null_ then s
  else { max_ := { is_null_ := false, val_ := std_max ops.lt that.max_.val_ s.max_.val_ } }

/-- The method `Reset`: `max_.is_null_ = true;
max_.val_ = std::numeric_limits<decltype(T::val_)>::min()`. -/
def MaxAggregate.Reset {α : Type} (ops : LimitOps α) (_s : MaxAggregate α) : MaxAggregate α :=
  { max_ := { is_null_ := true, val_ := ops.numeric_limits_min } }

/-- The method `GetResultMax`: the running maximum `max_`. -/
def MaxAggregate.GetResultMax {α : Type} (s : MaxAggregate α) : NullableValue α := s.max_

/-- One `Advance` per element, left to right. -/
def MaxAggregate.AdvanceAll {α : Type} (ops : LimitOps α) (s : MaxAggregate α)
    (vals : List (NullableValue α)) : MaxAggregate α :=
  vals.foldl (MaxAggregate.Advance ops) s

/-- Fixed-decimal maximum `FixedDecimalMaxAggregate`: the running maximum
`DecimalVal max_`. -/
structure FixedDecimalMaxAggregate where
  max_ : DecimalVal
deriving DecidableEq, Repr

/-- The method `Advance`: a NULL input changes nothing, otherwise
`max_.precision_ = val.precision_; max_.is_null_ = false;
max_.val_ = std::max(val.val_, max_.val_)`. -/
def FixedDecimalMaxAggregate.Advance (s : FixedDecimalMaxAggregate) (val : DecimalVal) :
    FixedDecimalMaxAggregate :=
  if val.is_null_ then s
  else { max_ := { is_null_ := false, val_ := std_max Decimal128.lt val.val_ s.max_.val_,
                   precision_ := val.precision_ } }

/-- The method `Merge`: a NULL partial maximum changes nothing, otherwise
`max_.precision_ = that.max_.precision_; max_.is_null_ = false;
max_.val_ = std::max(that.max_.val_, max_.val_)`. -/
def FixedDecimalMaxAggregate.Merge (s that : FixedDecimalMaxAggregate) :
    FixedDecimalMaxAggregate :=
  if that.max_.is_null_ then s
  else { max_ := { is_null_ := false, val_ := std_max Decimal128.lt that.max_.val_ s.max_.val_,
                   precision_ := that.max_.precision_ } }

/-- The method `GetResultMax`: the running maximum `max_`. -/
def FixedDecimalMaxAggregate.GetResultMax (s : FixedDecimalMaxAggregate) : DecimalVal := s.max_

/-! ## MIN -/

/-- Generic minimum `MinAggregate<T>`: the running minimum `T min_`. -/
structure MinAggregate (α : Type) where
  min_ : NullableValue α
deriving DecidableEq, Repr

/-- The constructor `MinAggregate()`: `min_` is built from
`std::numeric_limits<decltype(T::val_)>::max()` and then `min_.is_null_ = true`. -/
def MinAggregate.ctor {α : Type} (ops : LimitOps α) : MinAggregate α :=
  { min_ := { is_null_ := true, val_ := ops.numeric_limits_max } }

/-- The method `Advance`: a NULL input changes nothing, otherwise
`min_.is_null_ = false; min_.val_ = std::min(val.val_, min_.val_)`. -/
def MinAggregate.Advance {α : Type} (ops : LimitOps α) (s : MinAggregate α)
    (val : NullableValue α) : MinAggregate α :=
  if val.is_null_ then s
  else { min_ := { is_null_ := false, val_ := std_min ops.lt val.val_ s.min_.val_ } }

/-- The method `Merge`: a NULL partial minimum changes nothing, otherwise
`min_.is_null_ = false; min_.val_ = std::min(that.min_.val_, min_.val_)`. -/
def MinAggregate.Merge {α : Type} (ops : LimitOps α) (s that : MinAggregate α) :
    MinAggregate α :=
  if that.min_.is_null_ then s
  else { min_ := { is_null_ := false, val_ := std_min ops.lt that.min_.val_ s.min_.val_ } }

/-- The method `Reset`: `min_.is_null_ = true;
min_.val_ = std::numeric_limits<decltype(T::val_)>::max()`. -/
def MinAggregate.Reset {α : Type} (ops : LimitOps α) (_s : MinAggregate α) : MinAggregate α :=
  { min_ := { is_null_ := true, val_ := ops.numeric_limits_max } }

/-- The method `GetResultMin`: the running minimum `min_`. -/
def MinAggregate.GetResultMin {α : Type} (s : MinAggregate α) : NullableValue α := s.min_

/-- One `Advance` per element, left to right. -/
def MinAggregate.AdvanceAll {α : Type} (ops : LimitOps α) (s : MinAggregate α)
    (vals : List (NullableValue α)) : MinAggregate α :=
  vals.foldl (MinAggregate.Advance ops) s

/-- Fixed-decimal minimum `FixedDecimalMinAggregate`: the running minimum
`DecimalVal min_`. -/
structure FixedDecimalMinAggregate where
  min_ : DecimalVal
deriving DecidableEq, Repr

/-- The method `Advance`: a NULL input changes nothing, otherwise
`min_.precision_ = val.precision_; min_.is_null_ = false;
min_.val_ = std::min(val.val_, min_.val_)`. -/
def FixedDecimalMinAggregate.Advance (s : FixedDecimalMinAggregate) (val : DecimalVal) :
    FixedDecimalMinAggregate :=
  if val.is_null_ then s
  else { min_ := { is_null_ := false, val_ := std_min Decimal128.lt val.val_ s.min_.val_,
                   precision_ := val.precision_ } }

/-- The method `Merge`: a NULL partial minimum changes nothing, otherwise
`min_.precision_ = that.min_.precision_; min_.is_null_ = false;
min_.val_ = std::min(that.min_.val_, min_.val_)`. -/
def FixedDecimalMinAggregate.Merge (s that : FixedDecimalMinAggregate) :
    FixedDecimalMinAggregate :=
  if that.min_.is_null_ then s
  else { min_ := { is_null_ := false, val_ := std_min Decimal128.lt that.min_.val_ s.min_.val_,
                   precision_ := that.min_.precision_ } }

/-- The method `GetResultMin`: the running minimum `min_`. -/
def FixedDecimalMinAggregate.GetResultMin (s : FixedDecimalMinAggregate) : DecimalVal := s.min_

/-! ## AVG -/

/-- The arithmetic of `double` that `AvgAggregate` uses, over a carrier `D` of
double values: the constant `0.0`, `operator+=`, `operator/` and the conversion
`static_cast<double>` of a `uint64_t`. -/
structure DoubleOps (D : Type) where
  zero : D
  add : D → D → D
  div : D → D → D
  ofUInt64 : Nat → D

/-- Average aggregate: `double sum_{0.0}` and `uint64_t count_{0}`. -/
structure AvgAggregate (D : Type) where
  sum_ : D
  count_ : Nat
deriving DecidableEq, Repr

/-- The constructor `AvgAggregate()`. -/
def AvgAggregate.ctor {D : Type} (ops : DoubleOps D) : AvgAggregate D :=
  { sum_ := ops.zero, count_ := 0 }

/-- The method `Advance<T>`: a NULL input changes nothing, otherwise
`sum_ += static_cast<double>(val.val_); count_++`.  The conversion of the payload
type of `T` to `double` is the argument `toDouble`. -/
def AvgAggregate.Advance {D α : Type} (ops : DoubleOps D) (toDouble : α → D)
    (s : AvgAggregate D) (val : NullableValue α) : AvgAggregate D :=
  if val.is_null_ then s
  else { sum_ := ops.add s.sum_ (toDouble val.val_), count_ := wrapUInt64 (s.count_ + 1) }

/-- The method `Merge`: `sum_ += that.sum_; count_ += that.count_`. -/
def AvgAggregate.Merge {D : Type} (ops : DoubleOps D) (s that : AvgAggregate D) :
    AvgAggregate D :=
  { sum_ := ops.add s.sum_ that.sum_, count_ := wrapUInt64 (s.count_ + that.count_) }

/-- The method `Reset`: `sum_ = 0.0; count_ = 0`. -/
def AvgAggregate.Reset {D : Type} (ops : DoubleOps D) (_s : AvgAggregate D) : AvgAggregate D :=
  { sum_ := ops.zero, count_ := 0 }

/-! ## Fixed-decimal constructors, `Reset` and runs -/

/-- Number of values of a 128-bit word. -/
def UINT128_MOD : Nat := 340282366920938463463374607431768211456

/-- Two's-complement reduction of an integer to the signed 128-bit range. -/
def wrapInt128 (x : Int) : Int :=
  (x + 170141183460469231731687303715884105728) % 340282366920938463463374607431768211456
    - 170141183460469231731687303715884105728

/-- Reduction of an integer to the `uint128_t` range. -/
def wrapUInt128 (x : Int) : Int := x % 340282366920938463463374607431768211456

/-- Modelled from the spec: `Decimal128::SetValue` of
`execution/sql/runtime_types.h` (absent): in-place replacement of the stored
integer; the argument is converted to the signed 128-bit type of the raw value. -/
def Decimal128.SetValue (_d : Decimal128) (raw : Int) : Decimal128 :=
  { value_ := wrapInt128 raw }

/-- The local `minval` of `FixedDecimalMaxAggregate`: `int128_t minval = 1;
minval = minval << 127`, in two's complement. -/
def FixedDecimalMaxAggregate.minval : Int := wrapInt128 (1 * 2 ^ 127)

/-- The local `maxval` of `FixedDecimalMinAggregate`: `uint128_t maxval = 1;
maxval = maxval << 127; maxval -= 1`. -/
def FixedDecimalMinAggregate.maxval : Int := wrapUInt128 (wrapUInt128 (1 * 2 ^ 127) - 1)

/-- The constructor `FixedDecimalSumAggregate()`: `sum_` is built from
`static_cast<decltype(DecimalVal::val_)>(0)` and then `sum_.is_null_ = true`.
The precision that the constructor `DecimalVal(Decimal128)` of
`execution/sql/value.h` (absent) gives is the argument `precision0`. -/
def FixedDecimalSumAggregate.ctor (precision0 : Nat) : FixedDecimalSumAggregate :=
  { sum_ := { is_null_ := true, val_ := { value_ := 0 }, precision_ := precision0 } }

/-- The method `Reset`: `sum_.is_null_ = true; sum_.val_ = Decimal128(0)`;
`sum_.precision_` is not assigned. -/
def FixedDecimalSumAggregate.Reset (s : FixedDecimalSumAggregate) : FixedDecimalSumAggregate :=
  { sum_ := { is_null_ := true, val_ := { value_ := 0 }, precision_ := s.sum_.precision_ } }

/-- One `Advance` per element, left to right; the first failure ends the run. -/
def FixedDecimalSumAggregate.AdvanceAll (s : FixedDecimalSumAggregate) :
    List DecimalVal → Except ArithmeticError FixedDecimalSumAggregate
  | [] => .ok s
  | v :: vs =>
    match FixedDecimalSumAggregate.Advance s v with
    | .ok s1 => FixedDecimalSumAggregate.AdvanceAll s1 vs
    | .error e => .error e

/-- The constructor `FixedDecimalMaxAggregate()`: `max_` is built from a
`Decimal128`, then `max_.val_.SetValue(minval)` and `max_.is_null_ = true`.
The precision given by `DecimalVal(Decimal128)` is the argument `precision0`. -/
def FixedDecimalMaxAggregate.ctor (precision0 : Nat) : FixedDecimalMaxAggregate :=
  { max_ := { is_null_ := true,
              val_ := Decimal128.SetValue { value_ := 0 } FixedDecimalMaxAggregate.minval,
              precision_ := precision0 } }

/-- The method `Reset`: `max_.is_null_ = true; max_.val_.SetValue(minval)`;
`max_.precision_` is not assigned. -/
def FixedDecimalMaxAggregate.Reset (s : FixedDecimalMaxAggregate) : FixedDecimalMaxAggregate :=
  { max_ := { is_null_ := true,
              val_ := Decimal128.SetValue s.max_.val_ FixedDecimalMaxAggregate.minval,
              precision_ := s.max_.precision_ } }

/-- One `Advance` per element, left to right. -/
def FixedDecimalMaxAggregate.AdvanceAll (s : FixedDecimalMaxAggregate)
    (vals : List DecimalVal) : FixedDecimalMaxAggregate :=
  vals.foldl FixedDecimalMaxAggregate.Advance s

/-- The constructor `FixedDecimalMinAggregate()`: `min_` is built from a
`Decimal128`, then `min_.val_.SetValue(maxval)` and `min_.is_null_ = true`.
The precision given by `DecimalVal(Decimal128)` is the argument `precision0`. -/
def FixedDecimalMinAggregate.ctor (precision0 : Nat) : FixedDecimalMinAggregate :=
  { min_ := { is_null_ := true,
              val_ := Decimal128.SetValue { value_ := 0 } FixedDecimalMinAggregate.maxval,
              precision_ := precision0 } }

/-- The method `Reset`: `min_.is_null_ = true; min_.val_.SetValue(maxval)`;
`min_.precision_` is not assigned. -/
def FixedDecimalMinAggregate.Reset (s : FixedDecimalMinAggregate) : FixedDecimalMinAggregate :=
  { min_ := { is_null_ := true,
              val_ := Decimal128.SetValue s.min_.val_ FixedDecimalMinAggregate.maxval,
              precision_ := s.min_.precision_ } }

/-- One `Advance` per element, left to right. -/
def FixedDecimalMinAggregate.AdvanceAll (s : FixedDecimalMinAggregate)
    (vals : List DecimalVal) : FixedDecimalMinAggregate :=
  vals.foldl FixedDecimalMinAggregate.Advance s

/-! ## AVG result and runs -/

/-- Modelled from the spec: `Real::Null()` of `execution/sql/value.h` (absent),
the NULL real; its payload is `0.0`. -/
def Real.Null {D : Type} (ops : DoubleOps D) : NullableValue D :=
  { is_null_ := true, val_ := ops.zero }

/-- The method `GetResultAvg`: `Real::Null()` when `count_ == 0`, otherwise
`Real(sum_ / static_cast<double>(count_))`. -/
def AvgAggregate.GetResultAvg {D : Type} (ops : DoubleOps D) (s : AvgAggregate D) :
    NullableValue D :=
  if s.count_ = 0 then Real.Null ops
  else { is_null_ := false, val_ := ops.div s.sum_ (ops.ofUInt64 s.count_) }

/-- One `Advance` per element, left to right. -/
def AvgAggregate.AdvanceAll {D α : Type} (ops : DoubleOps D) (toDouble : α → D)
    (s : AvgAggregate D) (vals : List (NullableValue α)) : AvgAggregate D :=
  vals.foldl (AvgAggregate.Advance ops toDouble) s

/-! ## Decimal multiplication (`execution/sql/runtime_types.h`) -/

/-- Modelled from the spec: `Decimal128::MultiplyAndSet` of
`execution/sql/runtime_types.h` (absent): the exact product of the two raw values
in a wider intermediate, divided by `10^precision` with the remainder discarded
(the division of C++, which rounds toward zero); a rescaled result outside the
signed 128-bit range is reported as overflow. -/
def Decimal128.MultiplyAndSet (a b : Decimal128) (precision : Nat) :
    Except ArithmeticError Decimal128 :=
  if IsInt128 (Int.tdiv (a.value_ * b.value_) (10 ^ precision))
  then .ok { value_ := Int.tdiv (a.value_ * b.value_) (10 ^ precision) }
  else .error .ArithmeticOverflow

/-! ## Strong typedefs (`common/common_defs.h`) -/

/-- What `StrongTypeAlias<Tag, T>` uses of the underlying type `T`: its
`operator==` and its `operator!=`. -/
structure EqualityOps (T : Type) where
  eq : T → T → Bool
  ne : T → T → Bool

/-- The operators `==` and `!=` of a type on which they decide equality, as for
the built-in integer types. -/
def EqualityOps.builtin (T : Type) [DecidableEq T] : EqualityOps T :=
  { eq := fun a b => decide (a = b), ne := fun a b => decide (a ≠ b) }

/-- The class `StrongTypeAlias<Tag, T>`: the underlying value `T val_`; the tag
only tells the aliases apart. -/
structure StrongTypeAlias (Tag : Type) (T : Type) where
  val_ : T
deriving DecidableEq, Repr

/-- The constructor `explicit StrongTypeAlias(const T &val)`. -/
def StrongTypeAlias.ctor {Tag T : Type} (val : T) : StrongTypeAlias Tag T :=
  { val_ := val }

/-- The operator `T &operator!()`: the underlying value. -/
def StrongTypeAlias.operatorNot {Tag T : Type} (x : StrongTypeAlias Tag T) : T := x.val_

/-- The operator `operator==`: `val_ == rhs.val_`. -/
def StrongTypeAlias.operatorEq {Tag T : Type} (ops : EqualityOps T)
    (x rhs : StrongTypeAlias Tag T) : Bool :=
  ops.eq x.val_ rhs.val_

/-- The operator `operator!=`: `val_ != rhs.val_`. -/
def StrongTypeAlias.operatorNe {Tag T : Type} (ops : EqualityOps T)
    (x rhs : StrongTypeAlias Tag T) : Bool :=
  ops.ne x.val_ rhs.val_

/-! ## `string_multiply` (`benchmark/storage/decimal_benchmark.cpp`)

A `std::string` is the list of its characters, each character the integer value
of the `char`; `'0'` is 48.  A store into a cell keeps the exact integer: that it
fits a `char` is part of what is proved. -/

/-- The local `p` of the loop body at `(i, j)`:
`(nums1[i] - '0') * (nums2[j] - '0') + (ans[i + j + 1] - '0')`. -/
def string_multiply.p (nums1 nums2 ans : List Int) (i j : Nat) : Int :=
  (nums1.getD i 0 - 48) * (nums2.getD j 0 - 48) + (ans.getD (i + j + 1) 0 - 48)

/-- The first store of the loop body: `ans[i+j+1] = p % 10 + '0'`, with the
remainder of C++. -/
def string_multiply.storeLow (nums1 nums2 : List Int) (i j : Nat) (ans : List Int) : List Int :=
  ans.set (i + j + 1) (Int.tmod (string_multiply.p nums1 nums2 ans i j) 10 + 48)

/-- The second store of the loop body: `ans[i+j] += p / 10`, with the quotient of
C++. -/
def string_multiply.storeHigh (p : Int) (i j : Nat) (ans : List Int) : List Int :=
  ans.set (i + j) (ans.getD (i + j) 0 + Int.tdiv p 10)

/-- The loop body at `(i, j)`: `p` is computed, then the two stores. -/
def string_multiply.body (nums1 nums2 : List Int) (i j : Nat) (ans : List Int) : List Int :=
  string_multiply.storeHigh (string_multiply.p nums1 nums2 ans i j) i j
    (string_multiply.storeLow nums1 nums2 i j ans)

/-- The inner loop `for (int j = m - 1; j >= 0; j--)` of row `i`, with the
columns `j - 1, ..., 0` still to do. -/
def string_multiply.innerLoop (nums1 nums2 : List Int) (i : Nat) : Nat → List Int → List Int
  | 0, ans => ans
  | j + 1, ans =>
    string_multiply.innerLoop nums1 nums2 i j (string_multiply.body nums1 nums2 i j ans)

/-- The outer loop `for (int i = n - 1; i >= 0; i--)`, with the rows
`i - 1, ..., 0` still to do. -/
def string_multiply.outerLoop (nums1 nums2 : List Int) : Nat → List Int → List Int
  | 0, ans => ans
  | i + 1, ans =>
    string_multiply.outerLoop nums1 nums2 i
      (string_multiply.innerLoop nums1 nums2 i nums2.length ans)

/-- The last loop: `ans.substr(i)` at the first `i` with `ans[i] != '0'`, and
`"0"` when there is none. -/
def string_multiply.strip : List Int → List Int
  | [] => [48]
  | c :: cs => if c ≠ 48 then c :: cs else string_multiply.strip cs

/-- The function `string_multiply(nums1, nums2)`: the buffer `ans(n + m, '0')`,
the two nested loops, then the leading zeros are dropped. -/
def string_multiply (nums1 nums2 : List Int) : List Int :=
  string_multiply.strip
    (string_multiply.outerLoop nums1 nums2 nums1.length
      (List.replicate (nums1.length + nums2.length) 48))

/-- The buffers the inner loop of row `i` goes through: after each of the two
stores of each iteration. -/
def string_multiply.innerTrace (nums1 nums2 : List Int) (i : Nat) :
    Nat → List Int → List (List Int)
  | 0, _ => []
  | j + 1, ans =>
    string_multiply.storeLow nums1 nums2 i j ans
      :: string_multiply.body nums1 nums2 i j ans
      :: string_multiply.innerTrace nums1 nums2 i j (string_multiply.body nums1 nums2 i j ans)

/-- The buffers the outer loop goes through. -/
def string_multiply.outerTrace (nums1 nums2 : List Int) : Nat → List Int → List (List Int)
  | 0, _ => []
  | i + 1, ans =>
    string_multiply.innerTrace nums1 nums2 i nums2.length ans
      ++ string_multiply.outerTrace nums1 nums2 i
          (string_multiply.innerLoop nums1 nums2 i nums2.length ans)

/-- Every value the answer buffer takes during `string_multiply`: the initial
buffer, then the buffer after each store. -/
def string_multiply.trace (nums1 nums2 : List Int) : List (List Int) :=
  List.replicate (nums1.length + nums2.length) 48
    :: string_multiply.outerTrace nums1 nums2 nums1.length
        (List.replicate (nums1.length + nums2.length) 48)

/-! ## Vocabulary of the statements -/

/-- Payloads of the non-null elements of a list of values, in order. -/
def nonNullPayloads {α : Type} (vals : List (NullableValue α)) : List α :=
  (vals.filter (fun v => !v.is_null_)).map (fun v => v.val_)

/-- A SQL integer whose payload is representable as an `int64_t`. -/
def Integer.WellFormed (v : Integer) : Prop := IsInt64 v.val_

instance (v : Integer) : Decidable (Integer.WellFormed v) :=
  inferInstanceAs (Decidable (IsInt64 v.val_))

/-- States reached from `init` by finitely many `Advance` calls, each with a
well-formed SQL integer. -/
inductive ReachableBy {σ : Type} (init : σ) (step : σ → Integer → σ) : σ → Prop where
  | fresh : ReachableBy init step init
  | advance (s : σ) (v : Integer) :
      ReachableBy init step s → Integer.WellFormed v → ReachableBy init step (step s v)

/-- States of `SumAggregate<Integer>` reachable from a fresh one by `Advance`. -/
def SumAggregate.Reachable : SumAggregate Int → Prop :=
  ReachableBy (SumAggregate.ctor int64SumOps) (SumAggregate.Advance int64SumOps)

/-- States of `MaxAggregate<Integer>` reachable from a fresh one by `Advance`. -/
def MaxAggregate.Reachable : MaxAggregate Int → Prop :=
  ReachableBy (MaxAggregate.ctor int64LimitOps) (MaxAggregate.Advance int64LimitOps)

/-- States of `MinAggregate<Integer>` reachable from a fresh one by `Advance`. -/
def MinAggregate.Reachable : MinAggregate Int → Prop :=
  ReachableBy (MinAggregate.ctor int64LimitOps) (MinAggregate.Advance int64LimitOps)

/-- The SQL integer NULL, with the payload 0. -/
def Integer.Null : Integer := { is_null_ := true, val_ := 0 }

/-- The inputs `[5, NULL, 3, NULL, 2]`. -/
def sumScenario : List Integer :=
  [Integer.ofInt64 5, Integer.Null, Integer.ofInt64 3, Integer.Null, Integer.ofInt64 2]

/-- The inputs `[NULL, 7, 3]`. -/
def maxScenario : List Integer := [Integer.Null, Integer.ofInt64 7, Integer.ofInt64 3]

/-- The inputs `[4, NULL, -6, 9]`. -/
def minScenario : List Integer :=
  [Integer.ofInt64 4, Integer.Null, Integer.ofInt64 (-6), Integer.ofInt64 9]

/-- The inputs `[NULL, x, NULL, y]` seen as plain values: two of four are non-null. -/
def countScenario : List Val :=
  [{ is_null_ := true }, { is_null_ := false }, { is_null_ := true }, { is_null_ := false }]

/-- The finite double `-1.0`, non-null. -/
def Real.minusOne : Real := { is_null_ := false, val_ := -1 }

/-- The `SumAggregate<Integer>` state after one `Advance` with the non-null `x`. -/
def sumAfter (x : Int) : SumAggregate Int :=
  SumAggregate.Advance int64SumOps (SumAggregate.ctor int64SumOps) (Integer.ofInt64 x)

/-- The `MinAggregate<Integer>` state after one `Advance` with the non-null `x`. -/
def minAfter (x : Int) : MinAggregate Int :=
  MinAggregate.Advance int64LimitOps (MinAggregate.ctor int64LimitOps) (Integer.ofInt64 x)

/-- The `MaxAggregate<Integer>` state after one `Advance` with the non-null `x`. -/
def maxAfter (x : Int) : MaxAggregate Int :=
  MaxAggregate.Advance int64LimitOps (MaxAggregate.ctor int64LimitOps) (Integer.ofInt64 x)

/-! ## Double-precision arithmetic -/

/-- A finite `double`, the number `mant * 2^exp`, in canonical form: `mant` is
odd, or both fields are zero. -/
structure Double where
  mant : Int
  exp : Int
deriving DecidableEq, Repr

/-- Number of binary digits of `n`; `fuel` bounds the number of halvings, and
`fuel = n` always suffices. -/
def bitLength : Nat → Nat → Nat
  | 0, _ => 0
  | fuel + 1, n => if n = 0 then 0 else bitLength fuel (n / 2) + 1

/-- The integer `e` with `2^e ≤ n / d < 2^(e+1)`, for positive `n` and `d`. -/
def binade (n d : Nat) : Int :=
  let e0 : Int := (bitLength n n : Int) - (bitLength d d : Int)
  if 0 ≤ e0 then (if d * 2 ^ e0.toNat ≤ n then e0 else e0 - 1)
  else (if d ≤ n * 2 ^ (-e0).toNat then e0 else e0 - 1)

/-- Nearest integer to `num / den`, a tie going to the even one. -/
def roundTiesEven (num den : Nat) : Nat :=
  let f := num / den
  let r := num % den
  if 2 * r < den then f
  else if den < 2 * r then f + 1
  else if f % 2 = 0 then f else f + 1

/-- Canonical form of `m * 2^e`: factors of two move from `m` to `e`, at most
`fuel` of them. -/
def Double.normalize : Nat → Int → Int → Double
  | 0, m, e => { mant := m, exp := e }
  | fuel + 1, m, e =>
    if m = 0 then { mant := 0, exp := 0 }
    else if m % 2 = 0 then Double.normalize fuel (m / 2) (e + 1)
    else { mant := m, exp := e }

/-- Rounding of the rational `± n / d` to the nearest `double` (53 significant
bits, ties to even), the default rounding of IEEE 754 arithmetic.  Overflow to
infinity and the subnormal range are not modelled: the result is exact for
magnitudes in the normal range, from `2^-1022` up to `DBL_MAX`. -/
def Double.round (neg : Bool) (n d : Nat) : Double :=
  if n = 0 then { mant := 0, exp := 0 }
  else
    let s : Int := 52 - binade n d
    let m : Nat :=
      if 0 ≤ s then roundTiesEven (n * 2 ^ s.toNat) d
      else roundTiesEven n (d * 2 ^ (-s).toNat)
    Double.normalize 64 (if neg then -(m : Int) else (m : Int)) (-s)

/-- The conversion `static_cast<double>` of an integer. -/
def Double.ofInt (x : Int) : Double := Double.round (decide (x < 0)) x.natAbs 1

/-- The `double` addition: the exact sum, rounded. -/
def Double.add (a b : Double) : Double :=
  let e := min a.exp b.exp
  let m : Int := a.mant * 2 ^ (a.exp - e).toNat + b.mant * 2 ^ (b.exp - e).toNat
  if 0 ≤ e then Double.round (decide (m < 0)) (m.natAbs * 2 ^ e.toNat) 1
  else Double.round (decide (m < 0)) m.natAbs (2 ^ (-e).toNat)

/-- The `double` division by a non-zero divisor: the exact quotient, rounded. -/
def Double.div (a b : Double) : Double :=
  Double.round (decide (a.mant < 0) != decide (b.mant < 0))
    (a.mant.natAbs * 2 ^ (a.exp - b.exp).toNat) (b.mant.natAbs * 2 ^ (b.exp - a.exp).toNat)

/-- The arithmetic of `double` on the finite values. -/
def ieeeDoubleOps : DoubleOps Double :=
  { zero := { mant := 0, exp := 0 },
    add := Double.add,
    div := Double.div,
    ofUInt64 := fun n => Double.round false n 1 }

/-! ## Sequences of calls -/

/-- One call on an aggregate state of type `S`: `Advance` with a value of type
`V`, or `Merge` with a state `that`. -/
inductive Call (V S : Type) where
  | advance (val : V)
  | merge (that : S)

/-- The state after one call. -/
def Call.apply {V S : Type} (adv : S → V → S) (mrg : S → S → S) (s : S) : Call V S → S
  | .advance val => adv s val
  | .merge that => mrg s that

/-- The state after a sequence of calls, left to right. -/
def runCalls {V S : Type} (adv : S → V → S) (mrg : S → S → S) (s : S)
    (calls : List (Call V S)) : S :=
  calls.foldl (Call.apply adv mrg) s

/-- The result of one call that may fail. -/
def Call.applyE {V S E : Type} (adv : S → V → Except E S) (mrg : S → S → Except E S)
    (s : S) : Call V S → Except E S
  | .advance val => adv s val
  | .merge that => mrg s that

/-- The state after a sequence of calls that may fail; the first failure ends
the run. -/
def runCallsE {V S E : Type} (adv : S → V → Except E S) (mrg : S → S → Except E S)
    (s : S) : List (Call V S) → Except E S
  | [] => .ok s
  | c :: cs =>
    match Call.applyE adv mrg s c with
    | .ok s1 => runCallsE adv mrg s1 cs
    | .error e => .error e

/-- The operand of the call is NULL: the value of an `Advance`, or the result of
the partial of a `Merge`. -/
def Call.operandIsNull {V S : Type} (valNull : V → Bool) (resNull : S → Bool) :
    Call V S → Bool
  | .advance val => valNull val
  | .merge that => resNull that

/-- The precision of the operand of a call on a fixed-decimal aggregate whose
result is read by `res`. -/
def Call.operandPrecision {S : Type} (res : S → DecimalVal) : Call DecimalVal S → Nat
  | .advance val => val.precision_
  | .merge that => (res that).precision_

/-- The last call of the sequence whose operand is not NULL, if there is one. -/
def lastNonNullCall {S : Type} (res : S → DecimalVal) (calls : List (Call DecimalVal S)) :
    Option (Call DecimalVal S) :=
  calls.reverse.find?
    (fun c => !Call.operandIsNull (fun v : DecimalVal => v.is_null_) (fun t => (res t).is_null_) c)

/-- A decimal value whose raw value is representable in signed 128 bits. -/
def DecimalVal.WellFormed (v : DecimalVal) : Prop := IsInt128 v.val_.value_

instance (v : DecimalVal) : Decidable (DecimalVal.WellFormed v) :=
  inferInstanceAs (Decidable (IsInt128 v.val_.value_))

/-- Every running sum of the raw values of the non-null elements, started at
`start`, is representable in signed 128 bits. -/
def runningSumsInRange (start : Int) : List DecimalVal → Bool
  | [] => true
  | v :: vs =>
    if v.is_null_ then runningSumsInRange start vs
    else decide (IsInt128 (start + v.val_.value_))
      && runningSumsInRange (start + v.val_.value_) vs

/-- The additions `((a + b) + y1) + y2 ...` and `a + ((b + y1) + y2 ...)` agree at
every step: adding the partial sum to `a` and then the next value gives the same
double as adding the next value to the partial sum first. -/
def reassociates {D : Type} [DecidableEq D] (ops : DoubleOps D) (a : D) : D → List D → Bool
  | _, [] => true
  | b, y :: ys =>
    decide (ops.add (ops.add a b) y = ops.add a (ops.add b y))
      && reassociates ops a (ops.add b y) ys

/-- A non-null decimal with the given raw value and precision. -/
def DecimalVal.ofRaw (raw : Int) (precision : Nat) : DecimalVal :=
  { is_null_ := false, val_ := { value_ := raw }, precision_ := precision }

/-- A NULL decimal carrying the given raw value and precision. -/
def DecimalVal.nullWith (raw : Int) (precision : Nat) : DecimalVal :=
  { is_null_ := true, val_ := { value_ := raw }, precision_ := precision }

/-- A sequence of `Advance` and `Merge` calls on a `SumAggregate<T>`. -/
def SumAggregate.run {α : Type} (ops : SumOps α) (s : SumAggregate α)
    (calls : List (Call (NullableValue α) (SumAggregate α))) : SumAggregate α :=
  runCalls (SumAggregate.Advance ops) (SumAggregate.Merge ops) s calls

/-- The operand of a call on a `SumAggregate<T>` is NULL. -/
def SumAggregate.callIsNull {α : Type} (c : Call (NullableValue α) (SumAggregate α)) : Bool :=
  Call.operandIsNull (fun v => v.is_null_) (fun t => t.sum_.is_null_) c

/-- A sequence of `Advance` and `Merge` calls on a `MinAggregate<T>`. -/
def MinAggregate.run {α : Type} (ops : LimitOps α) (s : MinAggregate α)
    (calls : List (Call (NullableValue α) (MinAggregate α))) : MinAggregate α :=
  runCalls (MinAggregate.Advance ops) (MinAggregate.Merge ops) s calls

/-- The operand of a call on a `MinAggregate<T>` is NULL. -/
def MinAggregate.callIsNull {α : Type} (c : Call (NullableValue α) (MinAggregate α)) : Bool :=
  Call.operandIsNull (fun v => v.is_null_) (fun t => t.min_.is_null_) c

/-- A sequence of `Advance` and `Merge` calls on a `MaxAggregate<T>`. -/
def MaxAggregate.run {α : Type} (ops : LimitOps α) (s : MaxAggregate α)
    (calls : List (Call (NullableValue α) (MaxAggregate α))) : MaxAggregate α :=
  runCalls (MaxAggregate.Advance ops) (MaxAggregate.Merge ops) s calls

/-- The operand of a call on a `MaxAggregate<T>` is NULL. -/
def MaxAggregate.callIsNull {α : Type} (c : Call (NullableValue α) (MaxAggregate α)) : Bool :=
  Call.operandIsNull (fun v => v.is_null_) (fun t => t.max_.is_null_) c

/-- A sequence of `Advance` and `Merge` calls on a `FixedDecimalSumAggregate`;
the first overflow ends it. -/
def FixedDecimalSumAggregate.run (s : FixedDecimalSumAggregate)
    (calls : List (Call DecimalVal FixedDecimalSumAggregate)) :
    Except ArithmeticError FixedDecimalSumAggregate :=
  runCallsE FixedDecimalSumAggregate.Advance FixedDecimalSumAggregate.Merge s calls

/-- The operand of a call on a `FixedDecimalSumAggregate` is NULL. -/
def FixedDecimalSumAggregate.callIsNull (c : Call DecimalVal FixedDecimalSumAggregate) : Bool :=
  Call.operandIsNull (fun v : DecimalVal => v.is_null_)
    (fun t => (FixedDecimalSumAggregate.GetResultSum t).is_null_) c

/-- A sequence of `Advance` and `Merge` calls on a `FixedDecimalMinAggregate`. -/
def FixedDecimalMinAggregate.run (s : FixedDecimalMinAggregate)
    (calls : List (Call DecimalVal FixedDecimalMinAggregate)) : FixedDecimalMinAggregate :=
  runCalls FixedDecimalMinAggregate.Advance FixedDecimalMinAggregate.Merge s calls

/-- The operand of a call on a `FixedDecimalMinAggregate` is NULL. -/
def FixedDecimalMinAggregate.callIsNull (c : Call DecimalVal FixedDecimalMinAggregate) : Bool :=
  Call.operandIsNull (fun v : DecimalVal => v.is_null_)
    (fun t => (FixedDecimalMinAggregate.GetResultMin t).is_null_) c

/-- A sequence of `Advance` and `Merge` calls on a `FixedDecimalMaxAggregate`. -/
def FixedDecimalMaxAggregate.run (s : FixedDecimalMaxAggregate)
    (calls : List (Call DecimalVal FixedDecimalMaxAggregate)) : FixedDecimalMaxAggregate :=
  runCalls FixedDecimalMaxAggregate.Advance FixedDecimalMaxAggregate.Merge s calls

/-- The operand of a call on a `FixedDecimalMaxAggregate` is NULL. -/
def FixedDecimalMaxAggregate.callIsNull (c : Call DecimalVal FixedDecimalMaxAggregate) : Bool :=
  Call.operandIsNull (fun v : DecimalVal => v.is_null_)
    (fun t => (FixedDecimalMaxAggregate.GetResultMax t).is_null_) c

/-- The precision of the last operand that is not NULL, or `p` when every operand
of the sequence is NULL. -/
def lastPrecision {S : Type} (res : S → DecimalVal) (p : Nat)
    (calls : List (Call DecimalVal S)) : Nat :=
  match lastNonNullCall res calls with
  | some c => Call.operandPrecision res c
  | none => p

/-- The double sum of the payloads `xs`, accumulated left to right from `start`,
each payload converted by `toDouble`. -/
def accumulate {D α : Type} (ops : DoubleOps D) (toDouble : α → D) (start : D) (xs : List α) :
    D :=
  xs.foldl (fun acc x => ops.add acc (toDouble x)) start

/-- The inputs `[2^53, 0]`. -/
def avgScenarioLeft : List Integer := [Integer.ofInt64 9007199254740992, Integer.ofInt64 0]

/-- The inputs `[1, 1]`. -/
def avgScenarioRight : List Integer := [Integer.ofInt64 1, Integer.ofInt64 1]

/-- The inputs `[3, NULL, 4]`. -/
def avgScenarioSmall : List Integer := [Integer.ofInt64 3, Integer.Null, Integer.ofInt64 4]

/-- The exact sum of the raw values of the non-null elements. -/
def decimalTotal : List DecimalVal → Int
  | [] => 0
  | v :: vs => (if v.is_null_ then 0 else v.val_.value_) + decimalTotal vs

/-- The inputs `[-5]` of precision 2. -/
def decimalScenarioLeft : List DecimalVal := [DecimalVal.ofRaw (-5) 2]

/-- The inputs `[2^127 - 1, 3]` of precision 2. -/
def decimalScenarioRight : List DecimalVal :=
  [DecimalVal.ofRaw INT128_MAX 2, DecimalVal.ofRaw 3 2]

/-- The inputs `[150, NULL, 200]` of precision 2. -/
def decimalScenarioSmall : List DecimalVal :=
  [DecimalVal.ofRaw 150 2, DecimalVal.nullWith 9 4, DecimalVal.ofRaw 200 2]

/-- The integer `x` divided by the positive `d` and truncated toward zero: the
magnitude is the quotient of the magnitudes rounded down, the sign is that of
`x`. -/
def truncatedQuotient (x : Int) (d : Nat) : Int :=
  if 0 ≤ x then ((x.natAbs / d : Nat) : Int) else -((x.natAbs / d : Nat) : Int)

/-- States reached from `init` by finitely many calls of `Advance` (each with a
well-formed SQL integer), `Merge` (each with a partial that is itself reachable)
and `Reset`. -/
inductive ReachableAll {σ : Type} (init : σ) (adv : σ → Integer → σ) (mrg : σ → σ → σ)
    (rst : σ → σ) : σ → Prop where
  | fresh : ReachableAll init adv mrg rst init
  | advance (s : σ) (v : Integer) :
      ReachableAll init adv mrg rst s → Integer.WellFormed v →
      ReachableAll init adv mrg rst (adv s v)
  | merge (s that : σ) :
      ReachableAll init adv mrg rst s → ReachableAll init adv mrg rst that →
      ReachableAll init adv mrg rst (mrg s that)
  | reset (s : σ) :
      ReachableAll init adv mrg rst s → ReachableAll init adv mrg rst (rst s)

/-- States of `SumAggregate<Integer>` reachable by `Advance`, `Merge` and `Reset`. -/
def SumAggregate.ReachableState : SumAggregate Int → Prop :=
  ReachableAll (SumAggregate.ctor int64SumOps) (SumAggregate.Advance int64SumOps)
    (SumAggregate.Merge int64SumOps) (SumAggregate.Reset int64SumOps)

/-- States of `MaxAggregate<Integer>` reachable by `Advance`, `Merge` and `Reset`. -/
def MaxAggregate.ReachableState : MaxAggregate Int → Prop :=
  ReachableAll (MaxAggregate.ctor int64LimitOps) (MaxAggregate.Advance int64LimitOps)
    (MaxAggregate.Merge int64LimitOps) (MaxAggregate.Reset int64LimitOps)

/-- States of `MinAggregate<Integer>` reachable by `Advance`, `Merge` and `Reset`. -/
def MinAggregate.ReachableState : MinAggregate Int → Prop :=
  ReachableAll (MinAggregate.ctor int64LimitOps) (MinAggregate.Advance int64LimitOps)
    (MinAggregate.Merge int64LimitOps) (MinAggregate.Reset int64LimitOps)

/-- The number a string of decimal digits denotes, the most significant digit
first; the empty string denotes 0. -/
def decimalValue : List Int → Int
  | [] => 0
  | c :: cs => (c - 48) * 10 ^ cs.length + decimalValue cs

/-- The string consists of the characters `'0'` to `'9'` only. -/
def IsDigitString (s : List Int) : Prop := ∀ c ∈ s, 48 ≤ c ∧ c ≤ 57

instance (s : List Int) : Decidable (IsDigitString s) :=
  inferInstanceAs (Decidable (∀ c ∈ s, 48 ≤ c ∧ c ≤ 57))

/-- The answer buffer in row `i` when the columns `j, ..., m - 1` are done: every
cell is at least `'0'`; every cell but `i + j` is at most `'9'` and that one at
most `'0' + 18`; the cells up to `i` other than `i + j` are still `'0'`; and the
buffer denotes the part of the product accumulated so far. -/
structure CellInv (nums1 nums2 : List Int) (i j : Nat) (ans : List Int) : Prop where
  len : ans.length = nums1.length + nums2.length
  lower : ∀ c, 48 ≤ ans.getD c 48
  upper : ∀ c, c ≠ i + j → ans.getD c 48 ≤ 57
  special : ans.getD (i + j) 48 ≤ 66
  zero : ∀ c, c ≤ i → c ≠ i + j → ans.getD c 48 = 48
  last : j = 0 → ans.getD i 48 ≤ 57
  value : decimalValue ans
    = decimalValue (nums1.drop (i + 1)) * decimalValue nums2
      + (nums1.getD i 0 - 48) * 10 ^ (nums1.length - 1 - i) * decimalValue (nums2.drop j)

/-- The answer buffer when the rows `i, ..., n - 1` are done: every cell is a
digit, the cells before `i` are still `'0'`, and the buffer denotes the product
of the digits `i, ..., n - 1` of `nums1` by `nums2`. -/
structure RowInv (nums1 nums2 : List Int) (i : Nat) (ans : List Int) : Prop where
  len : ans.length = nums1.length + nums2.length
  lower : ∀ c, 48 ≤ ans.getD c 48
  upper : ∀ c, ans.getD c 48 ≤ 57
  zero : ∀ c, c < i → ans.getD c 48 = 48
  value : decimalValue ans = decimalValue (nums1.drop i) * decimalValue nums2

/-- The string `"0099"`. -/
def stringScenarioLeft : List Int := [48, 48, 57, 57]

/-- The string `"99"`. -/
def stringScenarioRight : List Int := [57, 57]

/-! ## Lemmas on machine integers -/

theorem wrapInt64_add_wrap_left (a b : Int) :
    wrapInt64 (wrapInt64 a + b) = wrapInt64 (a + b) := by
  unfold wrapInt64; omega

theorem wrapInt64_add_wrap_right (a b : Int) :
    wrapInt64 (a + wrapInt64 b) = wrapInt64 (a + b) := by
  unfold wrapInt64; omega

theorem wrapInt64_of_isInt64 {a : Int} (h : IsInt64 a) : wrapInt64 a = a := by
  unfold IsInt64 INT64_MIN INT64_MAX at h
  unfold wrapInt64; omega

theorem isInt64_wrapInt64 (a : Int) : IsInt64 (wrapInt64 a) := by
  unfold IsInt64 INT64_MIN INT64_MAX wrapInt64; omega

/-! ## Lemmas on the lists of inputs -/

theorem nonNullPayloads_nil {α : Type} : nonNullPayloads ([] : List (NullableValue α)) = [] := rfl

theorem nonNullPayloads_cons_null {α : Type} (v : NullableValue α) (l : List (NullableValue α))
    (h : v.is_null_ = true) : nonNullPayloads (v :: l) = nonNullPayloads l := by
  simp [nonNullPayloads, h]

theorem nonNullPayloads_cons_value {α : Type} (v : NullableValue α)
    (l : List (NullableValue α)) (h : v.is_null_ = false) :
    nonNullPayloads (v :: l) = v.val_ :: nonNullPayloads l := by
  simp [nonNullPayloads, h]

theorem nonNullPayloads_eq_nil_iff {α : Type} (l : List (NullableValue α)) :
    nonNullPayloads l = [] ↔ l.all (fun v => v.is_null_) = true := by
  induction l with
  | nil => simp [nonNullPayloads]
  | cons v l ih =>
    cases h : v.is_null_
    · simp [nonNullPayloads_cons_value v l h, h]
    · simp [nonNullPayloads_cons_null v l h, h, ih]

/-! ## Lemmas on SUM -/

theorem sum_advanceAll_append {α : Type} (ops : SumOps α) (s : SumAggregate α)
    (g1 g2 : List (NullableValue α)) :
    SumAggregate.AdvanceAll ops s (g1 ++ g2)
      = SumAggregate.AdvanceAll ops (SumAggregate.AdvanceAll ops s g1) g2 := by
  simp [SumAggregate.AdvanceAll, List.foldl_append]

theorem sum_advanceAll_int64 (l : List Integer) (s : SumAggregate Int) :
    (SumAggregate.AdvanceAll int64SumOps s l).sum_
      = if nonNullPayloads l = [] then s.sum_
        else { is_null_ := false, val_ := wrapInt64 (s.sum_.val_ + (nonNullPayloads l).sum) } := by
  induction l generalizing s with
  | nil => simp [SumAggregate.AdvanceAll, nonNullPayloads]
  | cons v l ih =>
    have hstep : SumAggregate.AdvanceAll int64SumOps s (v :: l)
        = SumAggregate.AdvanceAll int64SumOps (SumAggregate.Advance int64SumOps s v) l := rfl
    rw [hstep, ih]
    cases h : v.is_null_
    · rw [nonNullPayloads_cons_value v l h]
      by_cases hl : nonNullPayloads l = []
      · simp [hl, SumAggregate.Advance, h, int64SumOps]
      · simp [hl, SumAggregate.Advance, h, int64SumOps, wrapInt64_add_wrap_left, add_assoc]
    · rw [nonNullPayloads_cons_null v l h]
      simp [SumAggregate.Advance, h]

/-! ## Lemmas on MAX and MIN -/

theorem std_max_int64 (a b : Int) : std_max int64LimitOps.lt a b = max a b := by
  unfold std_max int64LimitOps
  by_cases h : a < b
  · simp [h, max_eq_right (le_of_lt h)]
  · simp [h, max_eq_left (not_lt.1 h)]

theorem std_min_int64 (a b : Int) : std_min int64LimitOps.lt a b = min a b := by
  unfold std_min int64LimitOps
  by_cases h : b < a
  · simp [h, min_eq_right (le_of_lt h)]
  · simp [h, min_eq_left (not_lt.1 h)]

theorem max_advanceAll_append {α : Type} (ops : LimitOps α) (s : MaxAggregate α)
    (g1 g2 : List (NullableValue α)) :
    MaxAggregate.AdvanceAll ops s (g1 ++ g2)
      = MaxAggregate.AdvanceAll ops (MaxAggregate.AdvanceAll ops s g1) g2 := by
  simp [MaxAggregate.AdvanceAll, List.foldl_append]

theorem min_advanceAll_append {α : Type} (ops : LimitOps α) (s : MinAggregate α)
    (g1 g2 : List (NullableValue α)) :
    MinAggregate.AdvanceAll ops s (g1 ++ g2)
      = MinAggregate.AdvanceAll ops (MinAggregate.AdvanceAll ops s g1) g2 := by
  simp [MinAggregate.AdvanceAll, List.foldl_append]

/-- Merging commutes with one more `Advance` of the partial, as long as a NULL
partial still holds the seed. -/
theorem max_merge_advance (a b : MaxAggregate Int) (v : Integer)
    (hb : b.max_.is_null_ = true → b.max_.val_ = INT64_MIN) (hv : Integer.WellFormed v) :
    MaxAggregate.Merge int64LimitOps a (MaxAggregate.Advance int64LimitOps b v)
      = MaxAggregate.Advance int64LimitOps (MaxAggregate.Merge int64LimitOps a b) v := by
  unfold Integer.WellFormed IsInt64 at hv
  cases hvn : v.is_null_
  · cases hbn : b.max_.is_null_
    · simp only [MaxAggregate.Merge, MaxAggregate.Advance, hvn, hbn, std_max_int64]
      simp [max_assoc]
    · have hseed := hb hbn
      simp only [MaxAggregate.Merge, MaxAggregate.Advance, hvn, hbn, std_max_int64, hseed]
      simp [max_eq_left hv.1]
  · simp [MaxAggregate.Advance, hvn]

theorem min_merge_advance (a b : MinAggregate Int) (v : Integer)
    (hb : b.min_.is_null_ = true → b.min_.val_ = INT64_MAX) (hv : Integer.WellFormed v) :
    MinAggregate.Merge int64LimitOps a (MinAggregate.Advance int64LimitOps b v)
      = MinAggregate.Advance int64LimitOps (MinAggregate.Merge int64LimitOps a b) v := by
  unfold Integer.WellFormed IsInt64 at hv
  cases hvn : v.is_null_
  · cases hbn : b.min_.is_null_
    · simp only [MinAggregate.Merge, MinAggregate.Advance, hvn, hbn, std_min_int64]
      simp [min_assoc]
    · have hseed := hb hbn
      simp only [MinAggregate.Merge, MinAggregate.Advance, hvn, hbn, std_min_int64, hseed]
      simp [min_eq_left hv.2]
  · simp [MinAggregate.Advance, hvn]

theorem max_advance_seed (b : MaxAggregate Int) (v : Integer)
    (hb : b.max_.is_null_ = true → b.max_.val_ = INT64_MIN) :
    (MaxAggregate.Advance int64LimitOps b v).max_.is_null_ = true →
      (MaxAggregate.Advance int64LimitOps b v).max_.val_ = INT64_MIN := by
  cases hvn : v.is_null_
  · simp [MaxAggregate.Advance, hvn]
  · simpa [MaxAggregate.Advance, hvn] using hb

theorem min_advance_seed (b : MinAggregate Int) (v : Integer)
    (hb : b.min_.is_null_ = true → b.min_.val_ = INT64_MAX) :
    (MinAggregate.Advance int64LimitOps b v).min_.is_null_ = true →
      (MinAggregate.Advance int64LimitOps b v).min_.val_ = INT64_MAX := by
  cases hvn : v.is_null_
  · simp [MinAggregate.Advance, hvn]
  · simpa [MinAggregate.Advance, hvn] using hb

theorem max_merge_advanceAll (g : List Integer) (a b : MaxAggregate Int)
    (hb : b.max_.is_null_ = true → b.max_.val_ = INT64_MIN)
    (hg : ∀ v ∈ g, Integer.WellFormed v) :
    MaxAggregate.Merge int64LimitOps a (MaxAggregate.AdvanceAll int64LimitOps b g)
      = MaxAggregate.AdvanceAll int64LimitOps (MaxAggregate.Merge int64LimitOps a b) g := by
  induction g generalizing b with
  | nil => rfl
  | cons v t ih =>
    have hv := hg v (List.mem_cons_self v t)
    have ht : ∀ w ∈ t, Integer.WellFormed w := fun w hw => hg w (List.mem_cons_of_mem v hw)
    have h1 : MaxAggregate.AdvanceAll int64LimitOps b (v :: t)
        = MaxAggregate.AdvanceAll int64LimitOps (MaxAggregate.Advance int64LimitOps b v) t := rfl
    have h2 : MaxAggregate.AdvanceAll int64LimitOps (MaxAggregate.Merge int64LimitOps a b) (v :: t)
        = MaxAggregate.AdvanceAll int64LimitOps
            (MaxAggregate.Advance int64LimitOps (MaxAggregate.Merge int64LimitOps a b) v) t := rfl
    rw [h1, h2, ih _ (max_advance_seed b v hb) ht, max_merge_advance a b v hb hv]

theorem min_merge_advanceAll (g : List Integer) (a b : MinAggregate Int)
    (hb : b.min_.is_null_ = true → b.min_.val_ = INT64_MAX)
    (hg : ∀ v ∈ g, Integer.WellFormed v) :
    MinAggregate.Merge int64LimitOps a (MinAggregate.AdvanceAll int64LimitOps b g)
      = MinAggregate.AdvanceAll int64LimitOps (MinAggregate.Merge int64LimitOps a b) g := by
  induction g generalizing b with
  | nil => rfl
  | cons v t ih =>
    have hv := hg v (List.mem_cons_self v t)
    have ht : ∀ w ∈ t, Integer.WellFormed w := fun w hw => hg w (List.mem_cons_of_mem v hw)
    have h1 : MinAggregate.AdvanceAll int64LimitOps b (v :: t)
        = MinAggregate.AdvanceAll int64LimitOps (MinAggregate.Advance int64LimitOps b v) t := rfl
    have h2 : MinAggregate.AdvanceAll int64LimitOps (MinAggregate.Merge int64LimitOps a b) (v :: t)
        = MinAggregate.AdvanceAll int64LimitOps
            (MinAggregate.Advance int64LimitOps (MinAggregate.Merge int64LimitOps a b) v) t := rfl
    rw [h1, h2, ih _ (min_advance_seed b v hb) ht, min_merge_advance a b v hb hv]

/-- What a run of `Advance` calls leaves in `max_`: the state is untouched when
every input is NULL, and otherwise it is non-null, at least the value before and
every non-null payload, and equal to one of them. -/
theorem max_advanceAll_int64 (l : List Integer) (s : MaxAggregate Int) :
    (nonNullPayloads l = [] → (MaxAggregate.AdvanceAll int64LimitOps s l).max_ = s.max_)
    ∧ (nonNullPayloads l ≠ [] →
        (MaxAggregate.AdvanceAll int64LimitOps s l).max_.is_null_ = false
        ∧ s.max_.val_ ≤ (MaxAggregate.AdvanceAll int64LimitOps s l).max_.val_
        ∧ (∀ x ∈ nonNullPayloads l, x ≤ (MaxAggregate.AdvanceAll int64LimitOps s l).max_.val_)
        ∧ ((MaxAggregate.AdvanceAll int64LimitOps s l).max_.val_ = s.max_.val_
            ∨ (MaxAggregate.AdvanceAll int64LimitOps s l).max_.val_ ∈ nonNullPayloads l)) := by
  induction l generalizing s with
  | nil => exact ⟨fun _ => rfl, fun h => absurd rfl h⟩
  | cons v t ih =>
    have hstep : MaxAggregate.AdvanceAll int64LimitOps s (v :: t)
        = MaxAggregate.AdvanceAll int64LimitOps (MaxAggregate.Advance int64LimitOps s v) t := rfl
    rw [hstep]
    cases h : v.is_null_
    · have hadv : MaxAggregate.Advance int64LimitOps s v
          = { max_ := { is_null_ := false, val_ := max v.val_ s.max_.val_ } } := by
        simp [MaxAggregate.Advance, h, std_max_int64]
      rw [nonNullPayloads_cons_value v t h, hadv]
      refine ⟨fun hnil => absurd hnil (List.cons_ne_nil _ _), fun _ => ?_⟩
      obtain ⟨ih1, ih2⟩ := ih { max_ := { is_null_ := false, val_ := max v.val_ s.max_.val_ } }
      by_cases ht : nonNullPayloads t = []
      · rw [ih1 ht, ht]
        refine ⟨rfl, le_max_right _ _, ?_, ?_⟩
        · intro x hx
          rw [List.mem_singleton] at hx
          subst hx
          exact le_max_left _ _
        · rcases le_total v.val_ s.max_.val_ with hle | hle
          · exact Or.inl (max_eq_right hle)
          · exact Or.inr (by simp [max_eq_left hle])
      · obtain ⟨hn, hge, hall, hmem⟩ := ih2 ht
        refine ⟨hn, le_trans (le_max_right _ _) hge, ?_, ?_⟩
        · intro x hx
          rcases List.mem_cons.1 hx with hx | hx
          · subst hx
            exact le_trans (le_max_left _ _) hge
          · exact hall x hx
        · rcases hmem with hm | hm
          · rcases le_total v.val_ s.max_.val_ with hle | hle
            · exact Or.inl (by rw [hm]; exact max_eq_right hle)
            · exact Or.inr (by rw [hm]; simp [max_eq_left hle])
          · exact Or.inr (List.mem_cons_of_mem _ hm)
    · have hadv : MaxAggregate.Advance int64LimitOps s v = s := by
        simp [MaxAggregate.Advance, h]
      rw [nonNullPayloads_cons_null v t h, hadv]
      exact ih s

/-- What a run of `Advance` calls leaves in `min_`: the state is untouched when
every input is NULL, and otherwise it is non-null, at most the value before and
every non-null payload, and equal to one of them. -/
theorem min_advanceAll_int64 (l : List Integer) (s : MinAggregate Int) :
    (nonNullPayloads l = [] → (MinAggregate.AdvanceAll int64LimitOps s l).min_ = s.min_)
    ∧ (nonNullPayloads l ≠ [] →
        (MinAggregate.AdvanceAll int64LimitOps s l).min_.is_null_ = false
        ∧ (MinAggregate.AdvanceAll int64LimitOps s l).min_.val_ ≤ s.min_.val_
        ∧ (∀ x ∈ nonNullPayloads l, (MinAggregate.AdvanceAll int64LimitOps s l).min_.val_ ≤ x)
        ∧ ((MinAggregate.AdvanceAll int64LimitOps s l).min_.val_ = s.min_.val_
            ∨ (MinAggregate.AdvanceAll int64LimitOps s l).min_.val_ ∈ nonNullPayloads l)) := by
  induction l generalizing s with
  | nil => exact ⟨fun _ => rfl, fun h => absurd rfl h⟩
  | cons v t ih =>
    have hstep : MinAggregate.AdvanceAll int64LimitOps s (v :: t)
        = MinAggregate.AdvanceAll int64LimitOps (MinAggregate.Advance int64LimitOps s v) t := rfl
    rw [hstep]
    cases h : v.is_null_
    · have hadv : MinAggregate.Advance int64LimitOps s v
          = { min_ := { is_null_ := false, val_ := min v.val_ s.min_.val_ } } := by
        simp [MinAggregate.Advance, h, std_min_int64]
      rw [nonNullPayloads_cons_value v t h, hadv]
      refine ⟨fun hnil => absurd hnil (List.cons_ne_nil _ _), fun _ => ?_⟩
      obtain ⟨ih1, ih2⟩ := ih { min_ := { is_null_ := false, val_ := min v.val_ s.min_.val_ } }
      by_cases ht : nonNullPayloads t = []
      · rw [ih1 ht, ht]
        refine ⟨rfl, min_le_right _ _, ?_, ?_⟩
        · intro x hx
          rw [List.mem_singleton] at hx
          subst hx
          exact min_le_left _ _
        · rcases le_total v.val_ s.min_.val_ with hle | hle
          · exact Or.inr (by simp [min_eq_left hle])
          · exact Or.inl (min_eq_right hle)
      · obtain ⟨hn, hge, hall, hmem⟩ := ih2 ht
        refine ⟨hn, le_trans hge (min_le_right _ _), ?_, ?_⟩
        · intro x hx
          rcases List.mem_cons.1 hx with hx | hx
          · subst hx
            exact le_trans hge (min_le_left _ _)
          · exact hall x hx
        · rcases hmem with hm | hm
          · rcases le_total v.val_ s.min_.val_ with hle | hle
            · exact Or.inr (by rw [hm]; simp [min_eq_left hle])
            · exact Or.inl (by rw [hm]; exact min_eq_right hle)
          · exact Or.inr (List.mem_cons_of_mem _ hm)
    · have hadv : MinAggregate.Advance int64LimitOps s v = s := by
        simp [MinAggregate.Advance, h]
      rw [nonNullPayloads_cons_null v t h, hadv]
      exact ih s

theorem nonNullPayloads_wellFormed (l : List Integer) (h : ∀ v ∈ l, Integer.WellFormed v) :
    ∀ x ∈ nonNullPayloads l, IsInt64 x := by
  intro x hx
  unfold nonNullPayloads at hx
  obtain ⟨v, hv, rfl⟩ := List.mem_map.1 hx
  exact h v (List.mem_filter.1 hv).1

theorem nonNullPayloads_eq_nil_of_forall (l : List Integer)
    (h : ∀ v ∈ l, v.is_null_ = true) : nonNullPayloads l = [] :=
  (nonNullPayloads_eq_nil_iff l).2 (List.all_eq_true.2 (by simpa using h))

theorem nonNullPayloads_ne_nil_of_exists (l : List Integer)
    (h : ∃ v ∈ l, v.is_null_ = false) : nonNullPayloads l ≠ [] := by
  intro hnil
  obtain ⟨v, hv, hvn⟩ := h
  have hall := List.all_eq_true.1 ((nonNullPayloads_eq_nil_iff l).1 hnil) v hv
  simp [hvn] at hall

/-! ## Lemmas on COUNT -/

theorem count_advanceAll_count (l : List Val) (s : CountAggregate)
    (hs : s.count_ < UINT64_MOD) :
    (CountAggregate.AdvanceAll s l).count_
      = (s.count_ + l.countP (fun v => !v.is_null_)) % UINT64_MOD := by
  induction l generalizing s with
  | nil =>
    simp only [CountAggregate.AdvanceAll, List.foldl_nil, List.countP_nil, Nat.add_zero]
    exact (Nat.mod_eq_of_lt hs).symm
  | cons v t ih =>
    have hstep : CountAggregate.AdvanceAll s (v :: t)
        = CountAggregate.AdvanceAll (CountAggregate.Advance s v) t := rfl
    have hlt : (CountAggregate.Advance s v).count_ < UINT64_MOD :=
      Nat.mod_lt _ (by unfold UINT64_MOD; omega)
    rw [hstep, ih _ hlt, List.countP_cons]
    unfold UINT64_MOD at *
    cases h : v.is_null_
    · simp only [CountAggregate.Advance, wrapUInt64, UINT64_MOD, h]
      simp
      omega
    · simp only [CountAggregate.Advance, wrapUInt64, UINT64_MOD, h]
      simp

theorem countStar_advanceAll_count (l : List Val) (s : CountStarAggregate)
    (hs : s.count_ < UINT64_MOD) :
    (CountStarAggregate.AdvanceAll s l).count_ = (s.count_ + l.length) % UINT64_MOD := by
  induction l generalizing s with
  | nil =>
    simp only [CountStarAggregate.AdvanceAll, List.foldl_nil, List.length_nil, Nat.add_zero]
    exact (Nat.mod_eq_of_lt hs).symm
  | cons v t ih =>
    have hstep : CountStarAggregate.AdvanceAll s (v :: t)
        = CountStarAggregate.AdvanceAll (CountStarAggregate.Advance s v) t := rfl
    have hlt : (CountStarAggregate.Advance s v).count_ < UINT64_MOD :=
      Nat.mod_lt _ (by unfold UINT64_MOD; omega)
    rw [hstep, ih _ hlt, List.length_cons]
    unfold UINT64_MOD at *
    simp only [CountStarAggregate.Advance, wrapUInt64, UINT64_MOD]
    omega

theorem wrapInt64_natCast_mod (n : Nat) :
    wrapInt64 ((n % UINT64_MOD : Nat) : Int) = wrapInt64 (n : Int) := by
  unfold wrapInt64 UINT64_MOD; omega

/-! ## Lemmas on reachable states -/

theorem sum_reachable_inv {s : SumAggregate Int} (h : SumAggregate.Reachable s) :
    (s.sum_.is_null_ = true → s.sum_.val_ = 0) ∧ IsInt64 s.sum_.val_ := by
  unfold SumAggregate.Reachable at h
  induction h with
  | fresh => exact ⟨fun _ => rfl, by decide⟩
  | advance s v _ _ ih =>
    cases hv : v.is_null_
    · simp only [SumAggregate.Advance, hv, int64SumOps]
      exact ⟨fun hf => by simp at hf, isInt64_wrapInt64 _⟩
    · simpa [SumAggregate.Advance, hv] using ih

theorem max_reachable_inv {s : MaxAggregate Int} (h : MaxAggregate.Reachable s) :
    (s.max_.is_null_ = true → s.max_.val_ = INT64_MIN) ∧ INT64_MIN ≤ s.max_.val_ := by
  unfold MaxAggregate.Reachable at h
  induction h with
  | fresh => exact ⟨fun _ => rfl, le_refl _⟩
  | advance s v _ hwf ih =>
    cases hv : v.is_null_
    · simp only [MaxAggregate.Advance, hv, std_max_int64]
      exact ⟨fun hf => by simp at hf, le_trans hwf.1 (le_max_left _ _)⟩
    · simpa [MaxAggregate.Advance, hv] using ih

theorem min_reachable_inv {s : MinAggregate Int} (h : MinAggregate.Reachable s) :
    (s.min_.is_null_ = true → s.min_.val_ = INT64_MAX) ∧ s.min_.val_ ≤ INT64_MAX := by
  unfold MinAggregate.Reachable at h
  induction h with
  | fresh => exact ⟨fun _ => rfl, le_refl _⟩
  | advance s v _ hwf ih =>
    cases hv : v.is_null_
    · simp only [MinAggregate.Advance, hv, std_min_int64]
      exact ⟨fun hf => by simp at hf, le_trans (min_le_left _ _) hwf.2⟩
    · simpa [MinAggregate.Advance, hv] using ih

theorem sum_merge_comm {a b : SumAggregate Int}
    (ha : (a.sum_.is_null_ = true → a.sum_.val_ = 0) ∧ IsInt64 a.sum_.val_)
    (hb : (b.sum_.is_null_ = true → b.sum_.val_ = 0) ∧ IsInt64 b.sum_.val_) :
    SumAggregate.Merge int64SumOps a b = SumAggregate.Merge int64SumOps b a := by
  obtain ⟨⟨⟨an⟩, av⟩⟩ := a
  obtain ⟨⟨⟨bn⟩, bv⟩⟩ := b
  cases an <;> cases bn <;>
    simp_all [SumAggregate.Merge, int64SumOps, wrapInt64_of_isInt64, add_comm]

theorem sum_merge_assoc {a b c : SumAggregate Int}
    (hb : (b.sum_.is_null_ = true → b.sum_.val_ = 0) ∧ IsInt64 b.sum_.val_) :
    SumAggregate.Merge int64SumOps (SumAggregate.Merge int64SumOps a b) c
      = SumAggregate.Merge int64SumOps a (SumAggregate.Merge int64SumOps b c) := by
  obtain ⟨⟨⟨an⟩, av⟩⟩ := a
  obtain ⟨⟨⟨bn⟩, bv⟩⟩ := b
  obtain ⟨⟨⟨cn⟩, cv⟩⟩ := c
  cases bn <;> cases cn <;>
    simp_all [SumAggregate.Merge, int64SumOps, wrapInt64_add_wrap_left,
      wrapInt64_add_wrap_right, add_assoc]

theorem max_merge_comm {a b : MaxAggregate Int}
    (ha : (a.max_.is_null_ = true → a.max_.val_ = INT64_MIN) ∧ INT64_MIN ≤ a.max_.val_)
    (hb : (b.max_.is_null_ = true → b.max_.val_ = INT64_MIN) ∧ INT64_MIN ≤ b.max_.val_) :
    MaxAggregate.Merge int64LimitOps a b = MaxAggregate.Merge int64LimitOps b a := by
  obtain ⟨⟨⟨an⟩, av⟩⟩ := a
  obtain ⟨⟨⟨bn⟩, bv⟩⟩ := b
  cases an <;> cases bn <;>
    simp_all [MaxAggregate.Merge, std_max_int64, max_comm]

theorem max_merge_assoc {a b c : MaxAggregate Int}
    (hb : (b.max_.is_null_ = true → b.max_.val_ = INT64_MIN) ∧ INT64_MIN ≤ b.max_.val_)
    (hc : (c.max_.is_null_ = true → c.max_.val_ = INT64_MIN) ∧ INT64_MIN ≤ c.max_.val_) :
    MaxAggregate.Merge int64LimitOps (MaxAggregate.Merge int64LimitOps a b) c
      = MaxAggregate.Merge int64LimitOps a (MaxAggregate.Merge int64LimitOps b c) := by
  obtain ⟨⟨⟨an⟩, av⟩⟩ := a
  obtain ⟨⟨⟨bn⟩, bv⟩⟩ := b
  obtain ⟨⟨⟨cn⟩, cv⟩⟩ := c
  cases bn <;> cases cn <;>
    simp_all [MaxAggregate.Merge, std_max_int64, max_assoc]

theorem min_merge_comm {a b : MinAggregate Int}
    (ha : (a.min_.is_null_ = true → a.min_.val_ = INT64_MAX) ∧ a.min_.val_ ≤ INT64_MAX)
    (hb : (b.min_.is_null_ = true → b.min_.val_ = INT64_MAX) ∧ b.min_.val_ ≤ INT64_MAX) :
    MinAggregate.Merge int64LimitOps a b = MinAggregate.Merge int64LimitOps b a := by
  obtain ⟨⟨⟨an⟩, av⟩⟩ := a
  obtain ⟨⟨⟨bn⟩, bv⟩⟩ := b
  cases an <;> cases bn <;>
    simp_all [MinAggregate.Merge, std_min_int64, min_comm]

theorem min_merge_assoc {a b c : MinAggregate Int}
    (hb : (b.min_.is_null_ = true → b.min_.val_ = INT64_MAX) ∧ b.min_.val_ ≤ INT64_MAX)
    (hc : (c.min_.is_null_ = true → c.min_.val_ = INT64_MAX) ∧ c.min_.val_ ≤ INT64_MAX) :
    MinAggregate.Merge int64LimitOps (MinAggregate.Merge int64LimitOps a b) c
      = MinAggregate.Merge int64LimitOps a (MinAggregate.Merge int64LimitOps b c) := by
  obtain ⟨⟨⟨an⟩, av⟩⟩ := a
  obtain ⟨⟨⟨bn⟩, bv⟩⟩ := b
  obtain ⟨⟨⟨cn⟩, cv⟩⟩ := c
  cases bn <;> cases cn <;>
    simp_all [MinAggregate.Merge, std_min_int64, min_assoc]

/-! ## Lemmas on runs over NULL inputs -/

theorem foldl_eq_self_of_forall {σ β : Type} (f : σ → β → σ) (s : σ) (l : List β)
    (h : ∀ v ∈ l, f s v = s) : l.foldl f s = s := by
  induction l with
  | nil => rfl
  | cons v t ih =>
    rw [List.foldl_cons, h v (List.mem_cons_self v t)]
    exact ih (fun w hw => h w (List.mem_cons_of_mem v hw))

theorem decimalSum_advanceAll_null (s : FixedDecimalSumAggregate) (l : List DecimalVal)
    (h : ∀ v ∈ l, v.is_null_ = true) : FixedDecimalSumAggregate.AdvanceAll s l = .ok s := by
  induction l with
  | nil => rfl
  | cons v t ih =>
    have hv := h v (List.mem_cons_self v t)
    simp only [FixedDecimalSumAggregate.AdvanceAll, FixedDecimalSumAggregate.Advance, hv, if_true]
    exact ih (fun w hw => h w (List.mem_cons_of_mem v hw))

/-! ## Lemmas on sequences of calls -/

theorem runCalls_cons {V S : Type} (adv : S → V → S) (mrg : S → S → S) (s : S)
    (c : Call V S) (cs : List (Call V S)) :
    runCalls adv mrg s (c :: cs) = runCalls adv mrg (Call.apply adv mrg s c) cs := rfl

/-- A flag that each call combines with the nullness of its operand is, after the
run, the flag before combined with the nullness of all operands. -/
theorem runCalls_flag {V S : Type} (adv : S → V → S) (mrg : S → S → S)
    (valNull : V → Bool) (resNull : S → Bool)
    (hstep : ∀ s c, resNull (Call.apply adv mrg s c)
      = (resNull s && Call.operandIsNull valNull resNull c))
    (s : S) (calls : List (Call V S)) :
    resNull (runCalls adv mrg s calls)
      = (resNull s && calls.all (Call.operandIsNull valNull resNull)) := by
  induction calls generalizing s with
  | nil => simp [runCalls]
  | cons c cs ih =>
    rw [runCalls_cons, ih, hstep, List.all_cons, Bool.and_assoc]

theorem runCallsE_flag {V S E : Type} (adv : S → V → Except E S) (mrg : S → S → Except E S)
    (valNull : V → Bool) (resNull : S → Bool)
    (hstep : ∀ s c s1, Call.applyE adv mrg s c = .ok s1 →
      resNull s1 = (resNull s && Call.operandIsNull valNull resNull c))
    (s : S) (calls : List (Call V S)) (s1 : S) (hrun : runCallsE adv mrg s calls = .ok s1) :
    resNull s1 = (resNull s && calls.all (Call.operandIsNull valNull resNull)) := by
  induction calls generalizing s with
  | nil =>
    simp only [runCallsE, Except.ok.injEq] at hrun
    simp [hrun]
  | cons c cs ih =>
    simp only [runCallsE] at hrun
    cases hc : Call.applyE adv mrg s c with
    | error e => rw [hc] at hrun; cases hrun
    | ok s2 =>
      rw [hc] at hrun
      rw [ih s2 hrun, hstep s c s2 hc, List.all_cons, Bool.and_assoc]

theorem flag_false_iff_exists {C : Type} (isNull : C → Bool) (calls : List C) :
    (true && calls.all isNull) = false ↔ ∃ c ∈ calls, isNull c = false := by
  simp [List.all_eq_false]

theorem lastNonNullCall_cons {S : Type} (res : S → DecimalVal) (c : Call DecimalVal S)
    (cs : List (Call DecimalVal S)) :
    lastNonNullCall res (c :: cs)
      = (lastNonNullCall res cs).or
          (if Call.operandIsNull (fun v : DecimalVal => v.is_null_)
              (fun t => (res t).is_null_) c then none else some c) := by
  unfold lastNonNullCall
  rw [List.reverse_cons, List.find?_append]
  cases h : Call.operandIsNull (fun v : DecimalVal => v.is_null_) (fun t => (res t).is_null_) c
    <;> simp [List.find?, h]

theorem lastPrecision_cons {S : Type} (res : S → DecimalVal) (p : Nat)
    (c : Call DecimalVal S) (cs : List (Call DecimalVal S)) :
    lastPrecision res p (c :: cs)
      = lastPrecision res
          (if Call.operandIsNull (fun v : DecimalVal => v.is_null_)
              (fun t => (res t).is_null_) c then p else Call.operandPrecision res c) cs := by
  unfold lastPrecision
  rw [lastNonNullCall_cons]
  cases hl : lastNonNullCall res cs with
  | some c1 => simp
  | none =>
    cases h : Call.operandIsNull (fun v : DecimalVal => v.is_null_) (fun t => (res t).is_null_) c
      <;> simp

theorem runCalls_precision {S : Type} (res : S → DecimalVal) (adv : S → DecimalVal → S)
    (mrg : S → S → S)
    (hstep : ∀ s c, (res (Call.apply adv mrg s c)).precision_
      = if Call.operandIsNull (fun v : DecimalVal => v.is_null_) (fun t => (res t).is_null_) c
        then (res s).precision_ else Call.operandPrecision res c)
    (s : S) (calls : List (Call DecimalVal S)) :
    (res (runCalls adv mrg s calls)).precision_ = lastPrecision res (res s).precision_ calls := by
  induction calls generalizing s with
  | nil => rfl
  | cons c cs ih => rw [runCalls_cons, ih, hstep, lastPrecision_cons]

theorem runCallsE_precision {S E : Type} (res : S → DecimalVal)
    (adv : S → DecimalVal → Except E S) (mrg : S → S → Except E S)
    (hstep : ∀ s c s1, Call.applyE adv mrg s c = .ok s1 → (res s1).precision_
      = if Call.operandIsNull (fun v : DecimalVal => v.is_null_) (fun t => (res t).is_null_) c
        then (res s).precision_ else Call.operandPrecision res c)
    (s : S) (calls : List (Call DecimalVal S)) (s1 : S)
    (hrun : runCallsE adv mrg s calls = .ok s1) :
    (res s1).precision_ = lastPrecision res (res s).precision_ calls := by
  induction calls generalizing s with
  | nil =>
    simp only [runCallsE, Except.ok.injEq] at hrun
    rw [← hrun]
    rfl
  | cons c cs ih =>
    simp only [runCallsE] at hrun
    cases hc : Call.applyE adv mrg s c with
    | error e => rw [hc] at hrun; cases hrun
    | ok s2 =>
      rw [hc] at hrun
      rw [ih s2 hrun, hstep s c s2 hc, lastPrecision_cons]

/-! ## Lemmas on the NULL flag along a run -/

theorem sum_run_flag {α : Type} (ops : SumOps α) (s : SumAggregate α)
    (calls : List (Call (NullableValue α) (SumAggregate α))) :
    (SumAggregate.GetResultSum (SumAggregate.run ops s calls)).is_null_
      = ((SumAggregate.GetResultSum s).is_null_ && calls.all SumAggregate.callIsNull) := by
  have h := runCalls_flag (SumAggregate.Advance ops) (SumAggregate.Merge ops)
    (fun v : NullableValue α => v.is_null_) (fun t : SumAggregate α => t.sum_.is_null_)
    (fun s c => by
      cases c with
      | advance val =>
        cases hv : val.is_null_ <;>
          simp [Call.apply, Call.operandIsNull, SumAggregate.Advance, hv]
      | merge that =>
        cases hv : that.sum_.is_null_ <;>
          simp [Call.apply, Call.operandIsNull, SumAggregate.Merge, hv]) s calls
  exact h

theorem min_run_flag {α : Type} (ops : LimitOps α) (s : MinAggregate α)
    (calls : List (Call (NullableValue α) (MinAggregate α))) :
    (MinAggregate.GetResultMin (MinAggregate.run ops s calls)).is_null_
      = ((MinAggregate.GetResultMin s).is_null_ && calls.all MinAggregate.callIsNull) := by
  have h := runCalls_flag (MinAggregate.Advance ops) (MinAggregate.Merge ops)
    (fun v : NullableValue α => v.is_null_) (fun t : MinAggregate α => t.min_.is_null_)
    (fun s c => by
      cases c with
      | advance val =>
        cases hv : val.is_null_ <;>
          simp [Call.apply, Call.operandIsNull, MinAggregate.Advance, hv]
      | merge that =>
        cases hv : that.min_.is_null_ <;>
          simp [Call.apply, Call.operandIsNull, MinAggregate.Merge, hv]) s calls
  exact h

theorem max_run_flag {α : Type} (ops : LimitOps α) (s : MaxAggregate α)
    (calls : List (Call (NullableValue α) (MaxAggregate α))) :
    (MaxAggregate.GetResultMax (MaxAggregate.run ops s calls)).is_null_
      = ((MaxAggregate.GetResultMax s).is_null_ && calls.all MaxAggregate.callIsNull) := by
  have h := runCalls_flag (MaxAggregate.Advance ops) (MaxAggregate.Merge ops)
    (fun v : NullableValue α => v.is_null_) (fun t : MaxAggregate α => t.max_.is_null_)
    (fun s c => by
      cases c with
      | advance val =>
        cases hv : val.is_null_ <;>
          simp [Call.apply, Call.operandIsNull, MaxAggregate.Advance, hv]
      | merge that =>
        cases hv : that.max_.is_null_ <;>
          simp [Call.apply, Call.operandIsNull, MaxAggregate.Merge, hv]) s calls
  exact h

theorem decimalMin_run_flag (s : FixedDecimalMinAggregate) (calls : List (Call DecimalVal FixedDecimalMinAggregate)) :
    (FixedDecimalMinAggregate.GetResultMin (FixedDecimalMinAggregate.run s calls)).is_null_
      = ((FixedDecimalMinAggregate.GetResultMin s).is_null_ && calls.all FixedDecimalMinAggregate.callIsNull) := by
  have h := runCalls_flag FixedDecimalMinAggregate.Advance FixedDecimalMinAggregate.Merge
    (fun v : DecimalVal => v.is_null_) (fun t : FixedDecimalMinAggregate => (FixedDecimalMinAggregate.GetResultMin t).is_null_)
    (fun s c => by
      cases c with
      | advance val =>
        cases hv : val.is_null_ <;>
          simp [Call.apply, Call.operandIsNull, FixedDecimalMinAggregate.Advance, FixedDecimalMinAggregate.GetResultMin, hv]
      | merge that =>
        cases hv : that.min_.is_null_ <;>
          simp [Call.apply, Call.operandIsNull, FixedDecimalMinAggregate.Merge, FixedDecimalMinAggregate.GetResultMin, hv]) s calls
  exact h

theorem decimalMax_run_flag (s : FixedDecimalMaxAggregate) (calls : List (Call DecimalVal FixedDecimalMaxAggregate)) :
    (FixedDecimalMaxAggregate.GetResultMax (FixedDecimalMaxAggregate.run s calls)).is_null_
      = ((FixedDecimalMaxAggregate.GetResultMax s).is_null_ && calls.all FixedDecimalMaxAggregate.callIsNull) := by
  have h := runCalls_flag FixedDecimalMaxAggregate.Advance FixedDecimalMaxAggregate.Merge
    (fun v : DecimalVal => v.is_null_) (fun t : FixedDecimalMaxAggregate => (FixedDecimalMaxAggregate.GetResultMax t).is_null_)
    (fun s c => by
      cases c with
      | advance val =>
        cases hv : val.is_null_ <;>
          simp [Call.apply, Call.operandIsNull, FixedDecimalMaxAggregate.Advance, FixedDecimalMaxAggregate.GetResultMax, hv]
      | merge that =>
        cases hv : that.max_.is_null_ <;>
          simp [Call.apply, Call.operandIsNull, FixedDecimalMaxAggregate.Merge, FixedDecimalMaxAggregate.GetResultMax, hv]) s calls
  exact h

theorem decimalSum_step_ok (s : FixedDecimalSumAggregate)
    (c : Call DecimalVal FixedDecimalSumAggregate) (s1 : FixedDecimalSumAggregate)
    (h : Call.applyE FixedDecimalSumAggregate.Advance FixedDecimalSumAggregate.Merge s c
      = .ok s1) :
    (FixedDecimalSumAggregate.callIsNull c = true ∧ s1 = s)
    ∨ (FixedDecimalSumAggregate.callIsNull c = false
        ∧ (FixedDecimalSumAggregate.GetResultSum s1).is_null_ = false
        ∧ (FixedDecimalSumAggregate.GetResultSum s1).precision_
            = Call.operandPrecision FixedDecimalSumAggregate.GetResultSum c) := by
  cases c with
  | advance val =>
    cases hv : val.is_null_
    · right
      simp only [Call.applyE, FixedDecimalSumAggregate.Advance, hv, Bool.false_eq_true,
        if_false] at h
      cases ha : Decimal128.AddAndSet s.sum_.val_ val.val_ with
      | error e => rw [ha] at h; cases h
      | ok d =>
        rw [ha] at h
        simp only [Except.ok.injEq] at h
        subst h
        simp [FixedDecimalSumAggregate.callIsNull, Call.operandIsNull, Call.operandPrecision,
          FixedDecimalSumAggregate.GetResultSum, hv]
    · left
      simp only [Call.applyE, FixedDecimalSumAggregate.Advance, hv, if_true,
        Except.ok.injEq] at h
      exact ⟨by simp [FixedDecimalSumAggregate.callIsNull, Call.operandIsNull, hv], h.symm⟩
  | merge that =>
    cases hv : that.sum_.is_null_
    · right
      simp only [Call.applyE, FixedDecimalSumAggregate.Merge, hv, Bool.false_eq_true,
        if_false] at h
      cases ha : Decimal128.AddAndSet s.sum_.val_ that.sum_.val_ with
      | error e => rw [ha] at h; cases h
      | ok d =>
        rw [ha] at h
        simp only [Except.ok.injEq] at h
        subst h
        simp [FixedDecimalSumAggregate.callIsNull, Call.operandIsNull, Call.operandPrecision,
          FixedDecimalSumAggregate.GetResultSum, hv]
    · left
      simp only [Call.applyE, FixedDecimalSumAggregate.Merge, hv, if_true,
        Except.ok.injEq] at h
      exact ⟨by simp [FixedDecimalSumAggregate.callIsNull, Call.operandIsNull,
        FixedDecimalSumAggregate.GetResultSum, hv], h.symm⟩

theorem decimalSum_run_flag (s : FixedDecimalSumAggregate)
    (calls : List (Call DecimalVal FixedDecimalSumAggregate)) (s1 : FixedDecimalSumAggregate)
    (hrun : FixedDecimalSumAggregate.run s calls = .ok s1) :
    (FixedDecimalSumAggregate.GetResultSum s1).is_null_
      = ((FixedDecimalSumAggregate.GetResultSum s).is_null_
          && calls.all FixedDecimalSumAggregate.callIsNull) := by
  have h := runCallsE_flag FixedDecimalSumAggregate.Advance FixedDecimalSumAggregate.Merge
    (fun v : DecimalVal => v.is_null_)
    (fun t : FixedDecimalSumAggregate => (FixedDecimalSumAggregate.GetResultSum t).is_null_)
    (fun s c s2 hc => by
      rcases decimalSum_step_ok s c s2 hc with ⟨hn, he⟩ | ⟨hn, hr, _⟩
      · unfold FixedDecimalSumAggregate.callIsNull at hn
        simp [hn, he]
      · unfold FixedDecimalSumAggregate.callIsNull at hn
        simp [hn, hr]) s calls s1 hrun
  exact h

theorem and_all_eq_false_iff {C : Type} (isNull : C → Bool) (calls : List C) (b : Bool)
    (hb : b = true) : (b && calls.all isNull) = false ↔ ∃ c ∈ calls, isNull c = false := by
  subst hb
  exact flag_false_iff_exists isNull calls

/-! ## Lemmas on the precision along a run -/

theorem decimalMin_run_precision (s : FixedDecimalMinAggregate) (calls : List (Call DecimalVal FixedDecimalMinAggregate)) :
    (FixedDecimalMinAggregate.GetResultMin (FixedDecimalMinAggregate.run s calls)).precision_
      = lastPrecision FixedDecimalMinAggregate.GetResultMin (FixedDecimalMinAggregate.GetResultMin s).precision_ calls := by
  have h := runCalls_precision FixedDecimalMinAggregate.GetResultMin FixedDecimalMinAggregate.Advance FixedDecimalMinAggregate.Merge
    (fun s c => by
      cases c with
      | advance val =>
        cases hv : val.is_null_ <;>
          simp [Call.apply, Call.operandIsNull, Call.operandPrecision, FixedDecimalMinAggregate.Advance,
            FixedDecimalMinAggregate.GetResultMin, hv]
      | merge that =>
        cases hv : that.min_.is_null_ <;>
          simp [Call.apply, Call.operandIsNull, Call.operandPrecision, FixedDecimalMinAggregate.Merge,
            FixedDecimalMinAggregate.GetResultMin, hv]) s calls
  exact h

theorem decimalMax_run_precision (s : FixedDecimalMaxAggregate) (calls : List (Call DecimalVal FixedDecimalMaxAggregate)) :
    (FixedDecimalMaxAggregate.GetResultMax (FixedDecimalMaxAggregate.run s calls)).precision_
      = lastPrecision FixedDecimalMaxAggregate.GetResultMax (FixedDecimalMaxAggregate.GetResultMax s).precision_ calls := by
  have h := runCalls_precision FixedDecimalMaxAggregate.GetResultMax FixedDecimalMaxAggregate.Advance FixedDecimalMaxAggregate.Merge
    (fun s c => by
      cases c with
      | advance val =>
        cases hv : val.is_null_ <;>
          simp [Call.apply, Call.operandIsNull, Call.operandPrecision, FixedDecimalMaxAggregate.Advance,
            FixedDecimalMaxAggregate.GetResultMax, hv]
      | merge that =>
        cases hv : that.max_.is_null_ <;>
          simp [Call.apply, Call.operandIsNull, Call.operandPrecision, FixedDecimalMaxAggregate.Merge,
            FixedDecimalMaxAggregate.GetResultMax, hv]) s calls
  exact h

theorem decimalSum_run_precision (s s1 : FixedDecimalSumAggregate)
    (calls : List (Call DecimalVal FixedDecimalSumAggregate))
    (hrun : FixedDecimalSumAggregate.run s calls = .ok s1) :
    (FixedDecimalSumAggregate.GetResultSum s1).precision_
      = lastPrecision FixedDecimalSumAggregate.GetResultSum
          (FixedDecimalSumAggregate.GetResultSum s).precision_ calls := by
  have h := runCallsE_precision FixedDecimalSumAggregate.GetResultSum
    FixedDecimalSumAggregate.Advance FixedDecimalSumAggregate.Merge
    (fun s c s2 hc => by
      rcases decimalSum_step_ok s c s2 hc with ⟨hn, he⟩ | ⟨hn, _, hp⟩
      · unfold FixedDecimalSumAggregate.callIsNull at hn
        simp [hn, he]
      · unfold FixedDecimalSumAggregate.callIsNull at hn
        simp [hn, hp]) s calls s1 hrun
  exact h

/-! ## Lemmas on AVG -/

theorem avg_advanceAll {D α : Type} (ops : DoubleOps D) (toDouble : α → D)
    (l : List (NullableValue α)) (s : AvgAggregate D) (hs : s.count_ < UINT64_MOD) :
    AvgAggregate.AdvanceAll ops toDouble s l
      = { sum_ := accumulate ops toDouble s.sum_ (nonNullPayloads l),
          count_ := (s.count_ + (nonNullPayloads l).length) % UINT64_MOD } := by
  induction l generalizing s with
  | nil =>
    simp only [AvgAggregate.AdvanceAll, List.foldl_nil, nonNullPayloads_nil, accumulate,
      List.length_nil, Nat.add_zero, Nat.mod_eq_of_lt hs]
  | cons v t ih =>
    have hstep : AvgAggregate.AdvanceAll ops toDouble s (v :: t)
        = AvgAggregate.AdvanceAll ops toDouble (AvgAggregate.Advance ops toDouble s v) t := rfl
    rw [hstep]
    cases h : v.is_null_
    · have hlt : (AvgAggregate.Advance ops toDouble s v).count_ < UINT64_MOD := by
        simp only [AvgAggregate.Advance, h, wrapUInt64]
        exact Nat.mod_lt _ (by decide)
      rw [ih _ hlt, nonNullPayloads_cons_value v t h]
      simp only [AvgAggregate.Advance, h, wrapUInt64, accumulate, List.foldl_cons,
        List.length_cons, Bool.false_eq_true, if_false]
      congr 1
      unfold UINT64_MOD
      omega
    · have hadv : AvgAggregate.Advance ops toDouble s v = s := by
        simp [AvgAggregate.Advance, h]
      rw [hadv, ih s hs, nonNullPayloads_cons_null v t h]

theorem avg_ctor_count_lt {D : Type} (ops : DoubleOps D) :
    (AvgAggregate.ctor ops).count_ < UINT64_MOD := by
  show 0 < UINT64_MOD
  decide

theorem nonNullPayloads_append {α : Type} (g1 g2 : List (NullableValue α)) :
    nonNullPayloads (g1 ++ g2) = nonNullPayloads g1 ++ nonNullPayloads g2 := by
  simp [nonNullPayloads]

theorem accumulate_append {D α : Type} (ops : DoubleOps D) (toDouble : α → D) (start : D)
    (xs ys : List α) :
    accumulate ops toDouble start (xs ++ ys)
      = accumulate ops toDouble (accumulate ops toDouble start xs) ys := by
  simp [accumulate, List.foldl_append]

theorem accumulate_eq_foldl_map {D α : Type} (ops : DoubleOps D) (toDouble : α → D) (start : D)
    (xs : List α) :
    accumulate ops toDouble start xs = (xs.map toDouble).foldl ops.add start := by
  simp [accumulate, List.foldl_map]

theorem foldl_add_of_reassociates {D : Type} [DecidableEq D] (ops : DoubleOps D) (a : D)
    (ys : List D) (b : D) (h : reassociates ops a b ys = true) :
    ys.foldl ops.add (ops.add a b) = ops.add a (ys.foldl ops.add b) := by
  induction ys generalizing b with
  | nil => rfl
  | cons y t ih =>
    simp only [reassociates, Bool.and_eq_true, decide_eq_true_eq] at h
    rw [List.foldl_cons, List.foldl_cons, h.1, ih _ h.2]

/-! ## Lemmas on the fixed-decimal MAX and MIN -/

theorem decimal_std_max_eq (x y : Decimal128) :
    std_max Decimal128.lt x y = { value_ := max x.value_ y.value_ } := by
  obtain ⟨x⟩ := x
  obtain ⟨y⟩ := y
  unfold std_max Decimal128.lt
  by_cases h : x < y
  · simp [h, max_eq_right (le_of_lt h)]
  · simp [h, max_eq_left (not_lt.1 h)]

theorem decimal_std_min_eq (x y : Decimal128) :
    std_min Decimal128.lt x y = { value_ := min x.value_ y.value_ } := by
  obtain ⟨x⟩ := x
  obtain ⟨y⟩ := y
  unfold std_min Decimal128.lt
  by_cases h : y < x
  · simp [h, min_eq_right (le_of_lt h)]
  · simp [h, min_eq_left (not_lt.1 h)]

theorem decimal_std_max_assoc (x y z : Decimal128) :
    std_max Decimal128.lt (std_max Decimal128.lt x y) z
      = std_max Decimal128.lt x (std_max Decimal128.lt y z) := by
  simp only [decimal_std_max_eq, max_assoc]

theorem decimal_std_min_assoc (x y z : Decimal128) :
    std_min Decimal128.lt (std_min Decimal128.lt x y) z
      = std_min Decimal128.lt x (std_min Decimal128.lt y z) := by
  simp only [decimal_std_min_eq, min_assoc]

theorem decimal_std_max_seed (x : Decimal128) (h : IsInt128 x.value_) :
    std_max Decimal128.lt x { value_ := INT128_MIN } = x := by
  unfold IsInt128 at h
  have hlt : ¬ (x.value_ < INT128_MIN) := not_lt.2 h.1
  simp [std_max, Decimal128.lt, hlt]

theorem decimal_std_min_seed (x : Decimal128) (h : IsInt128 x.value_) :
    std_min Decimal128.lt x { value_ := INT128_MAX } = x := by
  unfold IsInt128 at h
  have hlt : ¬ (INT128_MAX < x.value_) := not_lt.2 h.2
  simp [std_min, Decimal128.lt, hlt]

theorem decimalMax_ctor_eq (p0 : Nat) :
    FixedDecimalMaxAggregate.ctor p0
      = { max_ := { is_null_ := true, val_ := { value_ := INT128_MIN }, precision_ := p0 } } := by
  have h : wrapInt128 FixedDecimalMaxAggregate.minval = INT128_MIN := by
    unfold FixedDecimalMaxAggregate.minval wrapInt128 INT128_MIN
    norm_num
  simp only [FixedDecimalMaxAggregate.ctor, Decimal128.SetValue, h]

theorem decimalMin_ctor_eq (p0 : Nat) :
    FixedDecimalMinAggregate.ctor p0
      = { min_ := { is_null_ := true, val_ := { value_ := INT128_MAX }, precision_ := p0 } } := by
  have h : wrapInt128 FixedDecimalMinAggregate.maxval = INT128_MAX := by
    unfold FixedDecimalMinAggregate.maxval wrapInt128 wrapUInt128 INT128_MAX
    norm_num
  simp only [FixedDecimalMinAggregate.ctor, Decimal128.SetValue, h]

theorem decimalMax_merge_advance (a b : FixedDecimalMaxAggregate) (v : DecimalVal)
    (hb : b.max_.is_null_ = true → b.max_.val_ = { value_ := INT128_MIN })
    (hv : DecimalVal.WellFormed v) :
    FixedDecimalMaxAggregate.Merge a (FixedDecimalMaxAggregate.Advance b v)
      = FixedDecimalMaxAggregate.Advance (FixedDecimalMaxAggregate.Merge a b) v := by
  cases hvn : v.is_null_
  · cases hbn : b.max_.is_null_
    · simp only [FixedDecimalMaxAggregate.Merge, FixedDecimalMaxAggregate.Advance, hvn, hbn,
        Bool.false_eq_true, if_false, decimal_std_max_assoc]
    · simp only [FixedDecimalMaxAggregate.Merge, FixedDecimalMaxAggregate.Advance, hvn, hbn,
        Bool.false_eq_true, if_false, if_true, hb hbn, decimal_std_max_seed _ hv]
  · simp [FixedDecimalMaxAggregate.Advance, hvn]

theorem decimalMin_merge_advance (a b : FixedDecimalMinAggregate) (v : DecimalVal)
    (hb : b.min_.is_null_ = true → b.min_.val_ = { value_ := INT128_MAX })
    (hv : DecimalVal.WellFormed v) :
    FixedDecimalMinAggregate.Merge a (FixedDecimalMinAggregate.Advance b v)
      = FixedDecimalMinAggregate.Advance (FixedDecimalMinAggregate.Merge a b) v := by
  cases hvn : v.is_null_
  · cases hbn : b.min_.is_null_
    · simp only [FixedDecimalMinAggregate.Merge, FixedDecimalMinAggregate.Advance, hvn, hbn,
        Bool.false_eq_true, if_false, decimal_std_min_assoc]
    · simp only [FixedDecimalMinAggregate.Merge, FixedDecimalMinAggregate.Advance, hvn, hbn,
        Bool.false_eq_true, if_false, if_true, hb hbn, decimal_std_min_seed _ hv]
  · simp [FixedDecimalMinAggregate.Advance, hvn]

theorem decimalMax_advance_seed (b : FixedDecimalMaxAggregate) (v : DecimalVal)
    (hb : b.max_.is_null_ = true → b.max_.val_ = { value_ := INT128_MIN }) :
    (FixedDecimalMaxAggregate.Advance b v).max_.is_null_ = true →
      (FixedDecimalMaxAggregate.Advance b v).max_.val_ = { value_ := INT128_MIN } := by
  cases hvn : v.is_null_
  · simp [FixedDecimalMaxAggregate.Advance, hvn]
  · simpa [FixedDecimalMaxAggregate.Advance, hvn] using hb

theorem decimalMin_advance_seed (b : FixedDecimalMinAggregate) (v : DecimalVal)
    (hb : b.min_.is_null_ = true → b.min_.val_ = { value_ := INT128_MAX }) :
    (FixedDecimalMinAggregate.Advance b v).min_.is_null_ = true →
      (FixedDecimalMinAggregate.Advance b v).min_.val_ = { value_ := INT128_MAX } := by
  cases hvn : v.is_null_
  · simp [FixedDecimalMinAggregate.Advance, hvn]
  · simpa [FixedDecimalMinAggregate.Advance, hvn] using hb

theorem decimalMax_merge_advanceAll (g : List DecimalVal) (a b : FixedDecimalMaxAggregate)
    (hb : b.max_.is_null_ = true → b.max_.val_ = { value_ := INT128_MIN })
    (hg : ∀ v ∈ g, DecimalVal.WellFormed v) :
    FixedDecimalMaxAggregate.Merge a (FixedDecimalMaxAggregate.AdvanceAll b g)
      = FixedDecimalMaxAggregate.AdvanceAll (FixedDecimalMaxAggregate.Merge a b) g := by
  induction g generalizing b with
  | nil => rfl
  | cons v t ih =>
    have hv := hg v (List.mem_cons_self v t)
    have ht : ∀ w ∈ t, DecimalVal.WellFormed w := fun w hw => hg w (List.mem_cons_of_mem v hw)
    have h1 : FixedDecimalMaxAggregate.AdvanceAll b (v :: t)
        = FixedDecimalMaxAggregate.AdvanceAll (FixedDecimalMaxAggregate.Advance b v) t := rfl
    have h2 : FixedDecimalMaxAggregate.AdvanceAll (FixedDecimalMaxAggregate.Merge a b) (v :: t)
        = FixedDecimalMaxAggregate.AdvanceAll
            (FixedDecimalMaxAggregate.Advance (FixedDecimalMaxAggregate.Merge a b) v) t := rfl
    rw [h1, h2, ih _ (decimalMax_advance_seed b v hb) ht, decimalMax_merge_advance a b v hb hv]

theorem decimalMin_merge_advanceAll (g : List DecimalVal) (a b : FixedDecimalMinAggregate)
    (hb : b.min_.is_null_ = true → b.min_.val_ = { value_ := INT128_MAX })
    (hg : ∀ v ∈ g, DecimalVal.WellFormed v) :
    FixedDecimalMinAggregate.Merge a (FixedDecimalMinAggregate.AdvanceAll b g)
      = FixedDecimalMinAggregate.AdvanceAll (FixedDecimalMinAggregate.Merge a b) g := by
  induction g generalizing b with
  | nil => rfl
  | cons v t ih =>
    have hv := hg v (List.mem_cons_self v t)
    have ht : ∀ w ∈ t, DecimalVal.WellFormed w := fun w hw => hg w (List.mem_cons_of_mem v hw)
    have h1 : FixedDecimalMinAggregate.AdvanceAll b (v :: t)
        = FixedDecimalMinAggregate.AdvanceAll (FixedDecimalMinAggregate.Advance b v) t := rfl
    have h2 : FixedDecimalMinAggregate.AdvanceAll (FixedDecimalMinAggregate.Merge a b) (v :: t)
        = FixedDecimalMinAggregate.AdvanceAll
            (FixedDecimalMinAggregate.Advance (FixedDecimalMinAggregate.Merge a b) v) t := rfl
    rw [h1, h2, ih _ (decimalMin_advance_seed b v hb) ht, decimalMin_merge_advance a b v hb hv]

/-! ## Lemmas on the fixed-decimal SUM -/

theorem decimalSum_advance_value (s s1 : FixedDecimalSumAggregate) (v : DecimalVal)
    (hv : v.is_null_ = false) (h : FixedDecimalSumAggregate.Advance s v = .ok s1) :
    IsInt128 (s.sum_.val_.value_ + v.val_.value_)
    ∧ s1 = { sum_ := { is_null_ := false,
                       val_ := { value_ := s.sum_.val_.value_ + v.val_.value_ },
                       precision_ := v.precision_ } } := by
  by_cases hr : IsInt128 (s.sum_.val_.value_ + v.val_.value_)
  · simp only [FixedDecimalSumAggregate.Advance, Decimal128.AddAndSet, hv, hr,
      Bool.false_eq_true, if_false, if_true, Except.ok.injEq] at h
    exact ⟨hr, h.symm⟩
  · simp [FixedDecimalSumAggregate.Advance, Decimal128.AddAndSet, hv, hr] at h

theorem decimalSum_advance_null (s : FixedDecimalSumAggregate) (v : DecimalVal)
    (hv : v.is_null_ = true) : FixedDecimalSumAggregate.Advance s v = .ok s := by
  simp [FixedDecimalSumAggregate.Advance, hv]

theorem decimalSum_advanceAll_cons_null (s : FixedDecimalSumAggregate) (v : DecimalVal)
    (t : List DecimalVal) (hv : v.is_null_ = true) :
    FixedDecimalSumAggregate.AdvanceAll s (v :: t) = FixedDecimalSumAggregate.AdvanceAll s t := by
  simp only [FixedDecimalSumAggregate.AdvanceAll, decimalSum_advance_null s v hv]

theorem decimalSum_advanceAll_cons_value (s : FixedDecimalSumAggregate) (v : DecimalVal)
    (t : List DecimalVal) (hv : v.is_null_ = false)
    (hr : IsInt128 (s.sum_.val_.value_ + v.val_.value_)) :
    FixedDecimalSumAggregate.AdvanceAll s (v :: t)
      = FixedDecimalSumAggregate.AdvanceAll
          { sum_ := { is_null_ := false,
                      val_ := { value_ := s.sum_.val_.value_ + v.val_.value_ },
                      precision_ := v.precision_ } } t := by
  simp [FixedDecimalSumAggregate.AdvanceAll, FixedDecimalSumAggregate.Advance,
    Decimal128.AddAndSet, hv, hr]

theorem decimalSum_advanceAll_cons_ok (s r : FixedDecimalSumAggregate) (v : DecimalVal)
    (t : List DecimalVal) (hv : v.is_null_ = false)
    (h : FixedDecimalSumAggregate.AdvanceAll s (v :: t) = .ok r) :
    IsInt128 (s.sum_.val_.value_ + v.val_.value_)
    ∧ FixedDecimalSumAggregate.AdvanceAll
          { sum_ := { is_null_ := false,
                      val_ := { value_ := s.sum_.val_.value_ + v.val_.value_ },
                      precision_ := v.precision_ } } t = .ok r := by
  by_cases hr : IsInt128 (s.sum_.val_.value_ + v.val_.value_)
  · rw [decimalSum_advanceAll_cons_value s v t hv hr] at h
    exact ⟨hr, h⟩
  · simp [FixedDecimalSumAggregate.AdvanceAll, FixedDecimalSumAggregate.Advance,
      Decimal128.AddAndSet, hv, hr] at h

theorem decimalSum_advanceAll_ok (l : List DecimalVal) (s : FixedDecimalSumAggregate)
    (h : runningSumsInRange s.sum_.val_.value_ l = true) :
    ∃ r, FixedDecimalSumAggregate.AdvanceAll s l = .ok r := by
  induction l generalizing s with
  | nil => exact ⟨s, rfl⟩
  | cons v t ih =>
    cases hv : v.is_null_
    · simp only [runningSumsInRange, hv, Bool.false_eq_true, if_false, Bool.and_eq_true,
        decide_eq_true_eq] at h
      rw [decimalSum_advanceAll_cons_value s v t hv h.1]
      exact ih _ h.2
    · simp only [runningSumsInRange, hv, if_true] at h
      rw [decimalSum_advanceAll_cons_null s v t hv]
      exact ih s h

theorem decimalSum_advanceAll_append (g1 g2 : List DecimalVal) (s r : FixedDecimalSumAggregate)
    (h : FixedDecimalSumAggregate.AdvanceAll s (g1 ++ g2) = .ok r) :
    ∃ a, FixedDecimalSumAggregate.AdvanceAll s g1 = .ok a
      ∧ FixedDecimalSumAggregate.AdvanceAll a g2 = .ok r := by
  induction g1 generalizing s with
  | nil => exact ⟨s, rfl, h⟩
  | cons v t ih =>
    cases hv : v.is_null_
    · rw [List.cons_append] at h
      obtain ⟨hr, h1⟩ := decimalSum_advanceAll_cons_ok s r v (t ++ g2) hv h
      rw [decimalSum_advanceAll_cons_value s v t hv hr]
      exact ih _ h1
    · rw [List.cons_append, decimalSum_advanceAll_cons_null s v (t ++ g2) hv] at h
      rw [decimalSum_advanceAll_cons_null s v t hv]
      exact ih s h

theorem decimalSum_advanceAll_inRange (g : List DecimalVal) (s r : FixedDecimalSumAggregate)
    (h : FixedDecimalSumAggregate.AdvanceAll s g = .ok r) (hs : IsInt128 s.sum_.val_.value_) :
    IsInt128 r.sum_.val_.value_ := by
  induction g generalizing s with
  | nil =>
    simp only [FixedDecimalSumAggregate.AdvanceAll, Except.ok.injEq] at h
    rw [← h]
    exact hs
  | cons v t ih =>
    cases hv : v.is_null_
    · obtain ⟨hr, h1⟩ := decimalSum_advanceAll_cons_ok s r v t hv h
      exact ih _ h1 hr
    · rw [decimalSum_advanceAll_cons_null s v t hv] at h
      exact ih s h hs

/-- Two runs over the same inputs, from the states `s0` and `s`: either every
input is NULL and both states are unchanged, or both results are non-null, with
the same precision and the same increase of the raw value. -/
theorem decimalSum_advanceAll_parallel (g : List DecimalVal)
    (s0 s b r : FixedDecimalSumAggregate)
    (hb : FixedDecimalSumAggregate.AdvanceAll s0 g = .ok b)
    (hr : FixedDecimalSumAggregate.AdvanceAll s g = .ok r) :
    (b = s0 ∧ r = s)
    ∨ (b.sum_.is_null_ = false ∧ r.sum_.is_null_ = false
        ∧ r.sum_.precision_ = b.sum_.precision_
        ∧ r.sum_.val_.value_ - s.sum_.val_.value_
            = b.sum_.val_.value_ - s0.sum_.val_.value_) := by
  induction g generalizing s0 s with
  | nil =>
    simp only [FixedDecimalSumAggregate.AdvanceAll, Except.ok.injEq] at hb hr
    exact Or.inl ⟨hb.symm, hr.symm⟩
  | cons v t ih =>
    cases hv : v.is_null_
    · obtain ⟨_, hb1⟩ := decimalSum_advanceAll_cons_ok s0 b v t hv hb
      obtain ⟨_, hr1⟩ := decimalSum_advanceAll_cons_ok s r v t hv hr
      right
      rcases ih _ _ hb1 hr1 with ⟨e1, e2⟩ | ⟨n1, n2, hp, hd⟩
      · subst e1
        subst e2
        simp
      · refine ⟨n1, n2, hp, ?_⟩
        simp only at hd
        omega
    · rw [decimalSum_advanceAll_cons_null s0 v t hv] at hb
      rw [decimalSum_advanceAll_cons_null s v t hv] at hr
      exact ih s0 s hb hr

/-! ## Lemmas on truncated division -/

theorem tdiv_eq_truncatedQuotient (x : Int) (d : Nat) :
    Int.tdiv x (d : Int) = truncatedQuotient x d := by
  unfold truncatedQuotient
  by_cases hx : 0 ≤ x
  · rw [if_pos hx]
    obtain ⟨n, rfl⟩ := Int.eq_ofNat_of_zero_le hx
    rfl
  · rw [if_neg hx]
    obtain ⟨n, hn⟩ := Int.exists_eq_neg_ofNat (le_of_lt (not_le.1 hx))
    subst hn
    rw [Int.neg_tdiv, Int.natAbs_neg, Int.natAbs_ofNat]
    rfl

/-! ## Lemmas on `string_multiply` -/

theorem getD_set_self {l : List Int} {c : Nat} (x d : Int) (h : c < l.length) :
    (l.set c x).getD c d = x := by
  rw [List.getD_eq_getElem?_getD, List.getElem?_set_self h]
  rfl

theorem getD_set_other {l : List Int} {c k : Nat} (x d : Int) (h : c ≠ k) :
    (l.set c x).getD k d = l.getD k d := by
  rw [List.getD_eq_getElem?_getD, List.getElem?_set_ne h, ← List.getD_eq_getElem?_getD]

theorem decimalValue_set (l : List Int) (c : Nat) (x : Int) (h : c < l.length) :
    decimalValue (l.set c x)
      = decimalValue l + (x - l.getD c 48) * 10 ^ (l.length - 1 - c) := by
  induction l generalizing c with
  | nil => simp at h
  | cons y ys ih =>
    cases c with
    | zero =>
      simp only [List.set_cons_zero, decimalValue, List.getD_cons_zero, List.length_cons,
        Nat.add_sub_cancel, Nat.sub_zero]
      ring
    | succ k =>
      have hk : k < ys.length := by simpa using h
      simp only [List.set_cons_succ, decimalValue, List.length_set, List.getD_cons_succ,
        List.length_cons, ih k hk]
      have he : ys.length + 1 - 1 - (k + 1) = ys.length - 1 - k := by omega
      rw [he]
      ring

theorem decimalValue_replicate (k : Nat) : decimalValue (List.replicate k 48) = 0 := by
  induction k with
  | zero => rfl
  | succ k ih => simp [List.replicate_succ, decimalValue, ih]

theorem decimalValue_drop (l : List Int) (i : Nat) (h : i < l.length) :
    decimalValue (l.drop i)
      = (l.getD i 0 - 48) * 10 ^ (l.length - 1 - i) + decimalValue (l.drop (i + 1)) := by
  rw [List.drop_eq_getElem_cons h, decimalValue, List.getD_eq_getElem l 0 h, List.length_drop]
  have he : l.length - (i + 1) = l.length - 1 - i := by omega
  rw [he]


theorem digit_getD {s : List Int} (hs : IsDigitString s) {k : Nat} (hk : k < s.length) :
    48 ≤ s.getD k 0 ∧ s.getD k 0 ≤ 57 := by
  rw [List.getD_eq_getElem s 0 hk]
  exact hs _ (List.getElem_mem hk)

theorem getD_default (l : List Int) (k : Nat) (hk : k < l.length) (d e : Int) :
    l.getD k d = l.getD k e := by
  rw [List.getD_eq_getElem l d hk, List.getD_eq_getElem l e hk]

theorem tdiv_tmod_bounds (p : Int) (h0 : 0 ≤ p) (h1 : p ≤ 99) :
    0 ≤ Int.tmod p 10 ∧ Int.tmod p 10 ≤ 9 ∧ 0 ≤ Int.tdiv p 10 ∧ Int.tdiv p 10 ≤ 9
      ∧ Int.tmod p 10 + 10 * Int.tdiv p 10 = p := by
  rw [Int.tdiv_eq_ediv h0 (by norm_num), Int.tmod_eq_emod h0 (by norm_num)]
  omega

theorem body_step (nums1 nums2 : List Int) (h1 : IsDigitString nums1) (h2 : IsDigitString nums2)
    (i j : Nat) (hi : i < nums1.length) (hj : j < nums2.length) (ans : List Int)
    (inv : CellInv nums1 nums2 i (j + 1) ans) :
    CellInv nums1 nums2 i j (string_multiply.body nums1 nums2 i j ans)
    ∧ (∀ c ∈ string_multiply.storeLow nums1 nums2 i j ans, 48 ≤ c ∧ c ≤ 66) := by
  have hlo : i + j + 1 < ans.length := by rw [inv.len]; omega
  have hhi : i + j < ans.length := by omega
  obtain ⟨ha0, ha9⟩ := digit_getD h1 hi
  obtain ⟨hb0, hb9⟩ := digit_getD h2 hj
  have hL0 := inv.lower (i + j + 1)
  have hL18 := inv.special
  rw [show i + (j + 1) = i + j + 1 from rfl] at hL18
  have hLd : ans.getD (i + j + 1) 0 = ans.getD (i + j + 1) 48 := getD_default _ _ hlo _ _
  have hH0 := inv.lower (i + j)
  have hH9 := inv.upper (i + j) (by omega)
  -- the product term
  have hab0 : 0 ≤ (nums1.getD i 0 - 48) * (nums2.getD j 0 - 48) :=
    mul_nonneg (by omega) (by omega)
  have hab81 : (nums1.getD i 0 - 48) * (nums2.getD j 0 - 48) ≤ 81 := by nlinarith
  have hp0 : 0 ≤ string_multiply.p nums1 nums2 ans i j := by
    unfold string_multiply.p; rw [hLd]; omega
  have hp99 : string_multiply.p nums1 nums2 ans i j ≤ 99 := by
    unfold string_multiply.p; rw [hLd]; omega
  obtain ⟨hm0, hm9, hd0, hd9, hpe⟩ := tdiv_tmod_bounds _ hp0 hp99
  set p := string_multiply.p nums1 nums2 ans i j with hpdef
  have hplus : p = (nums1.getD i 0 - 48) * (nums2.getD j 0 - 48)
      + (ans.getD (i + j + 1) 48 - 48) := by
    rw [hpdef]; unfold string_multiply.p; rw [hLd]
  -- the two buffers
  have hlow : string_multiply.storeLow nums1 nums2 i j ans
      = ans.set (i + j + 1) (Int.tmod p 10 + 48) := rfl
  have hHd : (ans.set (i + j + 1) (Int.tmod p 10 + 48)).getD (i + j) 0 = ans.getD (i + j) 48 := by
    rw [getD_set_other _ _ (by omega)]
    exact getD_default _ _ hhi _ _
  have hbody : string_multiply.body nums1 nums2 i j ans
      = (ans.set (i + j + 1) (Int.tmod p 10 + 48)).set (i + j)
          (ans.getD (i + j) 48 + Int.tdiv p 10) := by
    unfold string_multiply.body string_multiply.storeHigh
    rw [hlow, hHd]
  have hgetLow : ∀ c, (ans.set (i + j + 1) (Int.tmod p 10 + 48)).getD c 48
      = if c = i + j + 1 then Int.tmod p 10 + 48 else ans.getD c 48 := by
    intro c
    by_cases hc : c = i + j + 1
    · subst hc
      rw [if_pos rfl, getD_set_self _ _ hlo]
    · rw [if_neg hc, getD_set_other _ _ (Ne.symm hc)]
  have hget : ∀ c, (string_multiply.body nums1 nums2 i j ans).getD c 48
      = if c = i + j then ans.getD (i + j) 48 + Int.tdiv p 10
        else if c = i + j + 1 then Int.tmod p 10 + 48 else ans.getD c 48 := by
    intro c
    rw [hbody]
    by_cases hc : c = i + j
    · subst hc
      rw [if_pos rfl, getD_set_self _ _ (by rw [List.length_set]; exact hhi)]
    · rw [if_neg hc, getD_set_other _ _ (Ne.symm hc), hgetLow]
  refine ⟨⟨?_, ?_, ?_, ?_, ?_, ?_, ?_⟩, ?_⟩
  · rw [hbody, List.length_set, List.length_set]; exact inv.len
  · intro c
    rw [hget]
    split_ifs
    · omega
    · omega
    · exact inv.lower c
  · intro c hc
    rw [hget, if_neg hc]
    split_ifs with h
    · omega
    · exact inv.upper c (by omega)
  · rw [hget, if_pos rfl]; omega
  · intro c hc hne
    rw [hget, if_neg hne, if_neg (by omega)]
    exact inv.zero c hc (by omega)
  · intro hj0
    subst hj0
    have hz := inv.zero i (le_refl i) (by omega)
    have hg := hget i
    rw [if_pos (by omega)] at hg
    rw [hg]
    simp only [Nat.add_zero] at hz ⊢
    omega
  · rw [hbody, decimalValue_set _ _ _ (by rw [List.length_set]; exact hhi),
      decimalValue_set _ _ _ hlo, List.length_set, inv.value,
      decimalValue_drop nums2 j hj]
    have hHd48 : (ans.set (i + j + 1) (Int.tmod p 10 + 48)).getD (i + j) 48 = ans.getD (i + j) 48 :=
      getD_set_other _ _ (by omega)
    rw [hHd48]
    have e1 : ans.length - 1 - (i + j) = (ans.length - 1 - (i + j + 1)) + 1 := by omega
    have e2 : ans.length - 1 - (i + j + 1) = (nums1.length - 1 - i) + (nums2.length - 1 - j) := by
      rw [inv.len]; omega
    rw [e1, e2, pow_succ, pow_add]
    have hpe2 : Int.tmod p 10 = p - 10 * Int.tdiv p 10 := by omega
    rw [hpe2, hplus]
    ring
  · intro c hc
    rw [hlow] at hc
    obtain ⟨k, hk, rfl⟩ := List.getElem_of_mem hc
    have := hgetLow k
    rw [List.getD_eq_getElem _ 48 hk] at this
    rw [this]
    split_ifs with h
    · omega
    · have hu := inv.lower k
      by_cases hks : k = i + (j + 1)
      · omega
      · have := inv.upper k hks
        omega

theorem cellInv_bounded {nums1 nums2 : List Int} {i j : Nat} {ans : List Int}
    (inv : CellInv nums1 nums2 i j ans) : ∀ c ∈ ans, 48 ≤ c ∧ c ≤ 66 := by
  intro c hc
  obtain ⟨k, hk, rfl⟩ := List.getElem_of_mem hc
  have hl := inv.lower k
  rw [List.getD_eq_getElem _ 48 hk] at hl
  refine ⟨hl, ?_⟩
  by_cases hks : k = i + j
  · have := inv.special
    rw [← hks, List.getD_eq_getElem _ 48 hk] at this
    exact this
  · have := inv.upper k hks
    rw [List.getD_eq_getElem _ 48 hk] at this
    omega

theorem rowInv_bounded {nums1 nums2 : List Int} {i : Nat} {ans : List Int}
    (inv : RowInv nums1 nums2 i ans) : ∀ c ∈ ans, 48 ≤ c ∧ c ≤ 57 := by
  intro c hc
  obtain ⟨k, hk, rfl⟩ := List.getElem_of_mem hc
  have hl := inv.lower k
  have hu := inv.upper k
  rw [List.getD_eq_getElem _ 48 hk] at hl hu
  exact ⟨hl, hu⟩

theorem cellInv_of_rowInv {nums1 nums2 : List Int} {i : Nat} {ans : List Int}
    (inv : RowInv nums1 nums2 (i + 1) ans) : CellInv nums1 nums2 i nums2.length ans where
  len := inv.len
  lower := inv.lower
  upper := fun c _ => inv.upper c
  special := by have := inv.upper (i + nums2.length); omega
  zero := fun c hc _ => inv.zero c (by omega)
  last := fun _ => inv.upper i
  value := by
    rw [inv.value, List.drop_length]
    simp [decimalValue]

theorem rowInv_of_cellInv {nums1 nums2 : List Int} {i : Nat} {ans : List Int}
    (hi : i < nums1.length) (inv : CellInv nums1 nums2 i 0 ans) : RowInv nums1 nums2 i ans where
  len := inv.len
  lower := inv.lower
  upper := by
    intro c
    by_cases hc : c = i + 0
    · have := inv.last rfl
      rw [hc]
      simpa using this
    · exact inv.upper c hc
  zero := fun c hc => inv.zero c (by omega) (by omega)
  value := by
    rw [inv.value, decimalValue_drop nums1 i hi, List.drop_zero]
    ring

theorem innerLoop_inv (nums1 nums2 : List Int) (h1 : IsDigitString nums1)
    (h2 : IsDigitString nums2) (i : Nat) (hi : i < nums1.length) (j : Nat)
    (hj : j ≤ nums2.length) (ans : List Int) (inv : CellInv nums1 nums2 i j ans) :
    CellInv nums1 nums2 i 0 (string_multiply.innerLoop nums1 nums2 i j ans)
    ∧ (∀ buf ∈ string_multiply.innerTrace nums1 nums2 i j ans, ∀ c ∈ buf, 48 ≤ c ∧ c ≤ 66) := by
  induction j generalizing ans with
  | zero => exact ⟨inv, fun buf hb => by simp [string_multiply.innerTrace] at hb⟩
  | succ j ih =>
    obtain ⟨hstep, hlow⟩ := body_step nums1 nums2 h1 h2 i j hi (by omega) ans inv
    obtain ⟨hfin, htr⟩ := ih (by omega) _ hstep
    refine ⟨hfin, ?_⟩
    intro buf hb
    simp only [string_multiply.innerTrace, List.mem_cons] at hb
    rcases hb with rfl | rfl | hb
    · exact hlow
    · exact cellInv_bounded hstep
    · exact htr buf hb

theorem outerLoop_inv (nums1 nums2 : List Int) (h1 : IsDigitString nums1)
    (h2 : IsDigitString nums2) (i : Nat) (hi : i ≤ nums1.length) (ans : List Int)
    (inv : RowInv nums1 nums2 i ans) :
    RowInv nums1 nums2 0 (string_multiply.outerLoop nums1 nums2 i ans)
    ∧ (∀ buf ∈ string_multiply.outerTrace nums1 nums2 i ans, ∀ c ∈ buf, 48 ≤ c ∧ c ≤ 66) := by
  induction i generalizing ans with
  | zero => exact ⟨inv, fun buf hb => by simp [string_multiply.outerTrace] at hb⟩
  | succ i ih =>
    obtain ⟨hrow, htr1⟩ := innerLoop_inv nums1 nums2 h1 h2 i (by omega) nums2.length
      (le_refl _) ans (cellInv_of_rowInv inv)
    obtain ⟨hfin, htr2⟩ := ih (by omega) _ (rowInv_of_cellInv (by omega) hrow)
    refine ⟨hfin, ?_⟩
    intro buf hb
    simp only [string_multiply.outerTrace, List.mem_append] at hb
    rcases hb with hb | hb
    · exact htr1 buf hb
    · exact htr2 buf hb

theorem rowInv_initial (nums1 nums2 : List Int) :
    RowInv nums1 nums2 nums1.length (List.replicate (nums1.length + nums2.length) 48) where
  len := List.length_replicate _ _
  lower := by
    intro c
    rw [List.getD_eq_getElem?_getD, List.getElem?_replicate]
    split_ifs <;> simp
  upper := by
    intro c
    rw [List.getD_eq_getElem?_getD, List.getElem?_replicate]
    split_ifs <;> simp
  zero := by
    intro c _
    rw [List.getD_eq_getElem?_getD, List.getElem?_replicate]
    split_ifs <;> simp
  value := by
    rw [decimalValue_replicate, List.drop_length]
    simp [decimalValue]

theorem decimalValue_nonneg (l : List Int) (h : ∀ c ∈ l, 48 ≤ c) : 0 ≤ decimalValue l := by
  induction l with
  | nil => exact le_refl _
  | cons c cs ih =>
    have hc := h c (List.mem_cons_self c cs)
    have hcs := ih (fun x hx => h x (List.mem_cons_of_mem c hx))
    unfold decimalValue
    have : 0 ≤ (c - 48) * 10 ^ cs.length := mul_nonneg (by omega) (by positivity)
    omega

theorem strip_value (l : List Int) :
    decimalValue (string_multiply.strip l) = decimalValue l := by
  induction l with
  | nil => simp [string_multiply.strip, decimalValue]
  | cons c cs ih =>
    by_cases hc : c = 48
    · subst hc
      simp [string_multiply.strip, decimalValue, ih]
    · simp [string_multiply.strip, hc]

theorem strip_digits (l : List Int) (h : IsDigitString l) :
    IsDigitString (string_multiply.strip l) := by
  induction l with
  | nil =>
    intro c hc
    simp only [string_multiply.strip, List.mem_singleton] at hc
    subst hc
    exact ⟨le_refl _, by norm_num⟩
  | cons c cs ih =>
    by_cases hc : c = 48
    · subst hc
      simp only [string_multiply.strip, ne_eq, not_true_eq_false, if_false]
      exact ih (fun x hx => h x (List.mem_cons_of_mem _ hx))
    · simp only [string_multiply.strip, ne_eq, hc, not_false_eq_true, if_true]
      exact h

theorem strip_canonical (l : List Int) :
    string_multiply.strip l = [48]
    ∨ ∃ c cs, string_multiply.strip l = c :: cs ∧ c ≠ 48 := by
  induction l with
  | nil => exact Or.inl rfl
  | cons c cs ih =>
    by_cases hc : c = 48
    · subst hc
      simpa [string_multiply.strip] using ih
    · exact Or.inr ⟨c, cs, by simp [string_multiply.strip, hc], hc⟩

theorem decimalValue_pos_of_head (c : Int) (cs : List Int) (hc : 48 < c)
    (h : ∀ x ∈ cs, 48 ≤ x) : 0 < decimalValue (c :: cs) := by
  unfold decimalValue
  have h1 : 0 < (c - 48) * 10 ^ cs.length := mul_pos (by omega) (by positivity)
  have h2 := decimalValue_nonneg cs h
  omega

/-- A digit string without leading zero is the digits of the number it denotes. -/
theorem digits_of_canonical (l : List Int) (h : IsDigitString l) :
    Nat.ofDigits 10 ((l.map (fun c => (c - 48).toNat)).reverse) = (decimalValue l).toNat := by
  induction l with
  | nil => simp [decimalValue]
  | cons c cs ih =>
    have hc := h c (List.mem_cons_self c cs)
    have hcs : IsDigitString cs := fun x hx => h x (List.mem_cons_of_mem c hx)
    have hnn := decimalValue_nonneg cs (fun x hx => (hcs x hx).1)
    rw [List.map_cons, List.reverse_cons, Nat.ofDigits_append, Nat.ofDigits_singleton, ih hcs,
      List.length_reverse, List.length_map]
    have hcons : decimalValue (c :: cs) = (c - 48) * 10 ^ cs.length + decimalValue cs := rfl
    have h1 : (0 : Int) ≤ (c - 48) * 10 ^ cs.length := mul_nonneg (by omega) (by positivity)
    rw [hcons]
    zify
    rw [Int.toNat_of_nonneg hnn, Int.toNat_of_nonneg (by omega : (0:Int) ≤ c - 48),
      Int.toNat_of_nonneg (by omega)]
    ring

/-! ## Theorems -/

/-- C1: for all lists `g1`, `g2` of nullable 64-bit integers, advancing a fresh
`SumAggregate<Integer>` through `g1`, another through `g2` and merging the second
into the first gives the same `GetResultSum` (null flag and wrapped value) as one
fresh aggregate advanced through `g1` followed by `g2`. -/
theorem sum_merge_eq_advance_append (g1 g2 : List Integer) :
    SumAggregate.GetResultSum
        (SumAggregate.Merge int64SumOps
          (SumAggregate.AdvanceAll int64SumOps (SumAggregate.ctor int64SumOps) g1)
          (SumAggregate.AdvanceAll int64SumOps (SumAggregate.ctor int64SumOps) g2))
      = SumAggregate.GetResultSum
          (SumAggregate.AdvanceAll int64SumOps (SumAggregate.ctor int64SumOps) (g1 ++ g2)) := by
  rw [sum_advanceAll_append]
  unfold SumAggregate.GetResultSum
  rw [sum_advanceAll_int64 g2
    (SumAggregate.AdvanceAll int64SumOps (SumAggregate.ctor int64SumOps) g1)]
  unfold SumAggregate.Merge
  rw [sum_advanceAll_int64 g2 (SumAggregate.ctor int64SumOps)]
  by_cases hl : nonNullPayloads g2 = []
  · simp [hl, SumAggregate.ctor]
  · simp [hl, SumAggregate.ctor, int64SumOps, wrapInt64_add_wrap_right]

/-- C3: a fresh `SumAggregate<Integer>` advanced through a list returns from
`GetResultSum` NULL when every element is NULL, and otherwise the non-null wrapped
sum of the payloads of the non-null elements; `[5, NULL, 3, NULL, 2]` gives
non-null 10 and `[NULL, NULL]` gives NULL. -/
theorem sum_result_spec :
    (∀ l : List Integer,
      SumAggregate.GetResultSum
          (SumAggregate.AdvanceAll int64SumOps (SumAggregate.ctor int64SumOps) l)
        = if l.all (fun v => v.is_null_) then { is_null_ := true, val_ := 0 }
          else { is_null_ := false,
                 val_ := wrapInt64
                   ((l.filter (fun v => !v.is_null_)).map (fun v => v.val_)).sum })
    ∧ SumAggregate.GetResultSum
          (SumAggregate.AdvanceAll int64SumOps (SumAggregate.ctor int64SumOps)
            sumScenario)
        = { is_null_ := false, val_ := 10 }
    ∧ (SumAggregate.GetResultSum
          (SumAggregate.AdvanceAll int64SumOps (SumAggregate.ctor int64SumOps)
            [Integer.Null, Integer.Null])).is_null_
        = true := by
  refine ⟨?_, by decide, by decide⟩
  intro l
  unfold SumAggregate.GetResultSum
  rw [sum_advanceAll_int64 l (SumAggregate.ctor int64SumOps)]
  by_cases hl : nonNullPayloads l = []
  · have hall := (nonNullPayloads_eq_nil_iff l).1 hl
    rw [if_pos hl, if_pos hall]
    rfl
  · have hall : ¬ (l.all (fun v => v.is_null_) = true) :=
      fun h => hl ((nonNullPayloads_eq_nil_iff l).2 h)
    rw [if_neg hl, if_neg hall]
    simp [SumAggregate.ctor, int64SumOps, nonNullPayloads]

/-- C2: for all lists `g1`, `g2` of nullable 64-bit integers (only the payloads
of `g2` have to be known to lie in the `int64_t` range), advancing a fresh
`MaxAggregate<Integer>` (respectively `MinAggregate<Integer>`) through `g1`,
another through `g2` and merging the second into the first gives the same
`GetResultMax` (respectively `GetResultMin`), null flag and value, as one fresh
aggregate advanced through `g1` followed by `g2`. -/
theorem max_min_merge_eq_advance_append (g1 g2 : List Integer)
    (h2 : ∀ v ∈ g2, Integer.WellFormed v) :
    MaxAggregate.GetResultMax
        (MaxAggregate.Merge int64LimitOps
          (MaxAggregate.AdvanceAll int64LimitOps (MaxAggregate.ctor int64LimitOps) g1)
          (MaxAggregate.AdvanceAll int64LimitOps (MaxAggregate.ctor int64LimitOps) g2))
      = MaxAggregate.GetResultMax
          (MaxAggregate.AdvanceAll int64LimitOps (MaxAggregate.ctor int64LimitOps) (g1 ++ g2))
    ∧ MinAggregate.GetResultMin
        (MinAggregate.Merge int64LimitOps
          (MinAggregate.AdvanceAll int64LimitOps (MinAggregate.ctor int64LimitOps) g1)
          (MinAggregate.AdvanceAll int64LimitOps (MinAggregate.ctor int64LimitOps) g2))
      = MinAggregate.GetResultMin
          (MinAggregate.AdvanceAll int64LimitOps (MinAggregate.ctor int64LimitOps) (g1 ++ g2)) := by
  constructor
  · rw [max_advanceAll_append,
      max_merge_advanceAll g2 _ (MaxAggregate.ctor int64LimitOps) (fun _ => rfl) h2]
    rfl
  · rw [min_advanceAll_append,
      min_merge_advanceAll g2 _ (MinAggregate.ctor int64LimitOps) (fun _ => rfl) h2]
    rfl

/-- Witness of C2 at `g1 = [NULL, 7]`, `g2 = [3, -4]`. -/
theorem max_min_merge_eq_advance_append_witness :
    MaxAggregate.GetResultMax
        (MaxAggregate.Merge int64LimitOps
          (MaxAggregate.AdvanceAll int64LimitOps (MaxAggregate.ctor int64LimitOps)
            [{ is_null_ := true, val_ := 0 }, { is_null_ := false, val_ := 7 }])
          (MaxAggregate.AdvanceAll int64LimitOps (MaxAggregate.ctor int64LimitOps)
            [{ is_null_ := false, val_ := 3 }, { is_null_ := false, val_ := -4 }]))
      = MaxAggregate.GetResultMax
          (MaxAggregate.AdvanceAll int64LimitOps (MaxAggregate.ctor int64LimitOps)
            ([{ is_null_ := true, val_ := 0 }, { is_null_ := false, val_ := 7 }]
              ++ [{ is_null_ := false, val_ := 3 }, { is_null_ := false, val_ := -4 }]))
    ∧ MinAggregate.GetResultMin
        (MinAggregate.Merge int64LimitOps
          (MinAggregate.AdvanceAll int64LimitOps (MinAggregate.ctor int64LimitOps)
            [{ is_null_ := true, val_ := 0 }, { is_null_ := false, val_ := 7 }])
          (MinAggregate.AdvanceAll int64LimitOps (MinAggregate.ctor int64LimitOps)
            [{ is_null_ := false, val_ := 3 }, { is_null_ := false, val_ := -4 }]))
      = MinAggregate.GetResultMin
          (MinAggregate.AdvanceAll int64LimitOps (MinAggregate.ctor int64LimitOps)
            ([{ is_null_ := true, val_ := 0 }, { is_null_ := false, val_ := 7 }]
              ++ [{ is_null_ := false, val_ := 3 }, { is_null_ := false, val_ := -4 }])) :=
  max_min_merge_eq_advance_append
    [{ is_null_ := true, val_ := 0 }, { is_null_ := false, val_ := 7 }]
    [{ is_null_ := false, val_ := 3 }, { is_null_ := false, val_ := -4 }]
    (by decide)

/-- C4: a fresh `MaxAggregate<Integer>` advanced through a list of nullable
64-bit integers returns from `GetResultMax` NULL when the list has no non-null
element, and otherwise a non-null value that is the greatest payload among the
non-null elements (also when that payload is `INT64_MIN`, the seed); `[NULL]`
gives NULL and `[NULL, 7, 3]` gives 7. -/
theorem max_result_spec :
    (∀ l : List Integer, (∀ v ∈ l, Integer.WellFormed v) →
      ((∀ v ∈ l, v.is_null_ = true) →
        (MaxAggregate.GetResultMax
          (MaxAggregate.AdvanceAll int64LimitOps (MaxAggregate.ctor int64LimitOps) l)).is_null_
          = true)
      ∧ ((∃ v ∈ l, v.is_null_ = false) →
        (MaxAggregate.GetResultMax
          (MaxAggregate.AdvanceAll int64LimitOps (MaxAggregate.ctor int64LimitOps) l)).is_null_
          = false
        ∧ (MaxAggregate.GetResultMax
            (MaxAggregate.AdvanceAll int64LimitOps (MaxAggregate.ctor int64LimitOps) l)).val_
            ∈ nonNullPayloads l
        ∧ ∀ x ∈ nonNullPayloads l,
            x ≤ (MaxAggregate.GetResultMax
              (MaxAggregate.AdvanceAll int64LimitOps (MaxAggregate.ctor int64LimitOps) l)).val_))
    ∧ (MaxAggregate.GetResultMax
        (MaxAggregate.AdvanceAll int64LimitOps (MaxAggregate.ctor int64LimitOps)
          [Integer.Null])).is_null_ = true
    ∧ MaxAggregate.GetResultMax
        (MaxAggregate.AdvanceAll int64LimitOps (MaxAggregate.ctor int64LimitOps) maxScenario)
        = { is_null_ := false, val_ := 7 }
    ∧ MaxAggregate.GetResultMax
        (MaxAggregate.AdvanceAll int64LimitOps (MaxAggregate.ctor int64LimitOps)
          [Integer.ofInt64 INT64_MIN])
        = { is_null_ := false, val_ := INT64_MIN } := by
  refine ⟨?_, by decide, by decide, by decide⟩
  intro l hwf
  unfold MaxAggregate.GetResultMax
  obtain ⟨hnil, hval⟩ := max_advanceAll_int64 l (MaxAggregate.ctor int64LimitOps)
  constructor
  · intro hall
    rw [hnil (nonNullPayloads_eq_nil_of_forall l hall)]
    rfl
  · intro hex
    have hne := nonNullPayloads_ne_nil_of_exists l hex
    obtain ⟨hn, hge, hall, hmem⟩ := hval hne
    refine ⟨hn, ?_, hall⟩
    rcases hmem with hm | hm
    · obtain ⟨x, xs, hx⟩ := List.exists_cons_of_ne_nil hne
      have hxmem : x ∈ nonNullPayloads l := by rw [hx]; exact List.mem_cons_self x xs
      have hxle := hall x hxmem
      have hxge := (nonNullPayloads_wellFormed l hwf x hxmem).1
      have hseed : (MaxAggregate.ctor int64LimitOps).max_.val_ = INT64_MIN := rfl
      rw [hm, hseed] at hxle
      have hxeq : x = INT64_MIN := le_antisymm hxle hxge
      rw [hm, hseed, ← hxeq]
      exact hxmem
    · exact hm

/-- Witness of C4 at the inputs `[NULL, 7, 3]`. -/
theorem max_result_spec_witness :
    (MaxAggregate.GetResultMax
      (MaxAggregate.AdvanceAll int64LimitOps (MaxAggregate.ctor int64LimitOps)
        maxScenario)).is_null_ = false
    ∧ (MaxAggregate.GetResultMax
        (MaxAggregate.AdvanceAll int64LimitOps (MaxAggregate.ctor int64LimitOps)
          maxScenario)).val_ ∈ nonNullPayloads maxScenario
    ∧ ∀ x ∈ nonNullPayloads maxScenario,
        x ≤ (MaxAggregate.GetResultMax
          (MaxAggregate.AdvanceAll int64LimitOps (MaxAggregate.ctor int64LimitOps)
            maxScenario)).val_ :=
  (max_result_spec.1 maxScenario (by decide)).2 (by decide)

/-- C5: a fresh `MinAggregate<Integer>` advanced through a list of nullable
64-bit integers returns from `GetResultMin` NULL when the list has no non-null
element, and otherwise a non-null value that is the least payload among the
non-null elements (also when that payload is `INT64_MAX`, the seed). -/
theorem min_result_spec :
    (∀ l : List Integer, (∀ v ∈ l, Integer.WellFormed v) →
      ((∀ v ∈ l, v.is_null_ = true) →
        (MinAggregate.GetResultMin
          (MinAggregate.AdvanceAll int64LimitOps (MinAggregate.ctor int64LimitOps) l)).is_null_
          = true)
      ∧ ((∃ v ∈ l, v.is_null_ = false) →
        (MinAggregate.GetResultMin
          (MinAggregate.AdvanceAll int64LimitOps (MinAggregate.ctor int64LimitOps) l)).is_null_
          = false
        ∧ (MinAggregate.GetResultMin
            (MinAggregate.AdvanceAll int64LimitOps (MinAggregate.ctor int64LimitOps) l)).val_
            ∈ nonNullPayloads l
        ∧ ∀ x ∈ nonNullPayloads l,
            (MinAggregate.GetResultMin
              (MinAggregate.AdvanceAll int64LimitOps (MinAggregate.ctor int64LimitOps) l)).val_
              ≤ x))
    ∧ MinAggregate.GetResultMin
        (MinAggregate.AdvanceAll int64LimitOps (MinAggregate.ctor int64LimitOps)
          [Integer.ofInt64 INT64_MAX])
        = { is_null_ := false, val_ := INT64_MAX } := by
  refine ⟨?_, by decide⟩
  intro l hwf
  unfold MinAggregate.GetResultMin
  obtain ⟨hnil, hval⟩ := min_advanceAll_int64 l (MinAggregate.ctor int64LimitOps)
  constructor
  · intro hall
    rw [hnil (nonNullPayloads_eq_nil_of_forall l hall)]
    rfl
  · intro hex
    have hne := nonNullPayloads_ne_nil_of_exists l hex
    obtain ⟨hn, hge, hall, hmem⟩ := hval hne
    refine ⟨hn, ?_, hall⟩
    rcases hmem with hm | hm
    · obtain ⟨x, xs, hx⟩ := List.exists_cons_of_ne_nil hne
      have hxmem : x ∈ nonNullPayloads l := by rw [hx]; exact List.mem_cons_self x xs
      have hxge := hall x hxmem
      have hxle := (nonNullPayloads_wellFormed l hwf x hxmem).2
      have hseed : (MinAggregate.ctor int64LimitOps).min_.val_ = INT64_MAX := rfl
      rw [hm, hseed] at hxge
      have hxeq : x = INT64_MAX := le_antisymm hxle hxge
      rw [hm, hseed, ← hxeq]
      exact hxmem
    · exact hm

/-- Witness of C5 at the inputs `[4, NULL, -6, 9]`. -/
theorem min_result_spec_witness :
    (MinAggregate.GetResultMin
      (MinAggregate.AdvanceAll int64LimitOps (MinAggregate.ctor int64LimitOps)
        minScenario)).is_null_ = false
    ∧ (MinAggregate.GetResultMin
        (MinAggregate.AdvanceAll int64LimitOps (MinAggregate.ctor int64LimitOps)
          minScenario)).val_ ∈ nonNullPayloads minScenario
    ∧ ∀ x ∈ nonNullPayloads minScenario,
        (MinAggregate.GetResultMin
          (MinAggregate.AdvanceAll int64LimitOps (MinAggregate.ctor int64LimitOps)
            minScenario)).val_ ≤ x :=
  (min_result_spec.1 minScenario (by decide)).2 (by decide)

/-- C6: evaluation of `MaxAggregate<Real>` at its seed.  The constructor and
`Reset` store `std::numeric_limits<double>::min()`, which is the positive number
`DBL_MIN` and not a lower bound of the finite doubles; a fresh `RealMaxAggregate`
advanced through the single non-null value `-1.0` returns `DBL_MIN`, not `-1.0`. -/
theorem real_max_seed_eval :
    (MaxAggregate.ctor doubleLimitOps).max_ = { is_null_ := true, val_ := DBL_MIN }
    ∧ (∀ s : MaxAggregate ℚ,
        (MaxAggregate.Reset doubleLimitOps s).max_ = { is_null_ := true, val_ := DBL_MIN })
    ∧ (0 : ℚ) < DBL_MIN
    ∧ ¬ (DBL_MIN ≤ Real.minusOne.val_)
    ∧ MaxAggregate.GetResultMax
        (MaxAggregate.AdvanceAll doubleLimitOps (MaxAggregate.ctor doubleLimitOps)
          [Real.minusOne])
        = { is_null_ := false, val_ := DBL_MIN }
    ∧ (MaxAggregate.GetResultMax
        (MaxAggregate.AdvanceAll doubleLimitOps (MaxAggregate.ctor doubleLimitOps)
          [Real.minusOne])).val_ ≠ -1 := by
  have hpos : (0 : ℚ) < DBL_MIN := by unfold DBL_MIN; positivity
  have hlt : (-1 : ℚ) < DBL_MIN := lt_trans (by norm_num) hpos
  have heval : MaxAggregate.GetResultMax
        (MaxAggregate.AdvanceAll doubleLimitOps (MaxAggregate.ctor doubleLimitOps)
          [Real.minusOne])
        = { is_null_ := false, val_ := DBL_MIN } := by
    simp [MaxAggregate.GetResultMax, MaxAggregate.AdvanceAll, MaxAggregate.Advance,
      MaxAggregate.ctor, Real.minusOne, std_max, doubleLimitOps, hlt]
  refine ⟨rfl, fun _ => rfl, hpos, ?_, heval, ?_⟩
  · simpa [Real.minusOne] using hlt
  · rw [heval]
    exact ne_of_gt hlt

/-- C7: for a list of nullable values of length below `2^63`, a fresh
`CountAggregate` advanced through it returns the non-null number of non-null
elements and a fresh `CountStarAggregate` the non-null length; one `Advance` of
`CountAggregate` leaves the count alone on NULL and adds one (modulo `2^64`)
otherwise. -/
theorem count_result_spec :
    (∀ l : List Val, l.length < 2 ^ 63 →
      CountAggregate.GetCountResult (CountAggregate.AdvanceAll CountAggregate.ctor l)
        = { is_null_ := false, val_ := ((l.countP (fun v => !v.is_null_) : Nat) : Int) }
      ∧ CountStarAggregate.GetCountResult
          (CountStarAggregate.AdvanceAll CountStarAggregate.ctor l)
        = { is_null_ := false, val_ := ((l.length : Nat) : Int) })
    ∧ (∀ (s : CountAggregate) (v : Val), s.count_ < UINT64_MOD →
        (v.is_null_ = true → (CountAggregate.Advance s v).count_ = s.count_)
        ∧ (v.is_null_ = false →
            (CountAggregate.Advance s v).count_ = (s.count_ + 1) % UINT64_MOD)) := by
  constructor
  · intro l hl
    have hk : l.countP (fun v => !v.is_null_) ≤ l.length := List.countP_le_length _
    have h0 : (0 : Nat) < UINT64_MOD := by unfold UINT64_MOD; omega
    constructor
    · unfold CountAggregate.GetCountResult Integer.ofInt64
      rw [count_advanceAll_count l CountAggregate.ctor h0, wrapInt64_natCast_mod]
      have hw : wrapInt64 ((CountAggregate.ctor.count_ + l.countP (fun v => !v.is_null_) : Nat) : Int)
          = ((l.countP (fun v => !v.is_null_) : Nat) : Int) := by
        unfold wrapInt64 CountAggregate.ctor
        simp only [Nat.zero_add]
        omega
      rw [hw]
    · unfold CountStarAggregate.GetCountResult Integer.ofInt64
      rw [countStar_advanceAll_count l CountStarAggregate.ctor h0, wrapInt64_natCast_mod]
      have hw : wrapInt64 ((CountStarAggregate.ctor.count_ + l.length : Nat) : Int)
          = ((l.length : Nat) : Int) := by
        unfold wrapInt64 CountStarAggregate.ctor
        simp only [Nat.zero_add]
        omega
      rw [hw]
  · intro s v hs
    unfold UINT64_MOD at hs
    constructor
    · intro hv
      simp only [CountAggregate.Advance, wrapUInt64, UINT64_MOD, hv]
      simp only [Bool.not_true, Bool.false_eq_true, if_false]
      omega
    · intro hv
      simp [CountAggregate.Advance, wrapUInt64, UINT64_MOD, hv]

/-- Witness of C7 at the inputs `[NULL, x, NULL, y]`: COUNT is 2, COUNT(*) is 4. -/
theorem count_result_spec_witness :
    CountAggregate.GetCountResult (CountAggregate.AdvanceAll CountAggregate.ctor countScenario)
      = { is_null_ := false, val_ := 2 }
    ∧ CountStarAggregate.GetCountResult
        (CountStarAggregate.AdvanceAll CountStarAggregate.ctor countScenario)
      = { is_null_ := false, val_ := 4 } :=
  count_result_spec.1 countScenario (by decide)

/-- C8: for `CountAggregate` and `CountStarAggregate`, `Merge` adds the count of
the partial (a `const &` argument, which the call cannot change) to the count of
the receiver modulo `2^64`; merging the state advanced through `g2` into the state
advanced through `g1` gives the state, hence the `GetCountResult`, of one fresh
state advanced through `g1 ++ g2`; merging a fresh state changes nothing. -/
theorem count_merge_spec :
    (∀ a b : CountAggregate,
      (CountAggregate.Merge a b).count_ = (a.count_ + b.count_) % UINT64_MOD)
    ∧ (∀ a b : CountStarAggregate,
      (CountStarAggregate.Merge a b).count_ = (a.count_ + b.count_) % UINT64_MOD)
    ∧ (∀ g1 g2 : List Val,
      CountAggregate.GetCountResult
          (CountAggregate.Merge (CountAggregate.AdvanceAll CountAggregate.ctor g1)
            (CountAggregate.AdvanceAll CountAggregate.ctor g2))
        = CountAggregate.GetCountResult
            (CountAggregate.AdvanceAll CountAggregate.ctor (g1 ++ g2)))
    ∧ (∀ g1 g2 : List Val,
      CountStarAggregate.GetCountResult
          (CountStarAggregate.Merge (CountStarAggregate.AdvanceAll CountStarAggregate.ctor g1)
            (CountStarAggregate.AdvanceAll CountStarAggregate.ctor g2))
        = CountStarAggregate.GetCountResult
            (CountStarAggregate.AdvanceAll CountStarAggregate.ctor (g1 ++ g2)))
    ∧ (∀ a : CountAggregate, a.count_ < UINT64_MOD →
      CountAggregate.Merge a CountAggregate.ctor = a)
    ∧ (∀ a : CountStarAggregate, a.count_ < UINT64_MOD →
      CountStarAggregate.Merge a CountStarAggregate.ctor = a) := by
  refine ⟨fun _ _ => rfl, fun _ _ => rfl, ?_, ?_, ?_, ?_⟩
  · intro g1 g2
    have hst : CountAggregate.Merge (CountAggregate.AdvanceAll CountAggregate.ctor g1)
          (CountAggregate.AdvanceAll CountAggregate.ctor g2)
        = CountAggregate.AdvanceAll CountAggregate.ctor (g1 ++ g2) := by
      have h1 := count_advanceAll_count g1 CountAggregate.ctor (by decide)
      have h2 := count_advanceAll_count g2 CountAggregate.ctor (by decide)
      have h3 := count_advanceAll_count (g1 ++ g2) CountAggregate.ctor (by decide)
      rw [List.countP_append] at h3
      have hc : (CountAggregate.Merge (CountAggregate.AdvanceAll CountAggregate.ctor g1)
          (CountAggregate.AdvanceAll CountAggregate.ctor g2)).count_
          = (CountAggregate.AdvanceAll CountAggregate.ctor (g1 ++ g2)).count_ := by
        simp only [CountAggregate.Merge, wrapUInt64]
        rw [h1, h2, h3]
        simp only [CountAggregate.ctor, UINT64_MOD]
        omega
      exact congrArg CountAggregate.mk hc
    rw [hst]
  · intro g1 g2
    have hst : CountStarAggregate.Merge (CountStarAggregate.AdvanceAll CountStarAggregate.ctor g1)
          (CountStarAggregate.AdvanceAll CountStarAggregate.ctor g2)
        = CountStarAggregate.AdvanceAll CountStarAggregate.ctor (g1 ++ g2) := by
      have h1 := countStar_advanceAll_count g1 CountStarAggregate.ctor (by decide)
      have h2 := countStar_advanceAll_count g2 CountStarAggregate.ctor (by decide)
      have h3 := countStar_advanceAll_count (g1 ++ g2) CountStarAggregate.ctor
        (by decide)
      rw [List.length_append] at h3
      have hc : (CountStarAggregate.Merge
          (CountStarAggregate.AdvanceAll CountStarAggregate.ctor g1)
          (CountStarAggregate.AdvanceAll CountStarAggregate.ctor g2)).count_
          = (CountStarAggregate.AdvanceAll CountStarAggregate.ctor (g1 ++ g2)).count_ := by
        simp only [CountStarAggregate.Merge, wrapUInt64]
        rw [h1, h2, h3]
        simp only [CountStarAggregate.ctor, UINT64_MOD]
        omega
      exact congrArg CountStarAggregate.mk hc
    rw [hst]
  · intro a ha
    have hc : (CountAggregate.Merge a CountAggregate.ctor).count_ = a.count_ := by
      simp only [CountAggregate.Merge, wrapUInt64, CountAggregate.ctor, Nat.add_zero]
      exact Nat.mod_eq_of_lt ha
    exact congrArg CountAggregate.mk hc
  · intro a ha
    have hc : (CountStarAggregate.Merge a CountStarAggregate.ctor).count_ = a.count_ := by
      simp only [CountStarAggregate.Merge, wrapUInt64, CountStarAggregate.ctor, Nat.add_zero]
      exact Nat.mod_eq_of_lt ha
    exact congrArg CountStarAggregate.mk hc

/-- Witness of C8: merging a fresh state into the count 5 leaves the count 5. -/
theorem count_merge_spec_witness :
    CountAggregate.Merge { count_ := 5 } CountAggregate.ctor = { count_ := 5 }
    ∧ CountStarAggregate.Merge { count_ := 5 } CountStarAggregate.ctor = { count_ := 5 } :=
  ⟨count_merge_spec.2.2.2.2.1 { count_ := 5 } (by decide),
   count_merge_spec.2.2.2.2.2 { count_ := 5 } (by decide)⟩

/-- C9: `Merge` is commutative and associative.  For `CountAggregate` the two
merged states are equal for all states; for `SumAggregate<Integer>`,
`MinAggregate<Integer>` and `MaxAggregate<Integer>` the results after the merges
are equal for all states reachable from a fresh state by `Advance` calls. -/
theorem merge_comm_assoc :
    (∀ a b c : CountAggregate,
      CountAggregate.Merge a b = CountAggregate.Merge b a
      ∧ CountAggregate.Merge (CountAggregate.Merge a b) c
          = CountAggregate.Merge a (CountAggregate.Merge b c))
    ∧ (∀ a b c : SumAggregate Int,
      SumAggregate.Reachable a → SumAggregate.Reachable b → SumAggregate.Reachable c →
      SumAggregate.GetResultSum (SumAggregate.Merge int64SumOps a b)
          = SumAggregate.GetResultSum (SumAggregate.Merge int64SumOps b a)
      ∧ SumAggregate.GetResultSum
            (SumAggregate.Merge int64SumOps (SumAggregate.Merge int64SumOps a b) c)
          = SumAggregate.GetResultSum
              (SumAggregate.Merge int64SumOps a (SumAggregate.Merge int64SumOps b c)))
    ∧ (∀ a b c : MinAggregate Int,
      MinAggregate.Reachable a → MinAggregate.Reachable b → MinAggregate.Reachable c →
      MinAggregate.GetResultMin (MinAggregate.Merge int64LimitOps a b)
          = MinAggregate.GetResultMin (MinAggregate.Merge int64LimitOps b a)
      ∧ MinAggregate.GetResultMin
            (MinAggregate.Merge int64LimitOps (MinAggregate.Merge int64LimitOps a b) c)
          = MinAggregate.GetResultMin
              (MinAggregate.Merge int64LimitOps a (MinAggregate.Merge int64LimitOps b c)))
    ∧ (∀ a b c : MaxAggregate Int,
      MaxAggregate.Reachable a → MaxAggregate.Reachable b → MaxAggregate.Reachable c →
      MaxAggregate.GetResultMax (MaxAggregate.Merge int64LimitOps a b)
          = MaxAggregate.GetResultMax (MaxAggregate.Merge int64LimitOps b a)
      ∧ MaxAggregate.GetResultMax
            (MaxAggregate.Merge int64LimitOps (MaxAggregate.Merge int64LimitOps a b) c)
          = MaxAggregate.GetResultMax
              (MaxAggregate.Merge int64LimitOps a (MaxAggregate.Merge int64LimitOps b c))) := by
  refine ⟨?_, ?_, ?_, ?_⟩
  · intro a b c
    constructor
    · apply congrArg CountAggregate.mk
      simp only [CountAggregate.Merge, wrapUInt64, UINT64_MOD]
      omega
    · apply congrArg CountAggregate.mk
      simp only [CountAggregate.Merge, wrapUInt64, UINT64_MOD]
      omega
  · intro a b c ha hb _
    exact ⟨congrArg _ (sum_merge_comm (sum_reachable_inv ha)
        (sum_reachable_inv hb)),
      congrArg _ (sum_merge_assoc (sum_reachable_inv hb))⟩
  · intro a b c ha hb hc
    exact ⟨congrArg _ (min_merge_comm (min_reachable_inv ha)
        (min_reachable_inv hb)),
      congrArg _ (min_merge_assoc (min_reachable_inv hb)
        (min_reachable_inv hc))⟩
  · intro a b c ha hb hc
    exact ⟨congrArg _ (max_merge_comm (max_reachable_inv ha)
        (max_reachable_inv hb)),
      congrArg _ (max_merge_assoc (max_reachable_inv hb)
        (max_reachable_inv hc))⟩

/-- Witness of C9 at the states reached by the input 5, by no input (still NULL)
and by the input -3, for the sum, the minimum and the maximum. -/
theorem merge_comm_assoc_witness :
    (SumAggregate.GetResultSum
        (SumAggregate.Merge int64SumOps (sumAfter 5) (SumAggregate.ctor int64SumOps))
        = SumAggregate.GetResultSum
            (SumAggregate.Merge int64SumOps (SumAggregate.ctor int64SumOps) (sumAfter 5))
      ∧ SumAggregate.GetResultSum
          (SumAggregate.Merge int64SumOps
            (SumAggregate.Merge int64SumOps (sumAfter 5) (SumAggregate.ctor int64SumOps))
            (sumAfter (-3)))
        = SumAggregate.GetResultSum
            (SumAggregate.Merge int64SumOps (sumAfter 5)
              (SumAggregate.Merge int64SumOps (SumAggregate.ctor int64SumOps) (sumAfter (-3)))))
    ∧ (MinAggregate.GetResultMin
        (MinAggregate.Merge int64LimitOps (minAfter 5) (MinAggregate.ctor int64LimitOps))
        = MinAggregate.GetResultMin
            (MinAggregate.Merge int64LimitOps (MinAggregate.ctor int64LimitOps) (minAfter 5))
      ∧ MinAggregate.GetResultMin
          (MinAggregate.Merge int64LimitOps
            (MinAggregate.Merge int64LimitOps (minAfter 5) (MinAggregate.ctor int64LimitOps))
            (minAfter (-3)))
        = MinAggregate.GetResultMin
            (MinAggregate.Merge int64LimitOps (minAfter 5)
              (MinAggregate.Merge int64LimitOps (MinAggregate.ctor int64LimitOps)
                (minAfter (-3)))))
    ∧ (MaxAggregate.GetResultMax
        (MaxAggregate.Merge int64LimitOps (maxAfter 5) (MaxAggregate.ctor int64LimitOps))
        = MaxAggregate.GetResultMax
            (MaxAggregate.Merge int64LimitOps (MaxAggregate.ctor int64LimitOps) (maxAfter 5))
      ∧ MaxAggregate.GetResultMax
          (MaxAggregate.Merge int64LimitOps
            (MaxAggregate.Merge int64LimitOps (maxAfter 5) (MaxAggregate.ctor int64LimitOps))
            (maxAfter (-3)))
        = MaxAggregate.GetResultMax
            (MaxAggregate.Merge int64LimitOps (maxAfter 5)
              (MaxAggregate.Merge int64LimitOps (MaxAggregate.ctor int64LimitOps)
                (maxAfter (-3))))) :=
  ⟨merge_comm_assoc.2.1 (sumAfter 5) (SumAggregate.ctor int64SumOps) (sumAfter (-3))
      (ReachableBy.advance _ _ ReachableBy.fresh (by decide))
      ReachableBy.fresh
      (ReachableBy.advance _ _ ReachableBy.fresh (by decide)),
   merge_comm_assoc.2.2.1 (minAfter 5) (MinAggregate.ctor int64LimitOps) (minAfter (-3))
      (ReachableBy.advance _ _ ReachableBy.fresh (by decide))
      ReachableBy.fresh
      (ReachableBy.advance _ _ ReachableBy.fresh (by decide)),
   merge_comm_assoc.2.2.2 (maxAfter 5) (MaxAggregate.ctor int64LimitOps) (maxAfter (-3))
      (ReachableBy.advance _ _ ReachableBy.fresh (by decide))
      ReachableBy.fresh
      (ReachableBy.advance _ _ ReachableBy.fresh (by decide))⟩

/-- C10: `Advance` with a NULL value, whatever payload and precision it carries,
returns the state unchanged in every field, for `CountAggregate`,
`SumAggregate<T>`, `MinAggregate<T>`, `MaxAggregate<T>`, `AvgAggregate`,
`FixedDecimalSumAggregate` (which then reports no failure),
`FixedDecimalMinAggregate` and `FixedDecimalMaxAggregate`. -/
theorem advance_null_unchanged :
    (∀ (s : CountAggregate) (v : Val), s.count_ < UINT64_MOD → v.is_null_ = true →
      CountAggregate.Advance s v = s)
    ∧ (∀ (α : Type) (ops : SumOps α) (s : SumAggregate α) (v : NullableValue α),
      v.is_null_ = true → SumAggregate.Advance ops s v = s)
    ∧ (∀ (α : Type) (ops : LimitOps α) (s : MinAggregate α) (v : NullableValue α),
      v.is_null_ = true → MinAggregate.Advance ops s v = s)
    ∧ (∀ (α : Type) (ops : LimitOps α) (s : MaxAggregate α) (v : NullableValue α),
      v.is_null_ = true → MaxAggregate.Advance ops s v = s)
    ∧ (∀ (D α : Type) (ops : DoubleOps D) (toDouble : α → D) (s : AvgAggregate D)
        (v : NullableValue α),
      v.is_null_ = true → AvgAggregate.Advance ops toDouble s v = s)
    ∧ (∀ (s : FixedDecimalSumAggregate) (v : DecimalVal),
      v.is_null_ = true → FixedDecimalSumAggregate.Advance s v = .ok s)
    ∧ (∀ (s : FixedDecimalMinAggregate) (v : DecimalVal),
      v.is_null_ = true → FixedDecimalMinAggregate.Advance s v = s)
    ∧ (∀ (s : FixedDecimalMaxAggregate) (v : DecimalVal),
      v.is_null_ = true → FixedDecimalMaxAggregate.Advance s v = s) := by
  refine ⟨?_, ?_, ?_, ?_, ?_, ?_, ?_, ?_⟩
  · intro s v hs hv
    apply congrArg CountAggregate.mk
    simp only [CountAggregate.Advance, wrapUInt64, hv]
    simpa using Nat.mod_eq_of_lt hs
  · intro α ops s v hv
    simp [SumAggregate.Advance, hv]
  · intro α ops s v hv
    simp [MinAggregate.Advance, hv]
  · intro α ops s v hv
    simp [MaxAggregate.Advance, hv]
  · intro D α ops toDouble s v hv
    simp [AvgAggregate.Advance, hv]
  · intro s v hv
    simp [FixedDecimalSumAggregate.Advance, hv]
  · intro s v hv
    simp [FixedDecimalMinAggregate.Advance, hv]
  · intro s v hv
    simp [FixedDecimalMaxAggregate.Advance, hv]

/-- Witness of C10: a NULL carrying the payload 99 leaves a sum of 7 at 7, and a
NULL decimal carrying raw 99 and precision 4 leaves a decimal sum untouched. -/
theorem advance_null_unchanged_witness :
    SumAggregate.Advance int64SumOps { sum_ := { is_null_ := false, val_ := 7 } }
        { is_null_ := true, val_ := 99 }
      = { sum_ := { is_null_ := false, val_ := 7 } }
    ∧ CountAggregate.Advance { count_ := 3 } { is_null_ := true } = { count_ := 3 }
    ∧ FixedDecimalSumAggregate.Advance
        { sum_ := { is_null_ := false, val_ := { value_ := 150 }, precision_ := 2 } }
        { is_null_ := true, val_ := { value_ := 99 }, precision_ := 4 }
      = .ok { sum_ := { is_null_ := false, val_ := { value_ := 150 }, precision_ := 2 } } :=
  ⟨advance_null_unchanged.2.1 Int int64SumOps _ { is_null_ := true, val_ := 99 } rfl,
   advance_null_unchanged.1 { count_ := 3 } { is_null_ := true } (by decide) rfl,
   advance_null_unchanged.2.2.2.2.2.1 _
     { is_null_ := true, val_ := { value_ := 99 }, precision_ := 4 } rfl⟩

/-- C11: a freshly constructed state returns the non-null integer 0 from
`GetCountResult` (COUNT and COUNT(*)) and NULL from `GetResultSum`,
`GetResultMin`, `GetResultMax` and `GetResultAvg` (generic and fixed-decimal
aggregates, and AVG); the same holds after advancing through a list of NULL
values only, except that COUNT(*) then returns the length of the list. -/
theorem fresh_result_spec :
    (CountAggregate.GetCountResult CountAggregate.ctor = { is_null_ := false, val_ := 0 }
      ∧ CountStarAggregate.GetCountResult CountStarAggregate.ctor
          = { is_null_ := false, val_ := 0 }
      ∧ (∀ (α : Type) (ops : SumOps α),
          (SumAggregate.GetResultSum (SumAggregate.ctor ops)).is_null_ = true)
      ∧ (∀ (α : Type) (ops : LimitOps α),
          (MinAggregate.GetResultMin (MinAggregate.ctor ops)).is_null_ = true)
      ∧ (∀ (α : Type) (ops : LimitOps α),
          (MaxAggregate.GetResultMax (MaxAggregate.ctor ops)).is_null_ = true)
      ∧ (∀ p0 : Nat,
          (FixedDecimalSumAggregate.GetResultSum (FixedDecimalSumAggregate.ctor p0)).is_null_
            = true)
      ∧ (∀ p0 : Nat,
          (FixedDecimalMinAggregate.GetResultMin (FixedDecimalMinAggregate.ctor p0)).is_null_
            = true)
      ∧ (∀ p0 : Nat,
          (FixedDecimalMaxAggregate.GetResultMax (FixedDecimalMaxAggregate.ctor p0)).is_null_
            = true)
      ∧ (∀ (D : Type) (ops : DoubleOps D),
          (AvgAggregate.GetResultAvg ops (AvgAggregate.ctor ops)).is_null_ = true))
    ∧ ((∀ l : List Val, (∀ v ∈ l, v.is_null_ = true) →
          CountAggregate.GetCountResult (CountAggregate.AdvanceAll CountAggregate.ctor l)
            = { is_null_ := false, val_ := 0 })
      ∧ (∀ l : List Val, (∀ v ∈ l, v.is_null_ = true) → l.length < 2 ^ 63 →
          CountStarAggregate.GetCountResult
              (CountStarAggregate.AdvanceAll CountStarAggregate.ctor l)
            = { is_null_ := false, val_ := ((l.length : Nat) : Int) })
      ∧ (∀ (α : Type) (ops : SumOps α) (l : List (NullableValue α)),
          (∀ v ∈ l, v.is_null_ = true) →
          (SumAggregate.GetResultSum
            (SumAggregate.AdvanceAll ops (SumAggregate.ctor ops) l)).is_null_ = true)
      ∧ (∀ (α : Type) (ops : LimitOps α) (l : List (NullableValue α)),
          (∀ v ∈ l, v.is_null_ = true) →
          (MinAggregate.GetResultMin
            (MinAggregate.AdvanceAll ops (MinAggregate.ctor ops) l)).is_null_ = true)
      ∧ (∀ (α : Type) (ops : LimitOps α) (l : List (NullableValue α)),
          (∀ v ∈ l, v.is_null_ = true) →
          (MaxAggregate.GetResultMax
            (MaxAggregate.AdvanceAll ops (MaxAggregate.ctor ops) l)).is_null_ = true)
      ∧ (∀ (p0 : Nat) (l : List DecimalVal), (∀ v ∈ l, v.is_null_ = true) →
          ∃ s, FixedDecimalSumAggregate.AdvanceAll (FixedDecimalSumAggregate.ctor p0) l = .ok s
            ∧ (FixedDecimalSumAggregate.GetResultSum s).is_null_ = true)
      ∧ (∀ (p0 : Nat) (l : List DecimalVal), (∀ v ∈ l, v.is_null_ = true) →
          (FixedDecimalMinAggregate.GetResultMin
            (FixedDecimalMinAggregate.AdvanceAll (FixedDecimalMinAggregate.ctor p0) l)).is_null_
            = true)
      ∧ (∀ (p0 : Nat) (l : List DecimalVal), (∀ v ∈ l, v.is_null_ = true) →
          (FixedDecimalMaxAggregate.GetResultMax
            (FixedDecimalMaxAggregate.AdvanceAll (FixedDecimalMaxAggregate.ctor p0) l)).is_null_
            = true)
      ∧ (∀ (D α : Type) (ops : DoubleOps D) (toDouble : α → D) (l : List (NullableValue α)),
          (∀ v ∈ l, v.is_null_ = true) →
          (AvgAggregate.GetResultAvg ops
            (AvgAggregate.AdvanceAll ops toDouble (AvgAggregate.ctor ops) l)).is_null_
            = true)) := by
  refine ⟨⟨by decide, by decide, fun _ _ => rfl, fun _ _ => rfl, fun _ _ => rfl,
    fun _ => rfl, fun _ => rfl, fun _ => rfl, fun _ _ => rfl⟩,
    ?_, ?_, ?_, ?_, ?_, ?_, ?_, ?_, ?_⟩
  · intro l h
    have hrun : CountAggregate.AdvanceAll CountAggregate.ctor l = CountAggregate.ctor :=
      foldl_eq_self_of_forall _ _ l (fun v hv => by
        simp [CountAggregate.Advance, CountAggregate.ctor, wrapUInt64, h v hv])
    rw [hrun]
    decide
  · intro l _ hlen
    unfold CountStarAggregate.GetCountResult Integer.ofInt64
    rw [countStar_advanceAll_count l CountStarAggregate.ctor (by decide), wrapInt64_natCast_mod]
    have hw : wrapInt64 ((CountStarAggregate.ctor.count_ + l.length : Nat) : Int)
        = ((l.length : Nat) : Int) := by
      unfold wrapInt64 CountStarAggregate.ctor
      simp only [Nat.zero_add]
      omega
    rw [hw]
  · intro α ops l h
    have hrun : SumAggregate.AdvanceAll ops (SumAggregate.ctor ops) l = SumAggregate.ctor ops :=
      foldl_eq_self_of_forall _ _ l (fun v hv => by simp [SumAggregate.Advance, h v hv])
    rw [hrun]
    rfl
  · intro α ops l h
    have hrun : MinAggregate.AdvanceAll ops (MinAggregate.ctor ops) l = MinAggregate.ctor ops :=
      foldl_eq_self_of_forall _ _ l (fun v hv => by simp [MinAggregate.Advance, h v hv])
    rw [hrun]
    rfl
  · intro α ops l h
    have hrun : MaxAggregate.AdvanceAll ops (MaxAggregate.ctor ops) l = MaxAggregate.ctor ops :=
      foldl_eq_self_of_forall _ _ l (fun v hv => by simp [MaxAggregate.Advance, h v hv])
    rw [hrun]
    rfl
  · intro p0 l h
    exact ⟨FixedDecimalSumAggregate.ctor p0, decimalSum_advanceAll_null _ l h, rfl⟩
  · intro p0 l h
    have hrun : FixedDecimalMinAggregate.AdvanceAll (FixedDecimalMinAggregate.ctor p0) l
        = FixedDecimalMinAggregate.ctor p0 :=
      foldl_eq_self_of_forall _ _ l (fun v hv => by
        simp [FixedDecimalMinAggregate.Advance, h v hv])
    rw [hrun]
    rfl
  · intro p0 l h
    have hrun : FixedDecimalMaxAggregate.AdvanceAll (FixedDecimalMaxAggregate.ctor p0) l
        = FixedDecimalMaxAggregate.ctor p0 :=
      foldl_eq_self_of_forall _ _ l (fun v hv => by
        simp [FixedDecimalMaxAggregate.Advance, h v hv])
    rw [hrun]
    rfl
  · intro D α ops toDouble l h
    have hrun : AvgAggregate.AdvanceAll ops toDouble (AvgAggregate.ctor ops) l
        = AvgAggregate.ctor ops :=
      foldl_eq_self_of_forall _ _ l (fun v hv => by simp [AvgAggregate.Advance, h v hv])
    rw [hrun]
    rfl

/-- Witness of C11 at the list `[NULL, NULL]`: COUNT is 0, COUNT(*) is 2, the sum
is NULL and the decimal sum is NULL. -/
theorem fresh_result_spec_witness :
    CountAggregate.GetCountResult
        (CountAggregate.AdvanceAll CountAggregate.ctor [{ is_null_ := true }, { is_null_ := true }])
      = { is_null_ := false, val_ := 0 }
    ∧ CountStarAggregate.GetCountResult
        (CountStarAggregate.AdvanceAll CountStarAggregate.ctor
          [{ is_null_ := true }, { is_null_ := true }])
      = { is_null_ := false, val_ := 2 }
    ∧ (SumAggregate.GetResultSum
        (SumAggregate.AdvanceAll int64SumOps (SumAggregate.ctor int64SumOps)
          [Integer.Null, Integer.Null])).is_null_ = true
    ∧ (∃ s, FixedDecimalSumAggregate.AdvanceAll (FixedDecimalSumAggregate.ctor 2)
          [DecimalVal.nullWith 99 4, DecimalVal.nullWith 0 0] = .ok s
        ∧ (FixedDecimalSumAggregate.GetResultSum s).is_null_ = true) :=
  ⟨fresh_result_spec.2.1 [{ is_null_ := true }, { is_null_ := true }] (by decide),
   fresh_result_spec.2.2.1 [{ is_null_ := true }, { is_null_ := true }] (by decide) (by decide),
   fresh_result_spec.2.2.2.1 Int int64SumOps [Integer.Null, Integer.Null] (by decide),
   fresh_result_spec.2.2.2.2.2.2.1 2 [DecimalVal.nullWith 99 4, DecimalVal.nullWith 0 0]
     (by decide)⟩

/-- C12: for `CountAggregate`, `CountStarAggregate`, `SumAggregate<Integer>`,
`MinAggregate<Integer>`, `MaxAggregate<Integer>` and `AvgAggregate`, `Reset` of any
state (in particular of every state reachable by `Advance` and `Merge`) is the
freshly constructed state, field by field, and `Reset` applied twice equals
`Reset` applied once. -/
theorem reset_eq_fresh :
    (∀ s : CountAggregate,
      CountAggregate.Reset s = CountAggregate.ctor
      ∧ CountAggregate.Reset (CountAggregate.Reset s) = CountAggregate.Reset s)
    ∧ (∀ s : CountStarAggregate,
      CountStarAggregate.Reset s = CountStarAggregate.ctor
      ∧ CountStarAggregate.Reset (CountStarAggregate.Reset s) = CountStarAggregate.Reset s)
    ∧ (∀ s : SumAggregate Int,
      SumAggregate.Reset int64SumOps s = SumAggregate.ctor int64SumOps
      ∧ SumAggregate.Reset int64SumOps (SumAggregate.Reset int64SumOps s)
          = SumAggregate.Reset int64SumOps s)
    ∧ (∀ s : MinAggregate Int,
      MinAggregate.Reset int64LimitOps s = MinAggregate.ctor int64LimitOps
      ∧ MinAggregate.Reset int64LimitOps (MinAggregate.Reset int64LimitOps s)
          = MinAggregate.Reset int64LimitOps s)
    ∧ (∀ s : MaxAggregate Int,
      MaxAggregate.Reset int64LimitOps s = MaxAggregate.ctor int64LimitOps
      ∧ MaxAggregate.Reset int64LimitOps (MaxAggregate.Reset int64LimitOps s)
          = MaxAggregate.Reset int64LimitOps s)
    ∧ (∀ (D : Type) (ops : DoubleOps D) (s : AvgAggregate D),
      AvgAggregate.Reset ops s = AvgAggregate.ctor ops
      ∧ AvgAggregate.Reset ops (AvgAggregate.Reset ops s) = AvgAggregate.Reset ops s) :=
  ⟨fun _ => ⟨rfl, rfl⟩, fun _ => ⟨rfl, rfl⟩, fun _ => ⟨rfl, rfl⟩, fun _ => ⟨rfl, rfl⟩,
   fun _ => ⟨rfl, rfl⟩, fun _ _ _ => ⟨rfl, rfl⟩⟩

/-- C13 fails as stated: whatever precision `p0` a fresh fixed-decimal aggregate
has, after one `Advance` with the non-null decimal of raw value 1 and precision
`p0 + 1`, `Reset` returns a result of precision `p0 + 1`, while the result of a
freshly constructed state has precision `p0`. -/
theorem decimal_reset_keeps_precision_counterexample :
    (∀ p0 : Nat,
      FixedDecimalMaxAggregate.GetResultMax
          (FixedDecimalMaxAggregate.Reset
            (FixedDecimalMaxAggregate.Advance (FixedDecimalMaxAggregate.ctor p0)
              (DecimalVal.ofRaw 1 (p0 + 1))))
        = { is_null_ := true, val_ := { value_ := INT128_MIN }, precision_ := p0 + 1 })
    ∧ (∀ p0 : Nat,
      FixedDecimalMaxAggregate.GetResultMax (FixedDecimalMaxAggregate.ctor p0)
        = { is_null_ := true, val_ := { value_ := INT128_MIN }, precision_ := p0 })
    ∧ ¬ (∃ p0 : Nat, ∀ v : DecimalVal,
        FixedDecimalMaxAggregate.GetResultMax
            (FixedDecimalMaxAggregate.Reset
              (FixedDecimalMaxAggregate.Advance (FixedDecimalMaxAggregate.ctor p0) v))
          = FixedDecimalMaxAggregate.GetResultMax (FixedDecimalMaxAggregate.ctor p0)) := by
  have hseed : wrapInt128 FixedDecimalMaxAggregate.minval = INT128_MIN := by
    unfold FixedDecimalMaxAggregate.minval wrapInt128 INT128_MIN
    norm_num
  refine ⟨?_, ?_, ?_⟩
  · intro p0
    simp [FixedDecimalMaxAggregate.GetResultMax, FixedDecimalMaxAggregate.Reset,
      FixedDecimalMaxAggregate.Advance, DecimalVal.ofRaw, Decimal128.SetValue, hseed]
  · intro p0
    rw [decimalMax_ctor_eq]
    rfl
  · rintro ⟨p0, h⟩
    have h1 := congrArg DecimalVal.precision_ (h (DecimalVal.ofRaw 1 (p0 + 1)))
    simp [FixedDecimalMaxAggregate.GetResultMax, FixedDecimalMaxAggregate.Reset,
      FixedDecimalMaxAggregate.Advance, FixedDecimalMaxAggregate.ctor, DecimalVal.ofRaw] at h1

/-- C13, amended: for the three fixed-decimal aggregates `Reset` of any state
returns a result with `is_null_ = true` and the raw value of a freshly constructed
state, and leaves the precision as it was; the whole result equals the fresh one
exactly when the precision before `Reset` is the precision of construction. -/
theorem decimal_reset_spec :
    (∀ (p0 : Nat) (s : FixedDecimalSumAggregate),
      (FixedDecimalSumAggregate.GetResultSum (FixedDecimalSumAggregate.Reset s)).is_null_ = true
      ∧ (FixedDecimalSumAggregate.GetResultSum (FixedDecimalSumAggregate.Reset s)).val_
          = (FixedDecimalSumAggregate.GetResultSum (FixedDecimalSumAggregate.ctor p0)).val_
      ∧ (FixedDecimalSumAggregate.GetResultSum (FixedDecimalSumAggregate.Reset s)).precision_
          = (FixedDecimalSumAggregate.GetResultSum s).precision_
      ∧ (FixedDecimalSumAggregate.GetResultSum (FixedDecimalSumAggregate.Reset s)
            = FixedDecimalSumAggregate.GetResultSum (FixedDecimalSumAggregate.ctor p0)
          ↔ (FixedDecimalSumAggregate.GetResultSum s).precision_ = p0))
    ∧ (∀ (p0 : Nat) (s : FixedDecimalMinAggregate),
      (FixedDecimalMinAggregate.GetResultMin (FixedDecimalMinAggregate.Reset s)).is_null_ = true
      ∧ (FixedDecimalMinAggregate.GetResultMin (FixedDecimalMinAggregate.Reset s)).val_
          = (FixedDecimalMinAggregate.GetResultMin (FixedDecimalMinAggregate.ctor p0)).val_
      ∧ (FixedDecimalMinAggregate.GetResultMin (FixedDecimalMinAggregate.Reset s)).precision_
          = (FixedDecimalMinAggregate.GetResultMin s).precision_
      ∧ (FixedDecimalMinAggregate.GetResultMin (FixedDecimalMinAggregate.Reset s)
            = FixedDecimalMinAggregate.GetResultMin (FixedDecimalMinAggregate.ctor p0)
          ↔ (FixedDecimalMinAggregate.GetResultMin s).precision_ = p0))
    ∧ (∀ (p0 : Nat) (s : FixedDecimalMaxAggregate),
      (FixedDecimalMaxAggregate.GetResultMax (FixedDecimalMaxAggregate.Reset s)).is_null_ = true
      ∧ (FixedDecimalMaxAggregate.GetResultMax (FixedDecimalMaxAggregate.Reset s)).val_
          = (FixedDecimalMaxAggregate.GetResultMax (FixedDecimalMaxAggregate.ctor p0)).val_
      ∧ (FixedDecimalMaxAggregate.GetResultMax (FixedDecimalMaxAggregate.Reset s)).precision_
          = (FixedDecimalMaxAggregate.GetResultMax s).precision_
      ∧ (FixedDecimalMaxAggregate.GetResultMax (FixedDecimalMaxAggregate.Reset s)
            = FixedDecimalMaxAggregate.GetResultMax (FixedDecimalMaxAggregate.ctor p0)
          ↔ (FixedDecimalMaxAggregate.GetResultMax s).precision_ = p0)) := by
  refine ⟨fun p0 s => ⟨rfl, rfl, rfl, ?_⟩, fun p0 s => ⟨rfl, rfl, rfl, ?_⟩,
    fun p0 s => ⟨rfl, rfl, rfl, ?_⟩⟩
  · constructor
    · intro h
      exact congrArg DecimalVal.precision_ h
    · intro h
      simp only [FixedDecimalSumAggregate.GetResultSum] at h
      simp [FixedDecimalSumAggregate.GetResultSum, FixedDecimalSumAggregate.Reset,
        FixedDecimalSumAggregate.ctor, h]
  · constructor
    · intro h
      exact congrArg DecimalVal.precision_ h
    · intro h
      simp only [FixedDecimalMinAggregate.GetResultMin] at h
      simp [FixedDecimalMinAggregate.GetResultMin, FixedDecimalMinAggregate.Reset,
        FixedDecimalMinAggregate.ctor, Decimal128.SetValue, h]
  · constructor
    · intro h
      exact congrArg DecimalVal.precision_ h
    · intro h
      simp only [FixedDecimalMaxAggregate.GetResultMax] at h
      simp [FixedDecimalMaxAggregate.GetResultMax, FixedDecimalMaxAggregate.Reset,
        FixedDecimalMaxAggregate.ctor, Decimal128.SetValue, h]

/-- C15: after construction and after `Reset`, `FixedDecimalMinAggregate` holds the
raw value `2^127 - 1` and `FixedDecimalMaxAggregate` the raw value `-2^127`, each
with `is_null_ = true`; these are the bounds of the signed 128-bit values, and the
first `Advance` with a non-null signed 128-bit value stores that value. -/
theorem decimal_seed_spec :
    (∀ p0 : Nat,
      (FixedDecimalMinAggregate.ctor p0).min_.val_.value_ = 2 ^ 127 - 1
      ∧ (FixedDecimalMinAggregate.ctor p0).min_.is_null_ = true
      ∧ (FixedDecimalMaxAggregate.ctor p0).max_.val_.value_ = -2 ^ 127
      ∧ (FixedDecimalMaxAggregate.ctor p0).max_.is_null_ = true)
    ∧ (∀ s : FixedDecimalMinAggregate,
      (FixedDecimalMinAggregate.Reset s).min_.val_.value_ = 2 ^ 127 - 1
      ∧ (FixedDecimalMinAggregate.Reset s).min_.is_null_ = true)
    ∧ (∀ s : FixedDecimalMaxAggregate,
      (FixedDecimalMaxAggregate.Reset s).max_.val_.value_ = -2 ^ 127
      ∧ (FixedDecimalMaxAggregate.Reset s).max_.is_null_ = true)
    ∧ (∀ r : Int, IsInt128 r ↔ (-2 ^ 127 ≤ r ∧ r ≤ 2 ^ 127 - 1))
    ∧ (∀ (p0 : Nat) (v : DecimalVal), v.is_null_ = false → DecimalVal.WellFormed v →
      FixedDecimalMinAggregate.GetResultMin
          (FixedDecimalMinAggregate.Advance (FixedDecimalMinAggregate.ctor p0) v) = v
      ∧ FixedDecimalMaxAggregate.GetResultMax
          (FixedDecimalMaxAggregate.Advance (FixedDecimalMaxAggregate.ctor p0) v) = v)
    ∧ (∀ (s : FixedDecimalMinAggregate) (v : DecimalVal), v.is_null_ = false →
      DecimalVal.WellFormed v →
      FixedDecimalMinAggregate.GetResultMin
          (FixedDecimalMinAggregate.Advance (FixedDecimalMinAggregate.Reset s) v) = v)
    ∧ (∀ (s : FixedDecimalMaxAggregate) (v : DecimalVal), v.is_null_ = false →
      DecimalVal.WellFormed v →
      FixedDecimalMaxAggregate.GetResultMax
          (FixedDecimalMaxAggregate.Advance (FixedDecimalMaxAggregate.Reset s) v) = v) := by
  have h127 : (2 : Int) ^ 127 = 170141183460469231731687303715884105728 := by norm_num
  have hsmin : wrapInt128 FixedDecimalMinAggregate.maxval = 2 ^ 127 - 1 := by
    unfold FixedDecimalMinAggregate.maxval wrapInt128 wrapUInt128
    norm_num
  have hsmax : wrapInt128 FixedDecimalMaxAggregate.minval = -2 ^ 127 := by
    unfold FixedDecimalMaxAggregate.minval wrapInt128
    norm_num
  have hadvMin : ∀ (q : Nat) (v : DecimalVal), v.is_null_ = false →
      DecimalVal.WellFormed v →
      FixedDecimalMinAggregate.GetResultMin
        (FixedDecimalMinAggregate.Advance
          { min_ := { is_null_ := true, val_ := { value_ := 2 ^ 127 - 1 }, precision_ := q } }
          v) = v := by
    intro q v hv hwf
    obtain ⟨⟨vn⟩, ⟨vr⟩, vp⟩ := v
    simp only at hv
    subst hv
    unfold DecimalVal.WellFormed IsInt128 INT128_MIN INT128_MAX at hwf
    simp only at hwf
    have hlt : ¬ ((2 : Int) ^ 127 - 1 < vr) := by
      rw [h127]; omega
    simp only [FixedDecimalMinAggregate.GetResultMin, FixedDecimalMinAggregate.Advance, std_min,
      Decimal128.lt, hlt, Bool.false_eq_true, if_false, decide_False]
  have hadvMax : ∀ (q : Nat) (v : DecimalVal), v.is_null_ = false →
      DecimalVal.WellFormed v →
      FixedDecimalMaxAggregate.GetResultMax
        (FixedDecimalMaxAggregate.Advance
          { max_ := { is_null_ := true, val_ := { value_ := -2 ^ 127 }, precision_ := q } }
          v) = v := by
    intro q v hv hwf
    obtain ⟨⟨vn⟩, ⟨vr⟩, vp⟩ := v
    simp only at hv
    subst hv
    unfold DecimalVal.WellFormed IsInt128 INT128_MIN INT128_MAX at hwf
    simp only at hwf
    have hlt : ¬ (vr < -(2 : Int) ^ 127) := by
      rw [h127]; omega
    simp only [FixedDecimalMaxAggregate.GetResultMax, FixedDecimalMaxAggregate.Advance, std_max,
      Decimal128.lt, hlt, Bool.false_eq_true, if_false, decide_False]
  have ectorMin : ∀ p0, FixedDecimalMinAggregate.ctor p0
      = { min_ := { is_null_ := true, val_ := { value_ := 2 ^ 127 - 1 }, precision_ := p0 } } := by
    intro p0
    simp only [FixedDecimalMinAggregate.ctor, Decimal128.SetValue, hsmin]
  have ectorMax : ∀ p0, FixedDecimalMaxAggregate.ctor p0
      = { max_ := { is_null_ := true, val_ := { value_ := -2 ^ 127 }, precision_ := p0 } } := by
    intro p0
    simp only [FixedDecimalMaxAggregate.ctor, Decimal128.SetValue, hsmax]
  have eresetMin : ∀ s, FixedDecimalMinAggregate.Reset s
      = { min_ := { is_null_ := true, val_ := { value_ := 2 ^ 127 - 1 },
                    precision_ := s.min_.precision_ } } := by
    intro s
    simp only [FixedDecimalMinAggregate.Reset, Decimal128.SetValue, hsmin]
  have eresetMax : ∀ s, FixedDecimalMaxAggregate.Reset s
      = { max_ := { is_null_ := true, val_ := { value_ := -2 ^ 127 },
                    precision_ := s.max_.precision_ } } := by
    intro s
    simp only [FixedDecimalMaxAggregate.Reset, Decimal128.SetValue, hsmax]
  refine ⟨fun p0 => ⟨?_, rfl, ?_, rfl⟩, fun s => ⟨?_, rfl⟩, fun s => ⟨?_, rfl⟩, ?_, ?_, ?_, ?_⟩
  · rw [ectorMin]
  · rw [ectorMax]
  · rw [eresetMin]
  · rw [eresetMax]
  · intro r
    unfold IsInt128 INT128_MIN INT128_MAX
    rw [h127]
    norm_num
  · intro p0 v hv hwf
    rw [ectorMin, ectorMax]
    exact ⟨hadvMin p0 v hv hwf, hadvMax p0 v hv hwf⟩
  · intro s v hv hwf
    rw [eresetMin]
    exact hadvMin _ v hv hwf
  · intro s v hv hwf
    rw [eresetMax]
    exact hadvMax _ v hv hwf

/-- Witness of C15: the first `Advance` with the non-null raw value `-7` of
precision 2 stores it, in the minimum and in the maximum. -/
theorem decimal_seed_spec_witness :
    FixedDecimalMinAggregate.GetResultMin
        (FixedDecimalMinAggregate.Advance (FixedDecimalMinAggregate.ctor 0)
          (DecimalVal.ofRaw (-7) 2)) = DecimalVal.ofRaw (-7) 2
    ∧ FixedDecimalMaxAggregate.GetResultMax
        (FixedDecimalMaxAggregate.Advance (FixedDecimalMaxAggregate.ctor 0)
          (DecimalVal.ofRaw (-7) 2)) = DecimalVal.ofRaw (-7) 2 :=
  decimal_seed_spec.2.2.2.2.1 0 (DecimalVal.ofRaw (-7) 2) rfl (by decide)

/-- C20: with the addition of `Decimal128` reporting overflow, an `Advance` of
`FixedDecimalSumAggregate` with a non-null decimal, or a `Merge` with a non-null
partial, fails with `ArithmeticOverflow` when the exact sum of the two raw values
is outside the signed 128-bit range, and otherwise succeeds and stores the exact
sum (non-null, with the precision of the operand). -/
theorem decimal_sum_overflow_spec :
    (∀ (s : FixedDecimalSumAggregate) (v : DecimalVal), v.is_null_ = false →
      (¬ IsInt128 (s.sum_.val_.value_ + v.val_.value_) →
        FixedDecimalSumAggregate.Advance s v = .error .ArithmeticOverflow)
      ∧ (IsInt128 (s.sum_.val_.value_ + v.val_.value_) →
        FixedDecimalSumAggregate.Advance s v
          = .ok { sum_ := { is_null_ := false,
                            val_ := { value_ := s.sum_.val_.value_ + v.val_.value_ },
                            precision_ := v.precision_ } }))
    ∧ (∀ s that : FixedDecimalSumAggregate, that.sum_.is_null_ = false →
      (¬ IsInt128 (s.sum_.val_.value_ + that.sum_.val_.value_) →
        FixedDecimalSumAggregate.Merge s that = .error .ArithmeticOverflow)
      ∧ (IsInt128 (s.sum_.val_.value_ + that.sum_.val_.value_) →
        FixedDecimalSumAggregate.Merge s that
          = .ok { sum_ := { is_null_ := false,
                            val_ := { value_ := s.sum_.val_.value_ + that.sum_.val_.value_ },
                            precision_ := that.sum_.precision_ } })) := by
  constructor
  · intro s v hv
    constructor
    · intro h
      simp [FixedDecimalSumAggregate.Advance, Decimal128.AddAndSet, hv, h]
    · intro h
      simp [FixedDecimalSumAggregate.Advance, Decimal128.AddAndSet, hv, h]
  · intro s that hv
    constructor
    · intro h
      simp [FixedDecimalSumAggregate.Merge, Decimal128.AddAndSet, hv, h]
    · intro h
      simp [FixedDecimalSumAggregate.Merge, Decimal128.AddAndSet, hv, h]

/-- Witness of C20: adding raw 1 to the running raw value `2^127 - 1` reports
overflow, and adding raw 200 to the running raw value 150 stores 350. -/
theorem decimal_sum_overflow_spec_witness :
    FixedDecimalSumAggregate.Advance { sum_ := DecimalVal.ofRaw INT128_MAX 2 }
        (DecimalVal.ofRaw 1 2) = .error .ArithmeticOverflow
    ∧ FixedDecimalSumAggregate.Advance { sum_ := DecimalVal.ofRaw 150 2 }
        (DecimalVal.ofRaw 200 2) = .ok { sum_ := DecimalVal.ofRaw 350 2 } :=
  ⟨(decimal_sum_overflow_spec.1 { sum_ := DecimalVal.ofRaw INT128_MAX 2 }
      (DecimalVal.ofRaw 1 2) rfl).1 (by decide),
   (decimal_sum_overflow_spec.1 { sum_ := DecimalVal.ofRaw 150 2 }
      (DecimalVal.ofRaw 200 2) rfl).2 (by decide)⟩

/-- C14: for `SumAggregate`, `MinAggregate`, `MaxAggregate` and their fixed-decimal
variants, a fresh state and a `Reset` state have a NULL result; after any sequence
of `Advance` and `Merge` calls from a state with a NULL result, the result is
non-null exactly when some `Advance` received a non-null value or some `Merge`
received a partial with a non-null result; and from a state with a non-null
result no sequence of `Advance` and `Merge` calls leads to a NULL result.  For
`FixedDecimalSumAggregate` the sequences are those in which no call overflows. -/
theorem null_flag_spec :
    (∀ (α : Type) (ops : SumOps α),
      (SumAggregate.GetResultSum (SumAggregate.ctor ops)).is_null_ = true
      ∧ (∀ s : SumAggregate α, (SumAggregate.GetResultSum (SumAggregate.Reset ops s)).is_null_ = true)
      ∧ (∀ (s0 : SumAggregate α) (calls : List (Call (NullableValue α) (SumAggregate α))),
          (SumAggregate.GetResultSum s0).is_null_ = true →
          ((SumAggregate.GetResultSum (SumAggregate.run ops s0 calls)).is_null_ = false
            ↔ ∃ c ∈ calls, SumAggregate.callIsNull c = false))
      ∧ (∀ (s : SumAggregate α) (calls : List (Call (NullableValue α) (SumAggregate α))),
          (SumAggregate.GetResultSum s).is_null_ = false →
          (SumAggregate.GetResultSum (SumAggregate.run ops s calls)).is_null_ = false))
    ∧ (∀ (α : Type) (ops : LimitOps α),
      (MinAggregate.GetResultMin (MinAggregate.ctor ops)).is_null_ = true
      ∧ (∀ s : MinAggregate α, (MinAggregate.GetResultMin (MinAggregate.Reset ops s)).is_null_ = true)
      ∧ (∀ (s0 : MinAggregate α) (calls : List (Call (NullableValue α) (MinAggregate α))),
          (MinAggregate.GetResultMin s0).is_null_ = true →
          ((MinAggregate.GetResultMin (MinAggregate.run ops s0 calls)).is_null_ = false
            ↔ ∃ c ∈ calls, MinAggregate.callIsNull c = false))
      ∧ (∀ (s : MinAggregate α) (calls : List (Call (NullableValue α) (MinAggregate α))),
          (MinAggregate.GetResultMin s).is_null_ = false →
          (MinAggregate.GetResultMin (MinAggregate.run ops s calls)).is_null_ = false))
    ∧ (∀ (α : Type) (ops : LimitOps α),
      (MaxAggregate.GetResultMax (MaxAggregate.ctor ops)).is_null_ = true
      ∧ (∀ s : MaxAggregate α, (MaxAggregate.GetResultMax (MaxAggregate.Reset ops s)).is_null_ = true)
      ∧ (∀ (s0 : MaxAggregate α) (calls : List (Call (NullableValue α) (MaxAggregate α))),
          (MaxAggregate.GetResultMax s0).is_null_ = true →
          ((MaxAggregate.GetResultMax (MaxAggregate.run ops s0 calls)).is_null_ = false
            ↔ ∃ c ∈ calls, MaxAggregate.callIsNull c = false))
      ∧ (∀ (s : MaxAggregate α) (calls : List (Call (NullableValue α) (MaxAggregate α))),
          (MaxAggregate.GetResultMax s).is_null_ = false →
          (MaxAggregate.GetResultMax (MaxAggregate.run ops s calls)).is_null_ = false))
    ∧ ((∀ p0 : Nat,
        (FixedDecimalSumAggregate.GetResultSum (FixedDecimalSumAggregate.ctor p0)).is_null_ = true)
      ∧ (∀ s : FixedDecimalSumAggregate,
          (FixedDecimalSumAggregate.GetResultSum (FixedDecimalSumAggregate.Reset s)).is_null_
            = true)
      ∧ (∀ (s0 s1 : FixedDecimalSumAggregate)
          (calls : List (Call DecimalVal FixedDecimalSumAggregate)),
          (FixedDecimalSumAggregate.GetResultSum s0).is_null_ = true →
          FixedDecimalSumAggregate.run s0 calls = .ok s1 →
          ((FixedDecimalSumAggregate.GetResultSum s1).is_null_ = false
            ↔ ∃ c ∈ calls, FixedDecimalSumAggregate.callIsNull c = false))
      ∧ (∀ (s s1 : FixedDecimalSumAggregate)
          (calls : List (Call DecimalVal FixedDecimalSumAggregate)),
          (FixedDecimalSumAggregate.GetResultSum s).is_null_ = false →
          FixedDecimalSumAggregate.run s calls = .ok s1 →
          (FixedDecimalSumAggregate.GetResultSum s1).is_null_ = false))
    ∧ ((∀ p0 : Nat, (FixedDecimalMinAggregate.GetResultMin (FixedDecimalMinAggregate.ctor p0)).is_null_ = true)
      ∧ (∀ s : FixedDecimalMinAggregate, (FixedDecimalMinAggregate.GetResultMin (FixedDecimalMinAggregate.Reset s)).is_null_ = true)
      ∧ (∀ (s0 : FixedDecimalMinAggregate) (calls : List (Call DecimalVal FixedDecimalMinAggregate)),
          (FixedDecimalMinAggregate.GetResultMin s0).is_null_ = true →
          ((FixedDecimalMinAggregate.GetResultMin (FixedDecimalMinAggregate.run s0 calls)).is_null_ = false
            ↔ ∃ c ∈ calls, FixedDecimalMinAggregate.callIsNull c = false))
      ∧ (∀ (s : FixedDecimalMinAggregate) (calls : List (Call DecimalVal FixedDecimalMinAggregate)),
          (FixedDecimalMinAggregate.GetResultMin s).is_null_ = false →
          (FixedDecimalMinAggregate.GetResultMin (FixedDecimalMinAggregate.run s calls)).is_null_ = false))
    ∧ ((∀ p0 : Nat, (FixedDecimalMaxAggregate.GetResultMax (FixedDecimalMaxAggregate.ctor p0)).is_null_ = true)
      ∧ (∀ s : FixedDecimalMaxAggregate, (FixedDecimalMaxAggregate.GetResultMax (FixedDecimalMaxAggregate.Reset s)).is_null_ = true)
      ∧ (∀ (s0 : FixedDecimalMaxAggregate) (calls : List (Call DecimalVal FixedDecimalMaxAggregate)),
          (FixedDecimalMaxAggregate.GetResultMax s0).is_null_ = true →
          ((FixedDecimalMaxAggregate.GetResultMax (FixedDecimalMaxAggregate.run s0 calls)).is_null_ = false
            ↔ ∃ c ∈ calls, FixedDecimalMaxAggregate.callIsNull c = false))
      ∧ (∀ (s : FixedDecimalMaxAggregate) (calls : List (Call DecimalVal FixedDecimalMaxAggregate)),
          (FixedDecimalMaxAggregate.GetResultMax s).is_null_ = false →
          (FixedDecimalMaxAggregate.GetResultMax (FixedDecimalMaxAggregate.run s calls)).is_null_ = false)) := by
  refine ⟨?_, ?_, ?_, ?_, ?_, ?_⟩
  · intro α ops
    refine ⟨rfl, fun _ => rfl, ?_, ?_⟩
    · intro s0 calls h0
      rw [sum_run_flag]
      exact and_all_eq_false_iff _ calls _ h0
    · intro s calls hs
      rw [sum_run_flag, hs]
      rfl
  · intro α ops
    refine ⟨rfl, fun _ => rfl, ?_, ?_⟩
    · intro s0 calls h0
      rw [min_run_flag]
      exact and_all_eq_false_iff _ calls _ h0
    · intro s calls hs
      rw [min_run_flag, hs]
      rfl
  · intro α ops
    refine ⟨rfl, fun _ => rfl, ?_, ?_⟩
    · intro s0 calls h0
      rw [max_run_flag]
      exact and_all_eq_false_iff _ calls _ h0
    · intro s calls hs
      rw [max_run_flag, hs]
      rfl
  · refine ⟨fun _ => rfl, fun _ => rfl, ?_, ?_⟩
    · intro s0 s1 calls h0 hrun
      rw [decimalSum_run_flag s0 calls s1 hrun]
      exact and_all_eq_false_iff _ calls _ h0
    · intro s s1 calls hs hrun
      rw [decimalSum_run_flag s calls s1 hrun, hs]
      rfl
  · refine ⟨fun _ => rfl, fun _ => rfl, ?_, ?_⟩
    · intro s0 calls h0
      rw [decimalMin_run_flag]
      exact and_all_eq_false_iff _ calls _ h0
    · intro s calls hs
      rw [decimalMin_run_flag, hs]
      rfl
  · refine ⟨fun _ => rfl, fun _ => rfl, ?_, ?_⟩
    · intro s0 calls h0
      rw [decimalMax_run_flag]
      exact and_all_eq_false_iff _ calls _ h0
    · intro s calls hs
      rw [decimalMax_run_flag, hs]
      rfl

/-- Witness of C14: from a fresh integer sum, the calls `Advance(NULL)` and
`Merge` with the partial holding 5 give a non-null result; from a fresh decimal
sum, `Advance(NULL)` then `Advance` with raw 150 succeed and give a non-null
result. -/
theorem null_flag_spec_witness :
    ((SumAggregate.GetResultSum
        (SumAggregate.run int64SumOps (SumAggregate.ctor int64SumOps)
          [Call.advance Integer.Null, Call.merge (sumAfter 5)])).is_null_ = false
      ↔ ∃ c ∈ [Call.advance Integer.Null, Call.merge (sumAfter 5)],
          SumAggregate.callIsNull c = false)
    ∧ ((FixedDecimalSumAggregate.GetResultSum
          { sum_ := DecimalVal.ofRaw 150 2 }).is_null_ = false
      ↔ ∃ c ∈ [Call.advance (DecimalVal.nullWith 9 4), Call.advance (DecimalVal.ofRaw 150 2)],
          FixedDecimalSumAggregate.callIsNull c = false) :=
  ⟨(null_flag_spec.1 Int int64SumOps).2.2.1 (SumAggregate.ctor int64SumOps)
      [Call.advance Integer.Null, Call.merge (sumAfter 5)] rfl,
   null_flag_spec.2.2.2.1.2.2.1 (FixedDecimalSumAggregate.ctor 0)
      { sum_ := DecimalVal.ofRaw 150 2 }
      [Call.advance (DecimalVal.nullWith 9 4), Call.advance (DecimalVal.ofRaw 150 2)]
      rfl rfl⟩

/-- C16: for the three fixed-decimal aggregates, `Advance` with a non-null decimal
makes the precision of the result that of the value, `Merge` with a partial whose
result is non-null makes it that of the partial, and a NULL value or NULL partial
leaves it unchanged; after any sequence of calls the precision of the result is
that of the last non-null operand, or the one before the sequence when every
operand is NULL.  For `FixedDecimalSumAggregate` this is said of the calls that do
not overflow, and a call whose exact sum is in range does not overflow. -/
theorem decimal_precision_spec :
    ((∀ (s s1 : FixedDecimalSumAggregate) (v : DecimalVal), v.is_null_ = false →
        FixedDecimalSumAggregate.Advance s v = .ok s1 →
        (FixedDecimalSumAggregate.GetResultSum s1).precision_ = v.precision_)
      ∧ (∀ (s : FixedDecimalSumAggregate) (v : DecimalVal), v.is_null_ = false →
        IsInt128 (s.sum_.val_.value_ + v.val_.value_) →
        ∃ s1, FixedDecimalSumAggregate.Advance s v = .ok s1
          ∧ (FixedDecimalSumAggregate.GetResultSum s1).precision_ = v.precision_)
      ∧ (∀ s s1 that : FixedDecimalSumAggregate,
        (FixedDecimalSumAggregate.GetResultSum that).is_null_ = false →
        FixedDecimalSumAggregate.Merge s that = .ok s1 →
        (FixedDecimalSumAggregate.GetResultSum s1).precision_
          = (FixedDecimalSumAggregate.GetResultSum that).precision_)
      ∧ (∀ s that : FixedDecimalSumAggregate,
        (FixedDecimalSumAggregate.GetResultSum that).is_null_ = false →
        IsInt128 (s.sum_.val_.value_ + that.sum_.val_.value_) →
        ∃ s1, FixedDecimalSumAggregate.Merge s that = .ok s1
          ∧ (FixedDecimalSumAggregate.GetResultSum s1).precision_
              = (FixedDecimalSumAggregate.GetResultSum that).precision_)
      ∧ (∀ (s : FixedDecimalSumAggregate) (v : DecimalVal), v.is_null_ = true →
        ∃ s1, FixedDecimalSumAggregate.Advance s v = .ok s1
          ∧ (FixedDecimalSumAggregate.GetResultSum s1).precision_
              = (FixedDecimalSumAggregate.GetResultSum s).precision_)
      ∧ (∀ s that : FixedDecimalSumAggregate,
        (FixedDecimalSumAggregate.GetResultSum that).is_null_ = true →
        ∃ s1, FixedDecimalSumAggregate.Merge s that = .ok s1
          ∧ (FixedDecimalSumAggregate.GetResultSum s1).precision_
              = (FixedDecimalSumAggregate.GetResultSum s).precision_)
      ∧ (∀ (s s1 : FixedDecimalSumAggregate)
          (calls : List (Call DecimalVal FixedDecimalSumAggregate)),
        FixedDecimalSumAggregate.run s calls = .ok s1 →
        (FixedDecimalSumAggregate.GetResultSum s1).precision_
          = lastPrecision FixedDecimalSumAggregate.GetResultSum
              (FixedDecimalSumAggregate.GetResultSum s).precision_ calls))
    ∧ ((∀ (s : FixedDecimalMinAggregate) (v : DecimalVal), v.is_null_ = false →
        (FixedDecimalMinAggregate.GetResultMin (FixedDecimalMinAggregate.Advance s v)).precision_ = v.precision_)
      ∧ (∀ s that : FixedDecimalMinAggregate, (FixedDecimalMinAggregate.GetResultMin that).is_null_ = false →
        (FixedDecimalMinAggregate.GetResultMin (FixedDecimalMinAggregate.Merge s that)).precision_ = (FixedDecimalMinAggregate.GetResultMin that).precision_)
      ∧ (∀ (s : FixedDecimalMinAggregate) (v : DecimalVal), v.is_null_ = true →
        (FixedDecimalMinAggregate.GetResultMin (FixedDecimalMinAggregate.Advance s v)).precision_ = (FixedDecimalMinAggregate.GetResultMin s).precision_)
      ∧ (∀ s that : FixedDecimalMinAggregate, (FixedDecimalMinAggregate.GetResultMin that).is_null_ = true →
        (FixedDecimalMinAggregate.GetResultMin (FixedDecimalMinAggregate.Merge s that)).precision_ = (FixedDecimalMinAggregate.GetResultMin s).precision_)
      ∧ (∀ (s : FixedDecimalMinAggregate) (calls : List (Call DecimalVal FixedDecimalMinAggregate)),
        (FixedDecimalMinAggregate.GetResultMin (FixedDecimalMinAggregate.run s calls)).precision_
          = lastPrecision FixedDecimalMinAggregate.GetResultMin (FixedDecimalMinAggregate.GetResultMin s).precision_ calls))
    ∧ ((∀ (s : FixedDecimalMaxAggregate) (v : DecimalVal), v.is_null_ = false →
        (FixedDecimalMaxAggregate.GetResultMax (FixedDecimalMaxAggregate.Advance s v)).precision_ = v.precision_)
      ∧ (∀ s that : FixedDecimalMaxAggregate, (FixedDecimalMaxAggregate.GetResultMax that).is_null_ = false →
        (FixedDecimalMaxAggregate.GetResultMax (FixedDecimalMaxAggregate.Merge s that)).precision_ = (FixedDecimalMaxAggregate.GetResultMax that).precision_)
      ∧ (∀ (s : FixedDecimalMaxAggregate) (v : DecimalVal), v.is_null_ = true →
        (FixedDecimalMaxAggregate.GetResultMax (FixedDecimalMaxAggregate.Advance s v)).precision_ = (FixedDecimalMaxAggregate.GetResultMax s).precision_)
      ∧ (∀ s that : FixedDecimalMaxAggregate, (FixedDecimalMaxAggregate.GetResultMax that).is_null_ = true →
        (FixedDecimalMaxAggregate.GetResultMax (FixedDecimalMaxAggregate.Merge s that)).precision_ = (FixedDecimalMaxAggregate.GetResultMax s).precision_)
      ∧ (∀ (s : FixedDecimalMaxAggregate) (calls : List (Call DecimalVal FixedDecimalMaxAggregate)),
        (FixedDecimalMaxAggregate.GetResultMax (FixedDecimalMaxAggregate.run s calls)).precision_
          = lastPrecision FixedDecimalMaxAggregate.GetResultMax (FixedDecimalMaxAggregate.GetResultMax s).precision_ calls)) := by
  refine ⟨?_, ?_, ?_⟩
  · refine ⟨?_, ?_, ?_, ?_, ?_, ?_, ?_⟩
    · intro s s1 v hv h
      have hc : Call.applyE FixedDecimalSumAggregate.Advance FixedDecimalSumAggregate.Merge s
          (Call.advance v) = .ok s1 := h
      rcases decimalSum_step_ok s _ s1 hc with ⟨hn, _⟩ | ⟨_, _, hp⟩
      · simp [FixedDecimalSumAggregate.callIsNull, Call.operandIsNull, hv] at hn
      · exact hp
    · intro s v hv hr
      exact ⟨{ sum_ := { is_null_ := false,
                         val_ := { value_ := s.sum_.val_.value_ + v.val_.value_ },
                         precision_ := v.precision_ } },
        by simp [FixedDecimalSumAggregate.Advance, Decimal128.AddAndSet, hv, hr], rfl⟩
    · intro s s1 that hv h
      have hc : Call.applyE FixedDecimalSumAggregate.Advance FixedDecimalSumAggregate.Merge s
          (Call.merge that) = .ok s1 := h
      rcases decimalSum_step_ok s _ s1 hc with ⟨hn, _⟩ | ⟨_, _, hp⟩
      · simp [FixedDecimalSumAggregate.callIsNull, Call.operandIsNull, hv] at hn
      · exact hp
    · intro s that hv hr
      simp only [FixedDecimalSumAggregate.GetResultSum] at hv
      exact ⟨{ sum_ := { is_null_ := false,
                         val_ := { value_ := s.sum_.val_.value_ + that.sum_.val_.value_ },
                         precision_ := that.sum_.precision_ } },
        by simp [FixedDecimalSumAggregate.Merge, Decimal128.AddAndSet, hv, hr], rfl⟩
    · intro s v hv
      exact ⟨s, by simp [FixedDecimalSumAggregate.Advance, hv], rfl⟩
    · intro s that hv
      simp only [FixedDecimalSumAggregate.GetResultSum] at hv
      exact ⟨s, by simp [FixedDecimalSumAggregate.Merge, hv], rfl⟩
    · intro s s1 calls hrun
      exact decimalSum_run_precision s s1 calls hrun
  · refine ⟨?_, ?_, ?_, ?_, ?_⟩
    · intro s v hv
      simp [FixedDecimalMinAggregate.GetResultMin, FixedDecimalMinAggregate.Advance, hv]
    · intro s that hv
      simp only [FixedDecimalMinAggregate.GetResultMin] at hv
      simp [FixedDecimalMinAggregate.GetResultMin, FixedDecimalMinAggregate.Merge, hv]
    · intro s v hv
      simp [FixedDecimalMinAggregate.GetResultMin, FixedDecimalMinAggregate.Advance, hv]
    · intro s that hv
      simp only [FixedDecimalMinAggregate.GetResultMin] at hv
      simp [FixedDecimalMinAggregate.GetResultMin, FixedDecimalMinAggregate.Merge, hv]
    · intro s calls
      exact decimalMin_run_precision s calls
  · refine ⟨?_, ?_, ?_, ?_, ?_⟩
    · intro s v hv
      simp [FixedDecimalMaxAggregate.GetResultMax, FixedDecimalMaxAggregate.Advance, hv]
    · intro s that hv
      simp only [FixedDecimalMaxAggregate.GetResultMax] at hv
      simp [FixedDecimalMaxAggregate.GetResultMax, FixedDecimalMaxAggregate.Merge, hv]
    · intro s v hv
      simp [FixedDecimalMaxAggregate.GetResultMax, FixedDecimalMaxAggregate.Advance, hv]
    · intro s that hv
      simp only [FixedDecimalMaxAggregate.GetResultMax] at hv
      simp [FixedDecimalMaxAggregate.GetResultMax, FixedDecimalMaxAggregate.Merge, hv]
    · intro s calls
      exact decimalMax_run_precision s calls

/-- Witness of C16: a decimal maximum of precision 2 advanced with a non-null
value of precision 4 has precision 4, and a decimal sum of precision 2 advanced
with raw 200 of precision 3 succeeds with precision 3. -/
theorem decimal_precision_spec_witness :
    (FixedDecimalMaxAggregate.GetResultMax
        (FixedDecimalMaxAggregate.Advance { max_ := DecimalVal.ofRaw 150 2 }
          (DecimalVal.ofRaw 7 4))).precision_ = 4
    ∧ (∃ s1, FixedDecimalSumAggregate.Advance { sum_ := DecimalVal.ofRaw 150 2 }
          (DecimalVal.ofRaw 200 3) = .ok s1
        ∧ (FixedDecimalSumAggregate.GetResultSum s1).precision_ = 3) :=
  ⟨decimal_precision_spec.2.2.1 { max_ := DecimalVal.ofRaw 150 2 } (DecimalVal.ofRaw 7 4) rfl,
   decimal_precision_spec.1.2.1 { sum_ := DecimalVal.ofRaw 150 2 } (DecimalVal.ofRaw 200 3)
     rfl (by decide)⟩

/-- C18: for a list of nullable integers with `k < 2^64` non-null elements, a
fresh `AvgAggregate` advanced through it returns from `GetResultAvg` NULL exactly
when `k = 0`, and otherwise the non-null quotient of `sum` by `k` converted to
double, where `sum` is the double accumulation, left to right from `0.0`, of the
non-null payloads converted to double; an `Advance` with NULL changes neither the
sum nor the count.  The arithmetic of `double` is arbitrary. -/
theorem avg_result_spec :
    (∀ (D : Type) (ops : DoubleOps D) (toDouble : Int → D) (l : List Integer),
      (nonNullPayloads l).length < 2 ^ 64 →
      ((AvgAggregate.GetResultAvg ops
          (AvgAggregate.AdvanceAll ops toDouble (AvgAggregate.ctor ops) l)).is_null_ = true
        ↔ (nonNullPayloads l).length = 0)
      ∧ ((nonNullPayloads l).length ≠ 0 →
        AvgAggregate.GetResultAvg ops
            (AvgAggregate.AdvanceAll ops toDouble (AvgAggregate.ctor ops) l)
          = { is_null_ := false,
              val_ := ops.div (accumulate ops toDouble ops.zero (nonNullPayloads l))
                (ops.ofUInt64 (nonNullPayloads l).length) }))
    ∧ (∀ (D : Type) (ops : DoubleOps D) (toDouble : Int → D) (s : AvgAggregate D)
        (v : Integer), v.is_null_ = true →
      (AvgAggregate.Advance ops toDouble s v).sum_ = s.sum_
      ∧ (AvgAggregate.Advance ops toDouble s v).count_ = s.count_) := by
  constructor
  · intro D ops toDouble l hk
    have hrun := avg_advanceAll ops toDouble l (AvgAggregate.ctor ops) (avg_ctor_count_lt ops)
    have hcount : ((AvgAggregate.ctor ops).count_ + (nonNullPayloads l).length) % UINT64_MOD
        = (nonNullPayloads l).length := by
      have h0 : (AvgAggregate.ctor ops).count_ = 0 := rfl
      rw [h0, Nat.zero_add]
      exact Nat.mod_eq_of_lt (by unfold UINT64_MOD; omega)
    rw [hrun, hcount]
    have hsum : (AvgAggregate.ctor ops).sum_ = ops.zero := rfl
    rw [hsum]
    constructor
    · by_cases hz : (nonNullPayloads l).length = 0
      · simp [AvgAggregate.GetResultAvg, Real.Null, hz]
      · simp [AvgAggregate.GetResultAvg, hz]
    · intro hz
      simp [AvgAggregate.GetResultAvg, hz]
  · intro D ops toDouble s v hv
    simp [AvgAggregate.Advance, hv]

/-- Witness of C18 in double arithmetic: the average of `[3, NULL, 4]` is the
non-null double 3.5, that is `7 * 2^-1`. -/
theorem avg_result_spec_witness :
    AvgAggregate.GetResultAvg ieeeDoubleOps
        (AvgAggregate.AdvanceAll ieeeDoubleOps Double.ofInt (AvgAggregate.ctor ieeeDoubleOps)
          avgScenarioSmall)
      = { is_null_ := false,
          val_ := ieeeDoubleOps.div
            (accumulate ieeeDoubleOps Double.ofInt ieeeDoubleOps.zero
              (nonNullPayloads avgScenarioSmall))
            (ieeeDoubleOps.ofUInt64 (nonNullPayloads avgScenarioSmall).length) }
    ∧ ieeeDoubleOps.div
          (accumulate ieeeDoubleOps Double.ofInt ieeeDoubleOps.zero
            (nonNullPayloads avgScenarioSmall))
          (ieeeDoubleOps.ofUInt64 (nonNullPayloads avgScenarioSmall).length)
        = { mant := 7, exp := -1 } :=
  ⟨(avg_result_spec.1 Double ieeeDoubleOps Double.ofInt avgScenarioSmall (by decide)).2
      (by decide),
   by decide⟩

/-- C19 fails as stated: in double arithmetic, with `g1 = [2^53, 0]` and
`g2 = [1, 1]`, the merged state returns the average `2^51 + 0.5` while one fresh
state advanced through `g1` followed by `g2` returns `2^51`, because
`2^53 + 1` rounds to `2^53`. -/
theorem avg_merge_rounding_counterexample :
    AvgAggregate.GetResultAvg ieeeDoubleOps
        (AvgAggregate.Merge ieeeDoubleOps
          (AvgAggregate.AdvanceAll ieeeDoubleOps Double.ofInt (AvgAggregate.ctor ieeeDoubleOps)
            avgScenarioLeft)
          (AvgAggregate.AdvanceAll ieeeDoubleOps Double.ofInt (AvgAggregate.ctor ieeeDoubleOps)
            avgScenarioRight))
      = { is_null_ := false, val_ := { mant := 4503599627370497, exp := -1 } }
    ∧ AvgAggregate.GetResultAvg ieeeDoubleOps
        (AvgAggregate.AdvanceAll ieeeDoubleOps Double.ofInt (AvgAggregate.ctor ieeeDoubleOps)
          (avgScenarioLeft ++ avgScenarioRight))
      = { is_null_ := false, val_ := { mant := 1, exp := 51 } }
    ∧ AvgAggregate.GetResultAvg ieeeDoubleOps
        (AvgAggregate.Merge ieeeDoubleOps
          (AvgAggregate.AdvanceAll ieeeDoubleOps Double.ofInt (AvgAggregate.ctor ieeeDoubleOps)
            avgScenarioLeft)
          (AvgAggregate.AdvanceAll ieeeDoubleOps Double.ofInt (AvgAggregate.ctor ieeeDoubleOps)
            avgScenarioRight))
      ≠ AvgAggregate.GetResultAvg ieeeDoubleOps
          (AvgAggregate.AdvanceAll ieeeDoubleOps Double.ofInt (AvgAggregate.ctor ieeeDoubleOps)
            (avgScenarioLeft ++ avgScenarioRight)) := by
  refine ⟨by decide, by decide, by decide⟩

/-- C19, amended: for all lists `g1`, `g2` of nullable integers, merging the state
advanced through `g2` into the state advanced through `g1` gives the same count
and the same null flag of `GetResultAvg` as one fresh state advanced through
`g1 ++ g2`, and the sum `A.sum + B.sum`; the whole `GetResultAvg` is the same when
`A.sum + 0.0 = A.sum` and the double additions of the values of `g2` reassociate
around `A.sum`, that is when no rounding separates the two orders of addition. -/
theorem avg_merge_spec :
    (∀ (D : Type) (ops : DoubleOps D) (toDouble : Int → D) (g1 g2 : List Integer),
      (AvgAggregate.Merge ops
          (AvgAggregate.AdvanceAll ops toDouble (AvgAggregate.ctor ops) g1)
          (AvgAggregate.AdvanceAll ops toDouble (AvgAggregate.ctor ops) g2)).count_
        = (AvgAggregate.AdvanceAll ops toDouble (AvgAggregate.ctor ops) (g1 ++ g2)).count_
      ∧ (AvgAggregate.GetResultAvg ops
          (AvgAggregate.Merge ops
            (AvgAggregate.AdvanceAll ops toDouble (AvgAggregate.ctor ops) g1)
            (AvgAggregate.AdvanceAll ops toDouble (AvgAggregate.ctor ops) g2))).is_null_
        = (AvgAggregate.GetResultAvg ops
            (AvgAggregate.AdvanceAll ops toDouble (AvgAggregate.ctor ops) (g1 ++ g2))).is_null_
      ∧ (AvgAggregate.Merge ops
          (AvgAggregate.AdvanceAll ops toDouble (AvgAggregate.ctor ops) g1)
          (AvgAggregate.AdvanceAll ops toDouble (AvgAggregate.ctor ops) g2)).sum_
        = ops.add (AvgAggregate.AdvanceAll ops toDouble (AvgAggregate.ctor ops) g1).sum_
            (AvgAggregate.AdvanceAll ops toDouble (AvgAggregate.ctor ops) g2).sum_)
    ∧ (∀ (D : Type) [DecidableEq D] (ops : DoubleOps D) (toDouble : Int → D)
        (g1 g2 : List Integer),
      ops.add (AvgAggregate.AdvanceAll ops toDouble (AvgAggregate.ctor ops) g1).sum_ ops.zero
        = (AvgAggregate.AdvanceAll ops toDouble (AvgAggregate.ctor ops) g1).sum_ →
      reassociates ops (AvgAggregate.AdvanceAll ops toDouble (AvgAggregate.ctor ops) g1).sum_
        ops.zero ((nonNullPayloads g2).map toDouble) = true →
      AvgAggregate.GetResultAvg ops
          (AvgAggregate.Merge ops
            (AvgAggregate.AdvanceAll ops toDouble (AvgAggregate.ctor ops) g1)
            (AvgAggregate.AdvanceAll ops toDouble (AvgAggregate.ctor ops) g2))
        = AvgAggregate.GetResultAvg ops
            (AvgAggregate.AdvanceAll ops toDouble (AvgAggregate.ctor ops) (g1 ++ g2))) := by
  have hcount : ∀ (D : Type) (ops : DoubleOps D) (toDouble : Int → D) (g1 g2 : List Integer),
      (AvgAggregate.Merge ops
          (AvgAggregate.AdvanceAll ops toDouble (AvgAggregate.ctor ops) g1)
          (AvgAggregate.AdvanceAll ops toDouble (AvgAggregate.ctor ops) g2)).count_
        = (AvgAggregate.AdvanceAll ops toDouble (AvgAggregate.ctor ops) (g1 ++ g2)).count_ := by
    intro D ops toDouble g1 g2
    rw [avg_advanceAll ops toDouble g1 _ (avg_ctor_count_lt ops),
      avg_advanceAll ops toDouble g2 _ (avg_ctor_count_lt ops),
      avg_advanceAll ops toDouble (g1 ++ g2) _ (avg_ctor_count_lt ops), nonNullPayloads_append,
      List.length_append]
    simp only [AvgAggregate.Merge, wrapUInt64, AvgAggregate.ctor, UINT64_MOD]
    omega
  refine ⟨fun D ops toDouble g1 g2 => ⟨hcount D ops toDouble g1 g2, ?_, rfl⟩, ?_⟩
  · simp only [AvgAggregate.GetResultAvg, hcount D ops toDouble g1 g2]
    split <;> rfl
  · intro D _ ops toDouble g1 g2 hzero hre
    have hc := hcount D ops toDouble g1 g2
    have hsum : (AvgAggregate.Merge ops
          (AvgAggregate.AdvanceAll ops toDouble (AvgAggregate.ctor ops) g1)
          (AvgAggregate.AdvanceAll ops toDouble (AvgAggregate.ctor ops) g2)).sum_
        = (AvgAggregate.AdvanceAll ops toDouble (AvgAggregate.ctor ops) (g1 ++ g2)).sum_ := by
      have hfold := foldl_add_of_reassociates ops _ _ ops.zero hre
      rw [hzero] at hfold
      have hA := avg_advanceAll ops toDouble g1 (AvgAggregate.ctor ops) (avg_ctor_count_lt ops)
      have hB := avg_advanceAll ops toDouble g2 (AvgAggregate.ctor ops) (avg_ctor_count_lt ops)
      have hAB := avg_advanceAll ops toDouble (g1 ++ g2) (AvgAggregate.ctor ops) (avg_ctor_count_lt ops)
      have hBsum : (AvgAggregate.AdvanceAll ops toDouble (AvgAggregate.ctor ops) g2).sum_
          = ((nonNullPayloads g2).map toDouble).foldl ops.add ops.zero := by
        rw [hB, ← accumulate_eq_foldl_map]
        rfl
      have hABsum : (AvgAggregate.AdvanceAll ops toDouble (AvgAggregate.ctor ops) (g1 ++ g2)).sum_
          = ((nonNullPayloads g2).map toDouble).foldl ops.add
              (AvgAggregate.AdvanceAll ops toDouble (AvgAggregate.ctor ops) g1).sum_ := by
        rw [hAB, hA, nonNullPayloads_append, accumulate_append, ← accumulate_eq_foldl_map]
      simp only [AvgAggregate.Merge]
      rw [hBsum, hABsum, hfold]
    simp only [AvgAggregate.GetResultAvg, hc, hsum]

/-- Witness of C19, amended, in double arithmetic: with `g1 = [1, 1]` and
`g2 = [3, NULL, 4]` no addition rounds and the two averages agree. -/
theorem avg_merge_spec_witness :
    AvgAggregate.GetResultAvg ieeeDoubleOps
        (AvgAggregate.Merge ieeeDoubleOps
          (AvgAggregate.AdvanceAll ieeeDoubleOps Double.ofInt (AvgAggregate.ctor ieeeDoubleOps)
            avgScenarioRight)
          (AvgAggregate.AdvanceAll ieeeDoubleOps Double.ofInt (AvgAggregate.ctor ieeeDoubleOps)
            avgScenarioSmall))
      = AvgAggregate.GetResultAvg ieeeDoubleOps
          (AvgAggregate.AdvanceAll ieeeDoubleOps Double.ofInt (AvgAggregate.ctor ieeeDoubleOps)
            (avgScenarioRight ++ avgScenarioSmall)) :=
  avg_merge_spec.2 Double ieeeDoubleOps Double.ofInt avgScenarioRight avgScenarioSmall
    (by decide) (by decide)

/-- C17 fails as stated for the sum: with `g1 = [-5]` and `g2 = [2^127 - 1, 3]`,
all of precision 2, the total `2^127 - 3` is inside the signed 128-bit range and
one fresh state advanced through `g1` followed by `g2` succeeds, but the fresh
state advanced through `g2` alone overflows at its second element, so there is no
partial to merge. -/
theorem decimal_sum_merge_counterexample :
    IsInt128 (decimalTotal (decimalScenarioLeft ++ decimalScenarioRight))
    ∧ (∀ p0 : Nat,
        FixedDecimalSumAggregate.AdvanceAll (FixedDecimalSumAggregate.ctor p0)
            (decimalScenarioLeft ++ decimalScenarioRight)
          = .ok { sum_ := DecimalVal.ofRaw (INT128_MAX - 2) 2 })
    ∧ (∀ p0 : Nat,
        FixedDecimalSumAggregate.AdvanceAll (FixedDecimalSumAggregate.ctor p0)
            decimalScenarioRight
          = .error .ArithmeticOverflow) :=
  ⟨by decide, fun _ => rfl, fun _ => rfl⟩

/-- C17, amended: for `FixedDecimalMinAggregate` and `FixedDecimalMaxAggregate` and
all lists `g1`, `g2` of nullable signed 128-bit decimals, merging the fresh state
advanced through `g2` into the fresh state advanced through `g1` gives the result
(null flag, raw value and precision) of one fresh state advanced through
`g1 ++ g2`; for `FixedDecimalSumAggregate` the same holds, all four calls
succeeding, when every running sum of `g2` alone and of `g1` followed by `g2`
stays inside the signed 128-bit range.  The precisions need not agree. -/
theorem decimal_merge_eq_advance_append :
    (∀ (p0 : Nat) (g1 g2 : List DecimalVal), (∀ v ∈ g2, DecimalVal.WellFormed v) →
      FixedDecimalMinAggregate.GetResultMin
          (FixedDecimalMinAggregate.Merge
            (FixedDecimalMinAggregate.AdvanceAll (FixedDecimalMinAggregate.ctor p0) g1)
            (FixedDecimalMinAggregate.AdvanceAll (FixedDecimalMinAggregate.ctor p0) g2))
        = FixedDecimalMinAggregate.GetResultMin
            (FixedDecimalMinAggregate.AdvanceAll (FixedDecimalMinAggregate.ctor p0) (g1 ++ g2)))
    ∧ (∀ (p0 : Nat) (g1 g2 : List DecimalVal), (∀ v ∈ g2, DecimalVal.WellFormed v) →
      FixedDecimalMaxAggregate.GetResultMax
          (FixedDecimalMaxAggregate.Merge
            (FixedDecimalMaxAggregate.AdvanceAll (FixedDecimalMaxAggregate.ctor p0) g1)
            (FixedDecimalMaxAggregate.AdvanceAll (FixedDecimalMaxAggregate.ctor p0) g2))
        = FixedDecimalMaxAggregate.GetResultMax
            (FixedDecimalMaxAggregate.AdvanceAll (FixedDecimalMaxAggregate.ctor p0) (g1 ++ g2)))
    ∧ (∀ (p0 : Nat) (g1 g2 : List DecimalVal),
      runningSumsInRange 0 g2 = true → runningSumsInRange 0 (g1 ++ g2) = true →
      ∃ a b r,
        FixedDecimalSumAggregate.AdvanceAll (FixedDecimalSumAggregate.ctor p0) g1 = .ok a
        ∧ FixedDecimalSumAggregate.AdvanceAll (FixedDecimalSumAggregate.ctor p0) g2 = .ok b
        ∧ FixedDecimalSumAggregate.AdvanceAll (FixedDecimalSumAggregate.ctor p0) (g1 ++ g2)
            = .ok r
        ∧ FixedDecimalSumAggregate.Merge a b = .ok r) := by
  refine ⟨?_, ?_, ?_⟩
  · intro p0 g1 g2 h2
    have hrun : FixedDecimalMinAggregate.AdvanceAll (FixedDecimalMinAggregate.ctor p0) (g1 ++ g2)
        = FixedDecimalMinAggregate.AdvanceAll
            (FixedDecimalMinAggregate.AdvanceAll (FixedDecimalMinAggregate.ctor p0) g1) g2 := by
      simp [FixedDecimalMinAggregate.AdvanceAll, List.foldl_append]
    rw [hrun, decimalMin_merge_advanceAll g2 _ (FixedDecimalMinAggregate.ctor p0)
      (fun _ => by rw [decimalMin_ctor_eq]) h2]
    rfl
  · intro p0 g1 g2 h2
    have hrun : FixedDecimalMaxAggregate.AdvanceAll (FixedDecimalMaxAggregate.ctor p0) (g1 ++ g2)
        = FixedDecimalMaxAggregate.AdvanceAll
            (FixedDecimalMaxAggregate.AdvanceAll (FixedDecimalMaxAggregate.ctor p0) g1) g2 := by
      simp [FixedDecimalMaxAggregate.AdvanceAll, List.foldl_append]
    rw [hrun, decimalMax_merge_advanceAll g2 _ (FixedDecimalMaxAggregate.ctor p0)
      (fun _ => by rw [decimalMax_ctor_eq]) h2]
    rfl
  · intro p0 g1 g2 h2 h12
    obtain ⟨b, hb⟩ := decimalSum_advanceAll_ok g2 (FixedDecimalSumAggregate.ctor p0) h2
    obtain ⟨r, hr⟩ := decimalSum_advanceAll_ok (g1 ++ g2) (FixedDecimalSumAggregate.ctor p0) h12
    obtain ⟨a, ha, har⟩ := decimalSum_advanceAll_append g1 g2 _ r hr
    have hrange : IsInt128 r.sum_.val_.value_ :=
      decimalSum_advanceAll_inRange _ _ r hr (by show IsInt128 0; decide)
    refine ⟨a, b, r, ha, hb, hr, ?_⟩
    rcases decimalSum_advanceAll_parallel g2 _ a b r hb har with ⟨e1, e2⟩ | ⟨n1, n2, hp, hd⟩
    · subst e1
      subst e2
      simp [FixedDecimalSumAggregate.Merge, FixedDecimalSumAggregate.ctor]
    · have h0 : (FixedDecimalSumAggregate.ctor p0).sum_.val_.value_ = 0 := rfl
      rw [h0] at hd
      have hval : a.sum_.val_.value_ + b.sum_.val_.value_ = r.sum_.val_.value_ := by omega
      obtain ⟨⟨⟨rn⟩, ⟨rv⟩, rp⟩⟩ := r
      simp only at n2 hp hval hrange
      subst n2
      simp [FixedDecimalSumAggregate.Merge, Decimal128.AddAndSet, n1, hrange, hval, hp]

/-- Witness of C17, amended, at `g1 = [-5]` and `g2 = [150, NULL, 200]`: the
decimal maximum and the decimal sum after the merge are those of one pass. -/
theorem decimal_merge_eq_advance_append_witness :
    FixedDecimalMaxAggregate.GetResultMax
        (FixedDecimalMaxAggregate.Merge
          (FixedDecimalMaxAggregate.AdvanceAll (FixedDecimalMaxAggregate.ctor 0)
            decimalScenarioLeft)
          (FixedDecimalMaxAggregate.AdvanceAll (FixedDecimalMaxAggregate.ctor 0)
            decimalScenarioSmall))
      = FixedDecimalMaxAggregate.GetResultMax
          (FixedDecimalMaxAggregate.AdvanceAll (FixedDecimalMaxAggregate.ctor 0)
            (decimalScenarioLeft ++ decimalScenarioSmall))
    ∧ (∃ a b r,
        FixedDecimalSumAggregate.AdvanceAll (FixedDecimalSumAggregate.ctor 0)
            decimalScenarioLeft = .ok a
        ∧ FixedDecimalSumAggregate.AdvanceAll (FixedDecimalSumAggregate.ctor 0)
            decimalScenarioSmall = .ok b
        ∧ FixedDecimalSumAggregate.AdvanceAll (FixedDecimalSumAggregate.ctor 0)
            (decimalScenarioLeft ++ decimalScenarioSmall) = .ok r
        ∧ FixedDecimalSumAggregate.Merge a b = .ok r) :=
  ⟨decimal_merge_eq_advance_append.2.1 0 decimalScenarioLeft decimalScenarioSmall (by decide),
   decimal_merge_eq_advance_append.2.2 0 decimalScenarioLeft decimalScenarioSmall
     (by decide) (by decide)⟩

/-- C21: with `MultiplyAndSet` as the spec describes it, for all raw values `a`,
`b` and every precision `p` such that the product `a * b` divided by `10^p` and
truncated toward zero fits in signed 128 bits, `Decimal128(a).MultiplyAndSet(
Decimal128(b), p)` succeeds with that raw value; raw 150 times raw 200 with
`p = 2` gives raw 300, and the truncation is toward zero for a negative product
too (raw -7 times raw 1 with `p = 1` gives raw 0, raw -15 times raw 1 gives -1). -/
theorem decimal_multiply_spec :
    (∀ (a b : Int) (p : Nat), IsInt128 (truncatedQuotient (a * b) (10 ^ p)) →
      Decimal128.MultiplyAndSet { value_ := a } { value_ := b } p
        = .ok { value_ := truncatedQuotient (a * b) (10 ^ p) })
    ∧ Decimal128.MultiplyAndSet { value_ := 150 } { value_ := 200 } 2 = .ok { value_ := 300 }
    ∧ Decimal128.MultiplyAndSet { value_ := -7 } { value_ := 1 } 1 = .ok { value_ := 0 }
    ∧ Decimal128.MultiplyAndSet { value_ := -15 } { value_ := 1 } 1 = .ok { value_ := -1 } := by
  refine ⟨?_, rfl, rfl, rfl⟩
  intro a b p h
  have hq : Int.tdiv (a * b) (10 ^ p) = truncatedQuotient (a * b) (10 ^ p) := by
    have := tdiv_eq_truncatedQuotient (a * b) (10 ^ p)
    simpa using this
  simp only [Decimal128.MultiplyAndSet, hq, h, if_true]

/-- Witness of C21: raw 150 times raw 200 with precision 2 is raw 300. -/
theorem decimal_multiply_spec_witness :
    Decimal128.MultiplyAndSet { value_ := 150 } { value_ := 200 } 2
      = .ok { value_ := truncatedQuotient (150 * 200) (10 ^ 2) } :=
  decimal_multiply_spec.1 150 200 2 (by decide)

/-- C22: `operator!` applied to `StrongTypeAlias<Tag, T>(v)` returns `v`; the
operators `==` and `!=` of two aliases of the same tag are those of the underlying
values; hence, when `==` of `T` decides equality, `x == y` holds exactly when the
underlying values (and the aliases) are equal, and when `!=` of `T` is the
negation of its `==`, `x != y` is the negation of `x == y`. -/
theorem strong_alias_spec :
    (∀ (Tag T : Type) (v : T),
      StrongTypeAlias.operatorNot (StrongTypeAlias.ctor v : StrongTypeAlias Tag T) = v)
    ∧ (∀ (Tag T : Type) (ops : EqualityOps T) (x y : StrongTypeAlias Tag T),
      StrongTypeAlias.operatorEq ops x y
          = ops.eq (StrongTypeAlias.operatorNot x) (StrongTypeAlias.operatorNot y)
      ∧ StrongTypeAlias.operatorNe ops x y
          = ops.ne (StrongTypeAlias.operatorNot x) (StrongTypeAlias.operatorNot y))
    ∧ (∀ (Tag T : Type) (ops : EqualityOps T) (x y : StrongTypeAlias Tag T),
      (∀ a b : T, ops.eq a b = true ↔ a = b) →
      ((StrongTypeAlias.operatorEq ops x y = true
          ↔ StrongTypeAlias.operatorNot x = StrongTypeAlias.operatorNot y)
        ∧ (StrongTypeAlias.operatorEq ops x y = true ↔ x = y)))
    ∧ (∀ (Tag T : Type) (ops : EqualityOps T) (x y : StrongTypeAlias Tag T),
      (∀ a b : T, ops.ne a b = !ops.eq a b) →
      StrongTypeAlias.operatorNe ops x y = !StrongTypeAlias.operatorEq ops x y)
    ∧ (∀ (Tag T : Type) [DecidableEq T] (x y : StrongTypeAlias Tag T),
      (StrongTypeAlias.operatorEq (EqualityOps.builtin T) x y = true
          ↔ StrongTypeAlias.operatorNot x = StrongTypeAlias.operatorNot y)
      ∧ StrongTypeAlias.operatorNe (EqualityOps.builtin T) x y
          = !StrongTypeAlias.operatorEq (EqualityOps.builtin T) x y) := by
  refine ⟨fun _ _ _ => rfl, fun _ _ _ _ _ => ⟨rfl, rfl⟩, ?_, ?_, ?_⟩
  · intro Tag T ops x y h
    obtain ⟨xv⟩ := x
    obtain ⟨yv⟩ := y
    simp only [StrongTypeAlias.operatorEq, StrongTypeAlias.operatorNot, h,
      StrongTypeAlias.mk.injEq, and_self]
  · intro Tag T ops x y h
    simp only [StrongTypeAlias.operatorEq, StrongTypeAlias.operatorNe, h]
  · intro Tag T _ x y
    simp [StrongTypeAlias.operatorEq, StrongTypeAlias.operatorNe, StrongTypeAlias.operatorNot,
      EqualityOps.builtin]

/-- Witness of C22 for aliases of `uint32_t`: 42 and 10 are not equal under `==`
and are unequal under `!=`. -/
theorem strong_alias_spec_witness :
    ((StrongTypeAlias.operatorEq (EqualityOps.builtin Nat)
        (StrongTypeAlias.ctor 42 : StrongTypeAlias Unit Nat) (StrongTypeAlias.ctor 10) = true
      ↔ StrongTypeAlias.operatorNot (StrongTypeAlias.ctor 42 : StrongTypeAlias Unit Nat)
          = StrongTypeAlias.operatorNot (StrongTypeAlias.ctor 10 : StrongTypeAlias Unit Nat))
      ∧ (StrongTypeAlias.operatorEq (EqualityOps.builtin Nat)
          (StrongTypeAlias.ctor 42 : StrongTypeAlias Unit Nat) (StrongTypeAlias.ctor 10) = true
        ↔ (StrongTypeAlias.ctor 42 : StrongTypeAlias Unit Nat) = StrongTypeAlias.ctor 10))
    ∧ StrongTypeAlias.operatorNe (EqualityOps.builtin Nat)
        (StrongTypeAlias.ctor 42 : StrongTypeAlias Unit Nat) (StrongTypeAlias.ctor 10)
      = !StrongTypeAlias.operatorEq (EqualityOps.builtin Nat)
          (StrongTypeAlias.ctor 42 : StrongTypeAlias Unit Nat) (StrongTypeAlias.ctor 10) :=
  ⟨strong_alias_spec.2.2.1 Unit Nat (EqualityOps.builtin Nat) (StrongTypeAlias.ctor 42)
      (StrongTypeAlias.ctor 10) (fun a b => by simp [EqualityOps.builtin]),
   strong_alias_spec.2.2.2.1 Unit Nat (EqualityOps.builtin Nat) (StrongTypeAlias.ctor 42)
      (StrongTypeAlias.ctor 10) (fun a b => by simp [EqualityOps.builtin])⟩

/-- C24: in every state reachable from construction by `Advance`, `Merge` with
reachable partials and `Reset`, a NULL result carries the seed: a NULL sum of
`SumAggregate<Integer>` stores 0, a NULL maximum of `MaxAggregate<Integer>` stores
`INT64_MIN` and a NULL minimum of `MinAggregate<Integer>` stores `INT64_MAX`. -/
theorem null_carries_seed :
    (∀ s : SumAggregate Int, SumAggregate.ReachableState s →
      (SumAggregate.GetResultSum s).is_null_ = true → (SumAggregate.GetResultSum s).val_ = 0)
    ∧ (∀ s : MaxAggregate Int, MaxAggregate.ReachableState s →
      (MaxAggregate.GetResultMax s).is_null_ = true →
        (MaxAggregate.GetResultMax s).val_ = INT64_MIN)
    ∧ (∀ s : MinAggregate Int, MinAggregate.ReachableState s →
      (MinAggregate.GetResultMin s).is_null_ = true →
        (MinAggregate.GetResultMin s).val_ = INT64_MAX) := by
  refine ⟨?_, ?_, ?_⟩
  · intro s hs
    unfold SumAggregate.ReachableState at hs
    induction hs with
    | fresh => exact fun _ => rfl
    | advance s v _ _ ih =>
      cases hv : v.is_null_
      · simp [SumAggregate.GetResultSum, SumAggregate.Advance, hv]
      · simpa [SumAggregate.GetResultSum, SumAggregate.Advance, hv] using ih
    | merge s that _ _ ih _ =>
      cases hv : that.sum_.is_null_
      · simp [SumAggregate.GetResultSum, SumAggregate.Merge, hv]
      · simpa [SumAggregate.GetResultSum, SumAggregate.Merge, hv] using ih
    | reset s _ _ => exact fun _ => rfl
  · intro s hs
    unfold MaxAggregate.ReachableState at hs
    induction hs with
    | fresh => exact fun _ => rfl
    | advance s v _ _ ih =>
      cases hv : v.is_null_
      · simp [MaxAggregate.GetResultMax, MaxAggregate.Advance, hv]
      · simpa [MaxAggregate.GetResultMax, MaxAggregate.Advance, hv] using ih
    | merge s that _ _ ih _ =>
      cases hv : that.max_.is_null_
      · simp [MaxAggregate.GetResultMax, MaxAggregate.Merge, hv]
      · simpa [MaxAggregate.GetResultMax, MaxAggregate.Merge, hv] using ih
    | reset s _ _ => exact fun _ => rfl
  · intro s hs
    unfold MinAggregate.ReachableState at hs
    induction hs with
    | fresh => exact fun _ => rfl
    | advance s v _ _ ih =>
      cases hv : v.is_null_
      · simp [MinAggregate.GetResultMin, MinAggregate.Advance, hv]
      · simpa [MinAggregate.GetResultMin, MinAggregate.Advance, hv] using ih
    | merge s that _ _ ih _ =>
      cases hv : that.min_.is_null_
      · simp [MinAggregate.GetResultMin, MinAggregate.Merge, hv]
      · simpa [MinAggregate.GetResultMin, MinAggregate.Merge, hv] using ih
    | reset s _ _ => exact fun _ => rfl

/-- Witness of C24: the maximum advanced with 5, merged with a fresh partial and
then reset is NULL and stores `INT64_MIN`; the sum advanced with NULL stores 0. -/
theorem null_carries_seed_witness :
    (MaxAggregate.GetResultMax
        (MaxAggregate.Reset int64LimitOps
          (MaxAggregate.Merge int64LimitOps (maxAfter 5)
            (MaxAggregate.ctor int64LimitOps)))).val_ = INT64_MIN
    ∧ (SumAggregate.GetResultSum
        (SumAggregate.Advance int64SumOps (SumAggregate.ctor int64SumOps)
          Integer.Null)).val_ = 0 :=
  ⟨null_carries_seed.2.1 _
      (ReachableAll.reset _
        (ReachableAll.merge _ _
          (ReachableAll.advance _ _ ReachableAll.fresh (by decide)) ReachableAll.fresh))
      rfl,
   null_carries_seed.1 _ (ReachableAll.advance _ _ ReachableAll.fresh (by decide)) rfl⟩

/-- C23: for all strings `nums1`, `nums2` of the characters `'0'` to `'9'`
(leading zeros allowed, either may be empty), `string_multiply(nums1, nums2)` is a
string of digits that denotes the product of the two numbers, equal to `"0"` when
the product is zero and without leading `'0'` otherwise, so that its digits are
the decimal digits of the product; and every cell of every buffer the computation
goes through lies between `'0'` and `'0' + 18`. -/
theorem string_multiply_spec (nums1 nums2 : List Int) (h1 : IsDigitString nums1)
    (h2 : IsDigitString nums2) :
    IsDigitString (string_multiply nums1 nums2)
    ∧ decimalValue (string_multiply nums1 nums2) = decimalValue nums1 * decimalValue nums2
    ∧ (decimalValue nums1 * decimalValue nums2 = 0 → string_multiply nums1 nums2 = [48])
    ∧ (decimalValue nums1 * decimalValue nums2 ≠ 0 →
        ∃ c cs, string_multiply nums1 nums2 = c :: cs ∧ c ≠ 48)
    ∧ (decimalValue nums1 * decimalValue nums2 ≠ 0 →
        ((string_multiply nums1 nums2).map (fun c => (c - 48).toNat)).reverse
          = Nat.digits 10 (decimalValue nums1 * decimalValue nums2).toNat)
    ∧ (∀ buf ∈ string_multiply.trace nums1 nums2, ∀ c ∈ buf, 48 ≤ c ∧ c ≤ 66) := by
  obtain ⟨hrow, htr⟩ := outerLoop_inv nums1 nums2 h1 h2 nums1.length (le_refl _) _
    (rowInv_initial nums1 nums2)
  have hdig : IsDigitString (string_multiply nums1 nums2) :=
    strip_digits _ (rowInv_bounded hrow)
  have hval : decimalValue (string_multiply nums1 nums2)
      = decimalValue nums1 * decimalValue nums2 := by
    unfold string_multiply
    rw [strip_value, hrow.value, List.drop_zero]
  have hcanon : decimalValue nums1 * decimalValue nums2 ≠ 0 →
      ∃ c cs, string_multiply nums1 nums2 = c :: cs ∧ c ≠ 48 := by
    intro hne
    rcases strip_canonical (string_multiply.outerLoop nums1 nums2 nums1.length
      (List.replicate (nums1.length + nums2.length) 48)) with h | h
    · exfalso
      apply hne
      rw [← hval]
      unfold string_multiply
      rw [h]
      simp [decimalValue]
    · exact h
  refine ⟨hdig, hval, ?_, hcanon, ?_, ?_⟩
  · intro hz
    rcases strip_canonical (string_multiply.outerLoop nums1 nums2 nums1.length
      (List.replicate (nums1.length + nums2.length) 48)) with h | ⟨c, cs, h, hc⟩
    · exact h
    · exfalso
      have hmem : IsDigitString (c :: cs) := by
        have := hdig
        unfold string_multiply at this
        rwa [h] at this
      have hc48 := (hmem c (List.mem_cons_self c cs)).1
      have hpos := decimalValue_pos_of_head c cs (by omega)
        (fun x hx => (hmem x (List.mem_cons_of_mem c hx)).1)
      have hv := hval
      unfold string_multiply at hv
      rw [h, hz] at hv
      omega
  · intro hne
    obtain ⟨c, cs, h, hc⟩ := hcanon hne
    rw [← hval, ← digits_of_canonical _ hdig]
    symm
    apply Nat.digits_ofDigits 10 (by norm_num)
    · intro d hd
      rw [List.mem_reverse, List.mem_map] at hd
      obtain ⟨x, hx, rfl⟩ := hd
      have := hdig x hx
      omega
    · intro hnil
      rw [List.getLast_reverse]
      simp only [h, List.map_cons, List.head_cons]
      have := (hdig c (by rw [h]; exact List.mem_cons_self c cs))
      omega
  · intro buf hb
    unfold string_multiply.trace at hb
    rcases List.mem_cons.1 hb with rfl | hb
    · intro c hc
      rw [List.eq_of_mem_replicate hc]
      exact ⟨le_refl _, by norm_num⟩
    · exact htr buf hb

/-- Witness of C23: `"0099"` times `"99"` is `"9801"`. -/
theorem string_multiply_spec_witness :
    decimalValue (string_multiply stringScenarioLeft stringScenarioRight)
      = decimalValue stringScenarioLeft * decimalValue stringScenarioRight
    ∧ string_multiply stringScenarioLeft stringScenarioRight = [57, 56, 48, 49] :=
  ⟨(string_multiply_spec stringScenarioLeft stringScenarioRight (by decide) (by decide)).2.1,
   by decide⟩

end terrier
